import Mathlib

/-!
# Image server: command protocol codec, dispatcher, responses and command lines

A shallow embedding of `argparsing.c` (`create_image_processing_command_buffer`
and its three segment parsers, `parse_client_inputs`, `parse_server_inputs`),
`ioutils.c` (`apply_cmd_buffer_to_image`, `modify_mutex`), `httputils.c`
(`respond_to_request` and the response constructors,
`construct_operations_request`, `write_operations_response`) and
`servermain.c` (`handle_connection`, `signal_handler`).

Conventions of the embedding:

* a C string is a `List Char` (the bytes before the terminating NUL);
* `int` values are mathematical integers, with the `long`-to-`int` conversion
  and the wrap-around of the statistics counters made explicit (`toInt32`);
* a function returns `none` when the C code would leave defined behaviour
  (a write past the 100 allocated entries of the command buffer, a read of an
  entry that was never written);
* library functions that the sources call but do not define (`strtol`,
  `split_by_char`, the FreeImage transforms) are modelled separately and
  documented as such.
-/

namespace ImageServer

/-! ## Constants of `argparsing.c` and `argparsing.h` -/

/-- Inclusive lower bound for a rotation value. -/
def rotationMin : Int := -359
/-- Inclusive upper bound for a rotation value. -/
def rotationMax : Int := 359
/-- Inclusive lower bound for both width and height of scaling. -/
def scalingMin : Int := 1
/-- Inclusive upper bound for both width and height of scaling. -/
def scalingMax : Int := 10000
/-- Number of `int` entries allocated for a command buffer. -/
def cmdBufferDefaultSize : Nat := 100
/-- Length of the argument list of a rotate segment (name and one parameter). -/
def numRotateArgs : Nat := 2
/-- Length of the argument list of a flip segment (name and one parameter). -/
def numFlipArgs : Nat := 2
/-- Length of the argument list of a scale segment (name and two parameters). -/
def numScalingArgs : Nat := 3

/-- Value of `CMD_ROTATE` in `enum CommandTypes`. -/
def CMD_ROTATE : Int := 0
/-- Value of `CMD_FLIP` in `enum CommandTypes`. -/
def CMD_FLIP : Int := 1
/-- Value of `CMD_SCALE` in `enum CommandTypes`. -/
def CMD_SCALE : Int := 2
/-- Value of `FLIP_HORIZONTAL` in `enum FlipTypes`. -/
def FLIP_HORIZONTAL : Int := 0
/-- Value of `FLIP_VERTICAL` in `enum FlipTypes`. -/
def FLIP_VERTICAL : Int := 1

/-! ## Library functions used by the codec -/

/-- The C library `isspace` in the "C" locale. -/
def isspace (c : Char) : Bool :=
  c = ' ' || c = '\t' || c = '\n' || c = '\x0b' || c = '\x0c' || c = '\r'

/-- The C library `isdigit`. -/
def isdigit (c : Char) : Bool :=
  decide (48 ≤ c.toNat) && decide (c.toNat ≤ 57)

/-- Largest value of a `long` (64 bits wide, as on the LP64 Linux host the
server is written for). -/
def LONG_MAX : Int := 9223372036854775807
/-- Smallest value of a `long`. -/
def LONG_MIN : Int := -9223372036854775808

/-- The digit loop of `strtol`: reads decimal digits from the front of the
string, returning the accumulated value and the number of digits read. -/
def strtolDigits : List Char → Nat → Nat → Nat × Nat
  | [], acc, n => (acc, n)
  | c :: cs, acc, n =>
    if isdigit c then strtolDigits cs (acc * 10 + (c.toNat - 48)) (n + 1)
    else (acc, n)

/-- Model of the C library call `strtol(s, &endPtr, 10)`: skips leading white
space, accepts one optional sign, then reads decimal digits. Returns the
converted value (clamped to the range of `long`) and `endPtr - s`, the number
of characters consumed; when there is no digit nothing is consumed and the
value is 0. -/
def strtol (s : List Char) : Int × Nat :=
  let ws := (s.takeWhile isspace).length
  let body := s.dropWhile isspace
  let negative : Bool := body.head? = some '-'
  let signLen : Nat := if body.head? = some '-' ∨ body.head? = some '+' then 1 else 0
  let vn := strtolDigits (body.drop signLen) 0 0
  if vn.2 = 0 then (0, 0)
  else
    let x : Int := if negative then -(vn.1 : Int) else (vn.1 : Int)
    (max LONG_MIN (min LONG_MAX x), ws + signLen + vn.2)

/-- Conversion of a `long` to `int` as done by the assignment
`int x = strtol(...)`: the value is reduced modulo 2^32 into the range of a
32-bit signed integer. -/
def toInt32 (x : Int) : Int := (x + 2147483648) % 4294967296 - 2147483648

/-- Modelled from the spec: `split_by_char` belongs to the course library
`csse2310a4` and is not part of the sources. The specification has the address
"/seg1/seg2/.../segN" cut at the delimiter into the (empty) field before the
leading slash and one field per segment, and each segment cut at the secondary
delimiter into a name token and its parameter tokens. So the text is cut at
every occurrence of the delimiter: k delimiters give k + 1 fields, empty fields
included. A non-zero `maxFields` stops cutting once that many fields exist, the
last field keeping the rest of the text. The last delimiter of a text is
treated like every other one, so a text that ends in the delimiter, the
address "/" included, has a last, empty field; the specification gives no rule
for such texts, and speaks of "/" as an address without segments. The C
function returns the fields as a NULL-terminated array, here a list. -/
def split_by_char : List Char → Char → Nat → List (List Char)
  | [], _, _ => [[]]
  | c :: cs, split, maxFields =>
    if c = split ∧ maxFields ≠ 1 then
      [] :: split_by_char cs split (maxFields - 1)
    else
      match split_by_char cs split maxFields with
      | f :: fs => (c :: f) :: fs
      | [] => [[c]]

/-! ## The command buffer (`argparsing.h`) -/

/-- The struct `CommandBuffer`. `buffer` lists the entries written so far (the
heap block holds `cmdBufferDefaultSize` entries, the rest are uninitialised). -/
structure CommandBuffer where
  parseError : Bool
  buffer : List Int
  numCmds : Nat
deriving DecidableEq

/-- The two statements `cmdBuffer->buffer[cmdBuffer->numCmds] = v;
cmdBuffer->numCmds++;`. The write is defined only inside the allocated
block. -/
def CommandBuffer.store (cb : CommandBuffer) (v : Int) : Option CommandBuffer :=
  if cb.numCmds < cmdBufferDefaultSize then
    some { cb with buffer := cb.buffer ++ [v], numCmds := cb.numCmds + 1 }
  else none

/-! ## Segment parsers (`argparsing.c`) -/

/-- The function `parse_rotation_cmd`: returns the error code (0 or 1) and the
command buffer as left behind through the pointer. -/
def parse_rotation_cmd (cmdBuffer : CommandBuffer) (arg : List (List Char))
    (argSize : Nat) : Option (Nat × CommandBuffer) :=
  if argSize ≠ numRotateArgs then some (1, cmdBuffer)
  else do
    let cb1 ← cmdBuffer.store CMD_ROTATE
    let a1 ← arg[1]?
    let r := strtol a1
    let rotation := toInt32 r.1
    if r.2 = 0 then some (1, cb1)
    else if rotation < rotationMin ∨ rotation > rotationMax then some (1, cb1)
    else do
      let cb2 ← cb1.store rotation
      some (0, cb2)

/-- The function `parse_flip_cmd`. -/
def parse_flip_cmd (cmdBuffer : CommandBuffer) (arg : List (List Char))
    (argSize : Nat) : Option (Nat × CommandBuffer) :=
  if argSize ≠ numFlipArgs then some (1, cmdBuffer)
  else do
    let a1 ← arg[1]?
    if a1.length ≠ 1 then some (1, cmdBuffer)
    else do
      let cb1 ← cmdBuffer.store CMD_FLIP
      if a1.head? = some 'h' then do
        let cb2 ← cb1.store FLIP_HORIZONTAL
        some (0, cb2)
      else if a1.head? = some 'v' then do
        let cb2 ← cb1.store FLIP_VERTICAL
        some (0, cb2)
      else some (1, cb1)

/-- The function `parse_scaling_cmd`. -/
def parse_scaling_cmd (cmdBuffer : CommandBuffer) (arg : List (List Char))
    (argSize : Nat) : Option (Nat × CommandBuffer) :=
  if argSize ≠ numScalingArgs then some (1, cmdBuffer)
  else do
    let cb1 ← cmdBuffer.store CMD_SCALE
    let a1 ← arg[1]?
    let rw := strtol a1
    let width := toInt32 rw.1
    if rw.2 = 0 then some (1, cb1)
    else if width < scalingMin ∨ width > scalingMax then some (1, cb1)
    else do
      let cb2 ← cb1.store width
      let a2 ← arg[2]?
      let rh := strtol a2
      let height := toInt32 rh.1
      if rh.2 = 0 then some (1, cb2)
      else if height < scalingMin ∨ height > scalingMax then some (1, cb2)
      else do
        let cb3 ← cb2.store height
        some (0, cb3)

/-- One pass through the body of the `while` loop of
`create_image_processing_command_buffer` for the segment `args[i]`: the error
code of the segment and the buffer afterwards. -/
def parse_segment (cmdBuffer : CommandBuffer) (segment : List Char) :
    Option (Nat × CommandBuffer) :=
  let arg := split_by_char segment ',' 0
  let argSize := arg.length
  if arg.head? = some "rotate".toList then parse_rotation_cmd cmdBuffer arg argSize
  else if arg.head? = some "flip".toList then parse_flip_cmd cmdBuffer arg argSize
  else if arg.head? = some "scale".toList then parse_scaling_cmd cmdBuffer arg argSize
  else some (1, cmdBuffer)

/-- The `while (args[i] != NULL)` loop of
`create_image_processing_command_buffer`, on the fields from `args[i]` on. -/
def parse_segments : List (List Char) → CommandBuffer → Option CommandBuffer
  | [], cmdBuffer => some cmdBuffer
  | segment :: rest, cmdBuffer =>
    match parse_segment cmdBuffer segment with
    | none => none
    | some (error, cb) =>
      if error ≠ 0 then some { cb with parseError := true }
      else parse_segments rest cb

/-- The function `create_image_processing_command_buffer`: the address is split
at '/', the first field is skipped (`i` starts at 1) and every further field is
parsed as one segment. -/
def create_image_processing_command_buffer (address : List Char) :
    Option CommandBuffer :=
  let args := split_by_char address '/' 0
  parse_segments (args.drop 1) { parseError := false, buffer := [], numCmds := 0 }

/-! ## Statistics counters and the image engine (`ioutils.h`) -/

/-- The POSIX `sem_wait`, seen from the caller once it has returned: the count
is one lower than when the semaphore was taken. -/
def sem_wait (count : Int) : Int := count - 1

/-- The POSIX `sem_post`: the count is raised by one. -/
def sem_post (count : Int) : Int := count + 1

/-- The struct `Mutex`: an `int` value with the count of the semaphore guarding
it (1 when free). -/
structure Mutex where
  value : Int
  lock : Int
deriving DecidableEq

/-- The function `modify_mutex`: lock, change the value, unlock. The statement
`mutex->value += change` adds in `int`: a sum outside the range of a 32-bit
signed integer comes out reduced modulo 2^32 (`toInt32`), as the machine
addition gives it. -/
def modify_mutex (mutex : Mutex) (change : Int) : Mutex :=
  let locked : Mutex := { mutex with lock := sem_wait mutex.lock }
  let changed : Mutex := { locked with value := toInt32 (locked.value + change) }
  { changed with lock := sem_post changed.lock }

/-- The FreeImage transforms called by the dispatcher, which the sources use
but do not define; their behaviour is a parameter. `FreeImage_Rotate` and
`FreeImage_Rescale` return a new bitmap or NULL (`none`); the two flips work in
place and return whether they succeeded, together with the bitmap content
afterwards. `Img` is any type, so a bitmap value may carry whatever state the
behaviour of the engine depends on. -/
structure ImageEngine (Img : Type) where
  FreeImage_Rotate : Img → Int → Option Img
  FreeImage_FlipHorizontal : Img → Bool × Img
  FreeImage_FlipVertical : Img → Bool × Img
  FreeImage_Rescale : Img → Int → Int → Option Img

/-- A call made to the image engine, with its integer arguments. -/
inductive EngineCall where
  | rotate (angle : Int)
  | flipHorizontal
  | flipVertical
  | rescale (width height : Int)
deriving DecidableEq

/-- What `apply_cmd_buffer_to_image` leaves behind: the returned string
(`none` for NULL), the bitmap handle after the call (`none` for NULL), the
operations counter, and the engine calls made, oldest first. -/
structure ApplyResult (Img : Type) where
  failCheck : Option String
  bitmap : Option Img
  imageOps : Mutex
  calls : List EngineCall

/-- The `for` loop of `apply_cmd_buffer_to_image` from index `i` on. The first
argument bounds the number of iterations still allowed (every iteration raises
`i`, so `numCmds + 1` is enough); `none` also stands for the read of a buffer
entry that was never written. -/
def apply_loop {Img : Type} (engine : ImageEngine Img) (cmdBuffer : CommandBuffer) :
    Nat → Nat → Img → Mutex → List EngineCall → Option (ApplyResult Img)
  | 0, _, _, _, _ => none
  | fuel + 1, i, bitmap, imageOps, calls =>
    if i < cmdBuffer.numCmds then
      match cmdBuffer.buffer[i]? with
      | none => none
      | some cmd =>
        if cmd = CMD_ROTATE then
          match cmdBuffer.buffer[i + 1]? with
          | none => none
          | some angle =>
            match engine.FreeImage_Rotate bitmap angle with
            | none => some ⟨some "rotate", none, imageOps, calls ++ [.rotate angle]⟩
            | some rotated =>
              apply_loop engine cmdBuffer fuel (i + 1 + 1) rotated
                (modify_mutex imageOps 1) (calls ++ [.rotate angle])
        else if cmd = CMD_FLIP then
          match cmdBuffer.buffer[i + 1]? with
          | none => none
          | some axis =>
            if axis = FLIP_HORIZONTAL then
              let flipped := engine.FreeImage_FlipHorizontal bitmap
              if flipped.1 = false then
                some ⟨some "flip", some flipped.2, imageOps, calls ++ [.flipHorizontal]⟩
              else
                apply_loop engine cmdBuffer fuel (i + 1 + 1) flipped.2
                  (modify_mutex imageOps 1) (calls ++ [.flipHorizontal])
            else if axis = FLIP_VERTICAL then
              let flipped := engine.FreeImage_FlipVertical bitmap
              if flipped.1 = false then
                some ⟨some "flip", some flipped.2, imageOps, calls ++ [.flipVertical]⟩
              else
                apply_loop engine cmdBuffer fuel (i + 1 + 1) flipped.2
                  (modify_mutex imageOps 1) (calls ++ [.flipVertical])
            else
              apply_loop engine cmdBuffer fuel (i + 1 + 1) bitmap
                (modify_mutex imageOps 1) calls
        else if cmd = CMD_SCALE then
          match cmdBuffer.buffer[i + 1]?, cmdBuffer.buffer[i + 2]? with
          | some width, some height =>
            match engine.FreeImage_Rescale bitmap width height with
            | none => some ⟨some "scale", none, imageOps, calls ++ [.rescale width height]⟩
            | some scaled =>
              apply_loop engine cmdBuffer fuel (i + 2 + 1) scaled
                (modify_mutex imageOps 1) (calls ++ [.rescale width height])
          | _, _ => none
        else
          apply_loop engine cmdBuffer fuel (i + 1) bitmap (modify_mutex imageOps 1) calls
    else some ⟨none, some bitmap, imageOps, calls⟩

/-- The function `apply_cmd_buffer_to_image`, entered with a non-NULL bitmap
(its only caller checks that the image loaded). -/
def apply_cmd_buffer_to_image {Img : Type} (engine : ImageEngine Img) (bitmap : Img)
    (cmdBuffer : CommandBuffer) (imageOps : Mutex) : Option (ApplyResult Img) :=
  apply_loop engine cmdBuffer (cmdBuffer.numCmds + 1) 0 bitmap imageOps []

/-! ## The data model of the specification -/

/-- The axis of a flip. -/
inductive FlipAxis where
  | Horizontal
  | Vertical
deriving DecidableEq

/-- The tagged variant `Operation` of the data model. -/
inductive Operation where
  | Rotate (degrees : Int)
  | Flip (axis : FlipAxis)
  | Scale (width height : Int)
deriving DecidableEq

/-- The (tag, parameters) record of one operation in a packed buffer. -/
def Operation.pack : Operation → List Int
  | .Rotate degrees => [CMD_ROTATE, degrees]
  | .Flip .Horizontal => [CMD_FLIP, FLIP_HORIZONTAL]
  | .Flip .Vertical => [CMD_FLIP, FLIP_VERTICAL]
  | .Scale width height => [CMD_SCALE, width, height]

/-- The packed buffer holding the records of a list of operations, in order. -/
def packOps : List Operation → List Int
  | [] => []
  | op :: rest => op.pack ++ packOps rest

/-- The parameter bounds of the data model: degrees in -359..359, width and
height in 1..10000. -/
def Operation.inBounds : Operation → Prop
  | .Rotate degrees => -359 ≤ degrees ∧ degrees ≤ 359
  | .Flip _ => True
  | .Scale width height => (1 ≤ width ∧ width ≤ 10000) ∧ (1 ≤ height ∧ height ≤ 10000)

/-- The decimal digits of `n`, most significant first; the first argument
bounds the number of digits. -/
def decimalDigits : Nat → Nat → List Char
  | 0, _ => []
  | fuel + 1, n =>
    if n < 10 then [Nat.digitChar n]
    else decimalDigits fuel (n / 10) ++ [Nat.digitChar (n % 10)]

/-- Canonical decimal text of a natural number: no sign, no leading zero. -/
def natDecimal (n : Nat) : List Char := decimalDigits (n + 1) n

/-- Canonical decimal text of an integer: a minus sign for negative values,
then the canonical text of the absolute value. -/
def intDecimal (z : Int) : List Char :=
  if z < 0 then '-' :: natDecimal z.natAbs else natDecimal z.natAbs

/-- The address segment that names an operation in canonical form. -/
def Operation.segment : Operation → List Char
  | .Rotate degrees => "rotate,".toList ++ intDecimal degrees
  | .Flip .Horizontal => "flip,h".toList
  | .Flip .Vertical => "flip,v".toList
  | .Scale width height =>
    "scale,".toList ++ intDecimal width ++ ',' :: intDecimal height

/-- The address "/s1/s2/.../sN" made of the given segments. -/
def addressOf : List (List Char) → List Char
  | [] => []
  | segment :: rest => '/' :: segment ++ addressOf rest

/-- The engine call an operation is dispatched to. -/
def Operation.call : Operation → EngineCall
  | .Rotate degrees => .rotate degrees
  | .Flip .Horizontal => .flipHorizontal
  | .Flip .Vertical => .flipVertical
  | .Scale width height => .rescale width height

/-- The name of the kind of an operation. -/
def Operation.kindName : Operation → String
  | .Rotate _ => "rotate"
  | .Flip _ => "flip"
  | .Scale _ _ => "scale"

/-- The image after the engine has carried out one operation, `none` when the
engine reports the operation as failed. -/
def engineStep {Img : Type} (engine : ImageEngine Img) (bitmap : Img) :
    Operation → Option Img
  | .Rotate degrees => engine.FreeImage_Rotate bitmap degrees
  | .Flip .Horizontal =>
    if (engine.FreeImage_FlipHorizontal bitmap).1 then
      some (engine.FreeImage_FlipHorizontal bitmap).2 else none
  | .Flip .Vertical =>
    if (engine.FreeImage_FlipVertical bitmap).1 then
      some (engine.FreeImage_FlipVertical bitmap).2 else none
  | .Scale width height => engine.FreeImage_Rescale bitmap width height

/-- Index (from 0) of the first operation the engine fails on when the
operations are carried out in order, each on the result of the one before;
`none` when every operation succeeds. -/
def firstFailure {Img : Type} (engine : ImageEngine Img) : Img → List Operation → Option Nat
  | _, [] => none
  | bitmap, op :: rest =>
    match engineStep engine bitmap op with
    | none => some 0
    | some next => (firstFailure engine next rest).map (· + 1)

/-- The composition of the transforms of a list of operations, in order;
`none` when one of them fails. -/
def transformAll {Img : Type} (engine : ImageEngine Img) : Img → List Operation → Option Img
  | bitmap, [] => some bitmap
  | bitmap, op :: rest =>
    match engineStep engine bitmap op with
    | none => none
    | some next => transformAll engine next rest

/-! ## Requests and responses (`httputils.h`, `httputils.c`) -/

/-- Value of `HTTP_OK` in `enum HttpCode`. -/
def HTTP_OK : Nat := 200
/-- Value of `METHOD_NOT_ALLOWED` in `enum HttpCode`. -/
def METHOD_NOT_ALLOWED : Nat := 405
/-- Value of `OPERATION_NOT_IMPLEMENTED` in `enum HttpCode`. -/
def OPERATION_NOT_IMPLEMENTED : Nat := 501
/-- Value of `UNPROCESSABLE_IMAGE` in `enum HttpCode`. -/
def UNPROCESSABLE_IMAGE : Nat := 422
/-- Value of `IMAGE_TOO_LARGE` in `enum HttpCode`. -/
def IMAGE_TOO_LARGE : Nat := 413
/-- Value of `INVALID_OPERATION` in `enum HttpCode`. -/
def INVALID_OPERATION : Nat := 400
/-- Value of `ADDRESS_NOT_FOUND` in `enum HttpCode`. -/
def ADDRESS_NOT_FOUND : Nat := 404

/-- Default size used for the heap blocks that hold formatted messages. -/
def bufferSize : Nat := 100

/-- Maximum image size that the server accepts from a client, in bytes. -/
def maxImageSize : Nat := 8388608

/-- Modelled from the spec: the struct `HttpHeader` is declared by the course
library `csse2310a4`, not by the sources. A header is a name with a value,
such as `Content-Type` with `text/plain`. -/
structure HttpHeader where
  name : List Char
  value : List Char
deriving DecidableEq

/-- The struct `HttpRequest`. Body bytes are written as characters; `headers`
is the NULL-terminated array as a list. -/
structure HttpRequest where
  type : List Char
  address : List Char
  headers : List HttpHeader
  bodyData : List Char
  bodyLen : Nat
deriving DecidableEq

/-- The struct `HttpResponse`. -/
structure HttpResponse where
  status : Nat
  statusDescription : List Char
  headers : List HttpHeader
  bodyData : List Char
  bodyLen : Nat
deriving DecidableEq

/-- The struct `BinaryData` of `ioutils.h`: a byte array and its length. -/
structure BinaryData where
  data : List Char
  length : Nat
deriving DecidableEq

/-- The reading loop of `read_binary_file`: every byte `fgetc` delivers is
stored at index `length` and `length` goes up by one; the block is enlarged
every `sizeGuess` bytes, so the store always has room. -/
def read_binary_loop : List Char → List Char → Nat → BinaryData
  | [], buffer, length => ⟨buffer, length⟩
  | byte :: rest, buffer, length => read_binary_loop rest (buffer ++ [byte]) (length + 1)

/-- The function `read_binary_file` on an open stream, given as the bytes it
delivers up to end of file. -/
def read_binary_file (binaryFile : List Char) : BinaryData :=
  read_binary_loop binaryFile [] 0

/-- The image library functions `fi_load_image_from_buffer` and
`fi_save_png_image_to_buffer` of `csse2310_freeimage`, which the sources use
but do not define; their behaviour is a parameter. Loading returns a bitmap or
NULL (`none`), saving returns the PNG bytes of a bitmap. -/
structure ImageCodec (Img : Type) where
  fi_load_image_from_buffer : List Char → Nat → Option Img
  fi_save_png_image_to_buffer : Img → List Char

/-- A value of type `long unsigned int` read as a `long`, as the conversion
`%li` of `sprintf` does. -/
def toInt64 (x : Nat) : Int :=
  ((x : Int) + 9223372036854775808) % 18446744073709551616 - 9223372036854775808

/-- The text `sprintf` writes into a block of `capacity` bytes: defined only
when the text and its terminating NUL fit the block. -/
def sprintf_into (capacity : Nat) (text : List Char) : Option (List Char) :=
  if text.length + 1 ≤ capacity then some text else none

/-- The one header every constructor sets: `Content-Type` with the given
value, in a NULL-terminated array of two slots. -/
def contentTypeHeaders (value : List Char) : List HttpHeader :=
  [⟨"Content-Type".toList, value⟩]

/-- The function `create_home_post_request`; `homeFile` is the content of the
home page file the function opens. -/
def create_home_post_request (homeFile : List Char) : HttpResponse :=
  let homeBinary := read_binary_file homeFile
  { status := HTTP_OK
    statusDescription := "OK".toList
    headers := contentTypeHeaders "text/html".toList
    bodyData := homeBinary.data
    bodyLen := homeBinary.length }

/-- The function `create_not_found_post_request`. -/
def create_not_found_post_request : HttpResponse :=
  let message := "Invalid address\n".toList
  { status := ADDRESS_NOT_FOUND
    statusDescription := "Not Found".toList
    headers := contentTypeHeaders "text/plain".toList
    bodyData := message
    bodyLen := message.length }

/-- The function `create_invalid_op_post_request`. -/
def create_invalid_op_post_request : HttpResponse :=
  let msg := "Invalid operation requested\n".toList
  { status := INVALID_OPERATION
    statusDescription := "Bad Request".toList
    headers := contentTypeHeaders "text/plain".toList
    bodyData := msg
    bodyLen := msg.length }

/-- The function `create_payload_large_post_request`: the message is formatted
with `%li` into a block of `bufferSize` bytes. -/
def create_payload_large_post_request (payloadSize : Nat) : Option HttpResponse := do
  let message ← sprintf_into bufferSize
    ("Image received is too large: ".toList ++ intDecimal (toInt64 payloadSize)
      ++ " bytes\n".toList)
  some
    { status := IMAGE_TOO_LARGE
      statusDescription := "Payload Too Large".toList
      headers := contentTypeHeaders "text/plain".toList
      bodyData := message
      bodyLen := message.length }

/-- The function `create_unprocessable_post_request`. -/
def create_unprocessable_post_request : HttpResponse :=
  let msg := "Request contains invalid image\n".toList
  { status := UNPROCESSABLE_IMAGE
    statusDescription := "Unprocessable Content".toList
    headers := contentTypeHeaders "text/plain".toList
    bodyData := msg
    bodyLen := msg.length }

/-- The function `create_not_implemented_post_request`: the message is
formatted with `%s` into a block of `bufferSize` bytes. -/
def create_not_implemented_post_request (failCheck : String) : Option HttpResponse := do
  let message ← sprintf_into bufferSize
    ("Operation failed: ".toList ++ failCheck.toList ++ "\n".toList)
  some
    { status := OPERATION_NOT_IMPLEMENTED
      statusDescription := "Not Implemented".toList
      headers := contentTypeHeaders "text/plain".toList
      bodyData := message
      bodyLen := message.length }

/-- The function `create_method_disallowed_post_request`. -/
def create_method_disallowed_post_request : HttpResponse :=
  let msg := "Invalid method on request list\n".toList
  { status := METHOD_NOT_ALLOWED
    statusDescription := "Method Not Allowed".toList
    headers := contentTypeHeaders "text/plain".toList
    bodyData := msg
    bodyLen := msg.length }

/-- The function `create_image_return_post_request`. -/
def create_image_return_post_request {Img : Type} (codec : ImageCodec Img) (bitmap : Img) :
    HttpResponse :=
  let data := codec.fi_save_png_image_to_buffer bitmap
  { status := HTTP_OK
    statusDescription := "OK".toList
    headers := contentTypeHeaders "image/png".toList
    bodyData := data
    bodyLen := data.length }

/-- What a call of `respond_to_request` leaves behind: the response it
returns, the operations counter behind the pointer `imageOps`, the transforms
the image engine was asked for (oldest first) and the number of times an image
was loaded from a request body. -/
structure RespondResult where
  response : HttpResponse
  imageOps : Mutex
  calls : List EngineCall
  imageLoads : Nat
deriving DecidableEq

/-- The function `respond_to_request`. `none` stands for a run that leaves
defined behaviour inside the codec or the dispatcher. -/
def respond_to_request {Img : Type} (engine : ImageEngine Img) (codec : ImageCodec Img)
    (homeFile : List Char) (inHttp : HttpRequest) (imageOps : Mutex) :
    Option RespondResult :=
  if inHttp.type = "GET".toList then
    if inHttp.address.length = 1 ∧ inHttp.address = "/".toList then
      some ⟨create_home_post_request homeFile, imageOps, [], 0⟩
    else some ⟨create_not_found_post_request, imageOps, [], 0⟩
  else if inHttp.type = "POST".toList then
    match create_image_processing_command_buffer inHttp.address with
    | none => none
    | some cmdBuffer =>
      if cmdBuffer.parseError = true ∨ cmdBuffer.numCmds = 0 then
        some ⟨create_invalid_op_post_request, imageOps, [], 0⟩
      else if inHttp.bodyLen > maxImageSize then
        match create_payload_large_post_request inHttp.bodyLen with
        | none => none
        | some outHttp => some ⟨outHttp, imageOps, [], 0⟩
      else
        match codec.fi_load_image_from_buffer inHttp.bodyData inHttp.bodyLen with
        | none => some ⟨create_unprocessable_post_request, imageOps, [], 1⟩
        | some bitmap =>
          match apply_cmd_buffer_to_image engine bitmap cmdBuffer imageOps with
          | none => none
          | some applied =>
            match applied.failCheck with
            | some failCheck =>
              match create_not_implemented_post_request failCheck with
              | none => none
              | some outHttp => some ⟨outHttp, applied.imageOps, applied.calls, 1⟩
            | none =>
              match applied.bitmap with
              | none => none
              | some transformed =>
                some ⟨create_image_return_post_request codec transformed,
                  applied.imageOps, applied.calls, 1⟩
  else some ⟨create_method_disallowed_post_request, imageOps, [], 0⟩

/-! ## The connection worker (`servermain.c`) -/

/-- The struct `SharedStats`: the five counters of the statistics registry. -/
structure SharedStats where
  currentClients : Mutex
  finishedClients : Mutex
  okResponses : Mutex
  errorResponses : Mutex
  operationCompletions : Mutex
deriving DecidableEq

/-- The body of the `while` loop of `handle_connection` for a request that
`get_HTTP_request` has read: the response is built with the operations
counter, the response is counted by its status, and the response is written
to the socket. Returns the statistics afterwards and the response written. -/
def serve_request {Img : Type} (engine : ImageEngine Img) (codec : ImageCodec Img)
    (homeFile : List Char) (stats : SharedStats) (inHttp : HttpRequest) :
    Option (SharedStats × HttpResponse) :=
  match respond_to_request engine codec homeFile inHttp stats.operationCompletions with
  | none => none
  | some responded =>
    let stats1 : SharedStats := { stats with operationCompletions := responded.imageOps }
    let outHttp := responded.response
    if outHttp.status = HTTP_OK then
      some ({ stats1 with okResponses := modify_mutex stats1.okResponses 1 }, outHttp)
    else
      some ({ stats1 with errorResponses := modify_mutex stats1.errorResponses 1 }, outHttp)

/-- What one run of `handle_connection` leaves behind: the statistics when it
returns, the responses it wrote (oldest first), and the statistics as they
stood at the start of every pass of its `while` loop (oldest first), the pass
that meets the failed read included. -/
structure ConnectionRun where
  final : SharedStats
  written : List HttpResponse
  passes : List SharedStats
deriving DecidableEq

/-- The `while (1)` loop of `handle_connection` on a connection that delivers
the given requests and then fails to deliver another: each request is served
in turn, and on the read failure `finishedClients` goes up and
`currentClients` goes down. The responses written and the statistics at the
start of each pass are collected in order. -/
def handle_requests {Img : Type} (engine : ImageEngine Img) (codec : ImageCodec Img)
    (homeFile : List Char) :
    List HttpRequest → SharedStats → List HttpResponse → List SharedStats →
      Option ConnectionRun
  | [], stats, written, passes =>
    let stats1 : SharedStats :=
      { stats with finishedClients := modify_mutex stats.finishedClients 1 }
    some ⟨{ stats1 with currentClients := modify_mutex stats1.currentClients (-1) },
      written, passes ++ [stats]⟩
  | inHttp :: rest, stats, written, passes =>
    match serve_request engine codec homeFile stats inHttp with
    | none => none
    | some (stats1, outHttp) =>
      handle_requests engine codec homeFile rest stats1 (written ++ [outHttp])
        (passes ++ [stats])

/-- The function `handle_connection` in one thread: `currentClients` goes up on
entry, then the loop runs until the connection fails to deliver a request. -/
def handle_connection {Img : Type} (engine : ImageEngine Img) (codec : ImageCodec Img)
    (homeFile : List Char) (requests : List HttpRequest) (stats : SharedStats) :
    Option ConnectionRun :=
  handle_requests engine codec homeFile requests
    { stats with currentClients := modify_mutex stats.currentClients 1 } [] []

/-- An image codec on numbered bitmaps, for concrete runs: an empty body cannot
be loaded, any other body loads as the bitmap numbered by its length, and a
bitmap is saved as the decimal text of its number. -/
def sampleCodec : ImageCodec Nat where
  fi_load_image_from_buffer := fun bodyData _ =>
    if bodyData = [] then none else some bodyData.length
  fi_save_png_image_to_buffer := fun bitmap => natDecimal bitmap

/-- An image engine on numbered bitmaps on which every transform succeeds. -/
def plainEngine : ImageEngine Nat where
  FreeImage_Rotate := fun bitmap _ => some (bitmap + 1)
  FreeImage_FlipHorizontal := fun bitmap => (true, bitmap + 10)
  FreeImage_FlipVertical := fun bitmap => (true, bitmap + 20)
  FreeImage_Rescale := fun bitmap _ _ => some (bitmap + 100)

/-! ## Auxiliary definitions for the proofs -/

/-- The buffer after storing the entries `vs` one by one. -/
def CommandBuffer.extend (cb : CommandBuffer) (vs : List Int) : CommandBuffer :=
  { cb with buffer := cb.buffer ++ vs, numCmds := cb.numCmds + vs.length }


/-- Whether a parameter text begins with an integer in the sense of `strtol`:
after optional leading white space and one optional sign comes a digit. -/
def hasLeadingInteger (p : List Char) : Bool :=
  let body := p.dropWhile isspace
  let unsigned :=
    if body.head? = some '-' ∨ body.head? = some '+' then body.drop 1 else body
  match unsigned.head? with
  | some c => isdigit c
  | none => false

/-- A rotate or scale segment with the right number of parameters, one of
which does not begin with an integer. -/
def numericParameterWithoutInteger (segment : List Char) : Prop :=
  (∃ p, segment = "rotate,".toList ++ p ∧ ',' ∉ p ∧ hasLeadingInteger p = false)
    ∨ (∃ p q, segment = "scale,".toList ++ p ++ ',' :: q ∧ ',' ∉ p ∧ ',' ∉ q
        ∧ (hasLeadingInteger p = false ∨ hasLeadingInteger q = false))

/-- The bitmap handle left behind by an operation the engine failed on: NULL
after a failed rotate or rescale (the handle is overwritten with the result),
the bitmap as the flip left it after a failed flip. -/
def failedBitmap {Img : Type} (engine : ImageEngine Img) (bitmap : Img) :
    Operation → Option Img
  | .Rotate _ => none
  | .Flip .Horizontal => some (engine.FreeImage_FlipHorizontal bitmap).2
  | .Flip .Vertical => some (engine.FreeImage_FlipVertical bitmap).2
  | .Scale _ _ => none

/-- Fail-fast dispatch of a list of operations as the specification words it:
operations are carried out in order, the counter goes up by one after each
success, and the first failure stops the run with the name of its kind. -/
def runOps {Img : Type} (engine : ImageEngine Img) :
    Img → Mutex → List EngineCall → List Operation → ApplyResult Img
  | bitmap, imageOps, calls, [] => ⟨none, some bitmap, imageOps, calls⟩
  | bitmap, imageOps, calls, op :: rest =>
    match engineStep engine bitmap op with
    | some next => runOps engine next (modify_mutex imageOps 1) (calls ++ [op.call]) rest
    | none => ⟨some op.kindName, failedBitmap engine bitmap op, imageOps, calls ++ [op.call]⟩

/-- A packed buffer read left to right as (tag, parameters) records; reading
stops at the first entry that does not start a complete record. -/
def unpackOps : List Int → List Operation
  | [] => []
  | [_] => []
  | tag :: a :: rest =>
    if tag = CMD_ROTATE then .Rotate a :: unpackOps rest
    else if tag = CMD_FLIP then
      if a = FLIP_HORIZONTAL then .Flip .Horizontal :: unpackOps rest
      else if a = FLIP_VERTICAL then .Flip .Vertical :: unpackOps rest
      else []
    else if tag = CMD_SCALE then
      match rest with
      | [] => []
      | b :: rest2 => .Scale a b :: unpackOps rest2
    else []

/-- An image engine on numbered bitmaps, for concrete runs: rotation by 90
fails, every other rotation and every rescale gives a new bitmap, a horizontal
flip succeeds and a vertical flip fails. -/
def sampleEngine : ImageEngine Nat where
  FreeImage_Rotate := fun bitmap angle => if angle = 90 then none else some (bitmap + 1)
  FreeImage_FlipHorizontal := fun bitmap => (true, bitmap + 10)
  FreeImage_FlipVertical := fun bitmap => (false, bitmap)
  FreeImage_Rescale := fun bitmap _ _ => some (bitmap + 100)

/-! ## The statistics report (`servermain.c`) -/

/-- One `sem_wait` / `fprintf` / `sem_post` group of `signal_handler`: the
counter is locked, its value is printed in decimal after the text of the
format and followed by a newline, and the counter is unlocked. Returns the
counter afterwards and the text printed. -/
def report_counter (formatText : List Char) (mutex : Mutex) : Mutex × List Char :=
  let locked : Mutex := { mutex with lock := sem_wait mutex.lock }
  let text := formatText ++ intDecimal locked.value ++ "\n".toList
  ({ locked with lock := sem_post locked.lock }, text)

/-- The statements of `signal_handler` after `sigwait` has returned: the five
counters are printed to the error stream one after the other. Returns the
statistics afterwards and the text printed. -/
def print_statistics (sharedStats : SharedStats) : SharedStats × List Char :=
  let connected := report_counter "Currently connected clients: ".toList
    sharedStats.currentClients
  let completed := report_counter "Completed clients: ".toList sharedStats.finishedClients
  let successful := report_counter "Successfully processed HTTP requests: ".toList
    sharedStats.okResponses
  let errored := report_counter "HTTP requests unsuccessful: ".toList
    sharedStats.errorResponses
  let operations := report_counter "Operations on images completed: ".toList
    sharedStats.operationCompletions
  (⟨connected.1, completed.1, successful.1, errored.1, operations.1⟩,
    connected.2 ++ completed.2 ++ successful.2 ++ errored.2 ++ operations.2)

/-- The thread function `signal_handler` in a process that is sent `signals`
SIGHUP signals over its life. The function calls `sigwait` once: with no
signal it never gets past it and prints nothing; otherwise the first signal
ends the wait, the statistics are printed once and the function returns, so
the signals after the first stay pending. Returns the statistics afterwards
and all the text the thread prints. -/
def signal_handler (sharedStats : SharedStats) : Nat → SharedStats × List Char
  | 0 => (sharedStats, [])
  | _ + 1 => print_statistics sharedStats

/-! ## Client command line (`argparsing.c`, `stringutils.c`) -/

/-- Sentinel value for an error response in an integer function. -/
def intSentinal : Int := -1000000

/-- Maximum value for the server option `--max`. -/
def maxConnectionsMax : Int := 10000

/-- Command line options which share a similar format. -/
def cmdOptions : List (List Char) :=
  ["--input".toList, "--out".toList, "--rotate".toList, "--flip".toList]

/-- Number of entries of `cmdOptions`. -/
def optionsCount : Nat := 4

/-- The `for` loop of `get_string_array_index` from index `i` on. -/
def get_string_array_loop : List (List Char) → Nat → List Char → Int
  | [], _, _ => -1
  | entry :: rest, i, elem =>
    if entry = elem then (i : Int) else get_string_array_loop rest (i + 1) elem

/-- The function `get_string_array_index`: index of the first entry equal to
`elem` among the first `arraySize` entries, or -1. -/
def get_string_array_index (array : List (List Char)) (arraySize : Nat) (elem : List Char) :
    Int :=
  get_string_array_loop (array.take arraySize) 0 elem

/-- The struct `ClientInputsRaw`; a NULL pointer is `none`. -/
structure ClientInputsRaw where
  error : Bool
  portNumber : Option (List Char)
  inputFilePath : Option (List Char)
  outputFilePath : Option (List Char)
  rotationAngle : Option (List Char)
  flipAxis : Option (List Char)
  scaleWidth : Option (List Char)
  scaleHeight : Option (List Char)
deriving DecidableEq

/-- The value behind `*argPointers[indexCheck]` for the array `argPointers` of
`parse_raw_client_inputs`. -/
def ClientInputsRaw.argPointer (argsRaw : ClientInputsRaw) (indexCheck : Int) :
    Option (List Char) :=
  if indexCheck = 0 then argsRaw.inputFilePath
  else if indexCheck = 1 then argsRaw.outputFilePath
  else if indexCheck = 2 then argsRaw.rotationAngle
  else argsRaw.flipAxis

/-- The assignment `*argPointers[indexCheck] = value`. -/
def ClientInputsRaw.setArgPointer (argsRaw : ClientInputsRaw) (indexCheck : Int)
    (value : List Char) : ClientInputsRaw :=
  if indexCheck = 0 then { argsRaw with inputFilePath := some value }
  else if indexCheck = 1 then { argsRaw with outputFilePath := some value }
  else if indexCheck = 2 then { argsRaw with rotationAngle := some value }
  else { argsRaw with flipAxis := some value }

/-- The `for` loop of `parse_raw_client_inputs` on the arguments from
`argv[i]` on. -/
def parse_raw_client_loop : List (List Char) → ClientInputsRaw → ClientInputsRaw
  | [], argsRaw => argsRaw
  | arg :: rest, argsRaw =>
    let indexCheck := get_string_array_index cmdOptions optionsCount arg
    if indexCheck = -1 then
      if arg = "--scale".toList then
        match rest with
        | width :: height :: rest2 =>
          if argsRaw.scaleWidth.isSome then { argsRaw with error := true }
          else
            parse_raw_client_loop rest2
              { argsRaw with scaleWidth := some width, scaleHeight := some height }
        | _ => { argsRaw with error := true }
      else { argsRaw with error := true }
    else if (argsRaw.argPointer indexCheck).isSome then { argsRaw with error := true }
    else
      match rest with
      | [] => { argsRaw with error := true }
      | value :: rest1 =>
        if value.length = 0 then { argsRaw with error := true }
        else parse_raw_client_loop rest1 (argsRaw.setArgPointer indexCheck value)

/-- The function `parse_raw_client_inputs` on `argv` (`argc` is its length). -/
def parse_raw_client_inputs (argv : List (List Char)) : ClientInputsRaw :=
  let argsRaw : ClientInputsRaw := ⟨false, none, none, none, none, none, none, none⟩
  match argv with
  | _ :: portNumber :: rest =>
    if portNumber = "--".toList ∨ portNumber = "".toList then { argsRaw with error := true }
    else parse_raw_client_loop rest { argsRaw with portNumber := some portNumber }
  | _ => { argsRaw with error := true }

/-- The function `get_axis`; the character NUL stands for the error value 0. -/
def get_axis (flipAxis : List Char) : Char :=
  if flipAxis.length > 1 then Char.ofNat 0
  else if flipAxis.headD (Char.ofNat 0) ≠ 'h' ∧ flipAxis.headD (Char.ofNat 0) ≠ 'v' then
    Char.ofNat 0
  else flipAxis.headD (Char.ofNat 0)

/-- The function `get_rotation`. -/
def get_rotation (rotationAngle : List Char) : Int :=
  let converted := strtol rotationAngle
  let rotationAngleInt := toInt32 converted.1
  if converted.2 = 0 then intSentinal
  else if rotationAngleInt < rotationMin ∨ rotationAngleInt > rotationMax then intSentinal
  else rotationAngleInt

/-- The struct `Extent`. -/
structure Extent where
  width : Int
  height : Int
deriving DecidableEq

/-- The function `get_extent`. -/
def get_extent (width height : List Char) : Extent :=
  let extent : Extent := ⟨intSentinal, intSentinal⟩
  let convertedWidth := strtol width
  if convertedWidth.2 = 0 then extent
  else
    let extent1 : Extent := { extent with width := toInt32 convertedWidth.1 }
    let convertedHeight := strtol height
    if convertedHeight.2 = 0 then extent1
    else
      let extent2 : Extent := { extent1 with height := toInt32 convertedHeight.1 }
      let extent3 : Extent :=
        if extent2.width > scalingMax ∨ extent2.height > scalingMin then
          ⟨intSentinal, intSentinal⟩
        else extent2
      if extent3.width < scalingMin ∨ extent3.height < scalingMin then
        ⟨intSentinal, intSentinal⟩
      else extent3

/-- The struct `ClientInputs`. -/
structure ClientInputs where
  error : Bool
  portNumber : Option (List Char)
  inputFilePath : Option (List Char)
  outputFilePath : Option (List Char)
  rotationAngle : Int
  flipAxis : Char
  scaleWidth : Int
  scaleHeight : Int
  hasRotation : Bool
  hasFlipAxis : Bool
  hasScale : Bool
deriving DecidableEq

/-- The value `{0}` of the struct `ClientInputs`. -/
def ClientInputs.zero : ClientInputs :=
  ⟨false, none, none, none, 0, Char.ofNat 0, 0, 0, false, false, false⟩

/-- The function `copy_from_raw`. -/
def copy_from_raw (argsRaw : ClientInputsRaw) : ClientInputs :=
  { ClientInputs.zero with
    portNumber := argsRaw.portNumber
    inputFilePath := argsRaw.inputFilePath
    outputFilePath := argsRaw.outputFilePath
    hasRotation := argsRaw.rotationAngle.isSome
    hasFlipAxis := argsRaw.flipAxis.isSome
    hasScale := argsRaw.scaleWidth.isSome }

/-- The statements of `parse_client_inputs` after the call of
`parse_raw_client_inputs`. A raw string is only read when its flag is set, and
then it is not NULL. -/
def format_client_inputs (argsRaw : ClientInputsRaw) : ClientInputs :=
  if argsRaw.error then { ClientInputs.zero with error := true }
  else
    let args := copy_from_raw argsRaw
    let axis := get_axis (argsRaw.flipAxis.getD [])
    if args.hasFlipAxis = true ∧ axis = Char.ofNat 0 then { args with error := true }
    else
      let args1 := if args.hasFlipAxis = true then { args with flipAxis := axis } else args
      let rotation := get_rotation (argsRaw.rotationAngle.getD [])
      if args1.hasRotation = true ∧ rotation = intSentinal then { args1 with error := true }
      else
        let args2 :=
          if args1.hasRotation = true then { args1 with rotationAngle := rotation } else args1
        let extent := get_extent (argsRaw.scaleWidth.getD []) (argsRaw.scaleHeight.getD [])
        if args2.hasScale = true
            ∧ (extent.width = intSentinal ∨ extent.height = intSentinal) then
          { args2 with error := true }
        else
          let args3 :=
            if args2.hasScale = true then
              { args2 with scaleWidth := extent.width, scaleHeight := extent.height }
            else args2
          if args3.hasFlipAxis.toNat + args3.hasRotation.toNat + args3.hasScale.toNat > 1 then
            { args3 with error := true }
          else args3

/-- The function `parse_client_inputs` on `argv`. -/
def parse_client_inputs (argv : List (List Char)) : ClientInputs :=
  format_client_inputs (parse_raw_client_inputs argv)

/-! ## Client requests and responses (`httputils.c`) -/

/-- Default rotation to use if the user does not supply any options. -/
def defaultRotation : Int := 0

/-- The address `construct_operations_request` builds from the arguments: one
"/name,parameters" piece per flag that is set, formatted with `%c` and `%i`,
or "/rotate,0" when no flag is set. -/
def operations_address (args : ClientInputs) : List Char :=
  let flip := if args.hasFlipAxis = true then "/flip,".toList ++ [args.flipAxis] else []
  let rotate :=
    if args.hasRotation = true then "/rotate,".toList ++ intDecimal args.rotationAngle else []
  let scale :=
    if args.hasScale = true then
      "/scale,".toList ++ intDecimal args.scaleWidth ++ ",".toList ++ intDecimal args.scaleHeight
    else []
  let default :=
    if args.hasFlipAxis = false ∧ args.hasRotation = false ∧ args.hasScale = false then
      "/rotate,".toList ++ intDecimal defaultRotation
    else []
  flip ++ rotate ++ scale ++ default

/-- The function `construct_operations_request`: the request line with the
address, the `Content-Length` header, an empty line and the image bytes. The
sizes of the blocks the texts are written to are not part of the model. -/
def construct_operations_request (args : ClientInputs) (image : BinaryData) : BinaryData :=
  let httpRequest := "POST ".toList ++ operations_address args
    ++ " HTTP/1.1\nContent-Length: ".toList ++ intDecimal (toInt64 image.length)
    ++ "\n\n".toList
  ⟨httpRequest ++ image.data.take image.length, httpRequest.length + image.length⟩

/-- Message printed when no response could be read. -/
def noResponseMessage : List Char := "uqimageclient: server connection closed\n".toList
/-- Exit status when no response could be read. -/
def noResponseCode : Nat := 8
/-- Exit status when the response has a status other than 200. -/
def invalidStatusCode : Nat := 9

/-- What a call of `write_operations_response` leaves behind: its return value
and the bytes written to the output stream and to the error stream. -/
structure WriteResult where
  code : Nat
  output : List Char
  stderr : List Char
deriving DecidableEq

/-- The function `write_operations_response`. The library call
`get_HTTP_response` is the parameter `response`: `none` when no well-formed
response can be read, otherwise the status and body read. -/
def write_operations_response (response : Option HttpResponse) : WriteResult :=
  match response with
  | none => ⟨noResponseCode, [], noResponseMessage⟩
  | some received =>
    if received.status ≠ HTTP_OK then
      ⟨invalidStatusCode, [], received.bodyData.take received.bodyLen⟩
    else ⟨0, received.bodyData.take received.bodyLen, []⟩

/-! ## Server command line (`argparsing.c`) -/

/-- The struct `ServerInputs`. -/
structure ServerInputs where
  error : Bool
  maxConnections : Int
  port : Option (List Char)
deriving DecidableEq

/-- The `for` loop of `parse_server_inputs` on the arguments from `argv[i]` on.
A pointer into the argument strings is written as the index of the argument
with the offset in it; `argv[argc]`, the NULL that ends the array, has an
index that no string has. In the `--max` branch `endPtr` points into
`argv[i + 1]`, and the test that follows `i++` compares it with the start of
the argument one further on. -/
def parse_server_loop : Nat → List (List Char) → ServerInputs → ServerInputs
  | _, [], args => args
  | _, [_], args => { args with error := true }
  | i, option :: value :: rest, args =>
    if option = "--max".toList then
      if args.maxConnections ≠ -1 ∨ value.length = 0 then { args with error := true }
      else
        let converted := strtol value
        let args1 := { args with maxConnections := toInt32 converted.1 }
        let endPtr : Nat × Nat := (i + 1, converted.2)
        if endPtr = ((i + 1) + 1, 0) then { args1 with error := true }
        else parse_server_loop ((i + 1) + 1) rest args1
    else if option = "--port".toList then
      if args.port.isSome ∨ value.length = 0 then { args with error := true }
      else parse_server_loop ((i + 1) + 1) rest { args with port := some value }
    else { args with error := true }

/-- The function `parse_server_inputs` on `argv`: the loop returns at once
when it finds an error, otherwise the bound of `--max` is checked. -/
def parse_server_inputs (argv : List (List Char)) : ServerInputs :=
  let args := parse_server_loop 1 (argv.drop 1) ⟨false, -1, none⟩
  if args.error then args
  else if args.maxConnections > maxConnectionsMax then { args with error := true }
  else args

/-! ## Auxiliary definitions for the statistics and the command lines -/

/-- The values of a 32-bit signed integer. -/
def intRange (x : Int) : Prop := -2147483648 ≤ x ∧ x ≤ 2147483647

instance intRange_decidable (x : Int) : Decidable (intRange x) :=
  inferInstanceAs (Decidable (-2147483648 ≤ x ∧ x ≤ 2147483647))

/-- The five counters of the statistics registry by name. -/
inductive Counter where
  | currentClients
  | finishedClients
  | okResponses
  | errorResponses
  | operationCompletions
deriving DecidableEq

/-- The counter of the registry with the given name. -/
def SharedStats.counter (sharedStats : SharedStats) : Counter → Mutex
  | .currentClients => sharedStats.currentClients
  | .finishedClients => sharedStats.finishedClients
  | .okResponses => sharedStats.okResponses
  | .errorResponses => sharedStats.errorResponses
  | .operationCompletions => sharedStats.operationCompletions

/-- The call `modify_mutex(&(sharedStats->name), change)` on the registry. -/
def SharedStats.modify (sharedStats : SharedStats) (name : Counter) (change : Int) :
    SharedStats :=
  match name with
  | .currentClients =>
    { sharedStats with currentClients := modify_mutex sharedStats.currentClients change }
  | .finishedClients =>
    { sharedStats with finishedClients := modify_mutex sharedStats.finishedClients change }
  | .okResponses =>
    { sharedStats with okResponses := modify_mutex sharedStats.okResponses change }
  | .errorResponses =>
    { sharedStats with errorResponses := modify_mutex sharedStats.errorResponses change }
  | .operationCompletions =>
    { sharedStats with
      operationCompletions := modify_mutex sharedStats.operationCompletions change }

/-- The one operation a client run asks for, read off the parsed arguments:
the flip, rotation or scaling whose flag is set, or the default rotation by 0
when no flag is set. -/
def requestedOperation (args : ClientInputs) : Operation :=
  if args.hasFlipAxis = true then
    .Flip (if args.flipAxis = 'h' then .Horizontal else .Vertical)
  else if args.hasRotation = true then .Rotate args.rotationAngle
  else if args.hasScale = true then .Scale args.scaleWidth args.scaleHeight
  else .Rotate defaultRotation

/-- The five options of the client command line. -/
def clientOptions : List (List Char) := cmdOptions ++ ["--scale".toList]

/-- The arguments that stand in option position in the arguments after the
port, each with the arguments that follow it. The first argument is in option
position, and so is the argument that comes after the values of an option: two
values after `--scale`, one after any other argument. The number says how
many arguments are still to be passed over as values. -/
def optionOccurrences : Nat → List (List Char) → List (List Char × List (List Char))
  | _, [] => []
  | 0, arg :: rest =>
    (arg, rest) :: optionOccurrences (if arg = "--scale".toList then 2 else 1) rest
  | skip + 1, _ :: rest => optionOccurrences skip rest

/-- The arguments of a client command line that stand in option position. -/
def optionsGiven (argv : List (List Char)) : List (List Char) :=
  (optionOccurrences 0 (argv.drop 2)).map Prod.fst

/-- An option in option position with the values it needs: one non-empty
value after `--input`, `--out`, `--rotate` and `--flip`, two values after
`--scale`. -/
def wellFormedOccurrence (occurrence : List Char × List (List Char)) : Prop :=
  (occurrence.1 ∈ cmdOptions ∧ ∃ value rest, occurrence.2 = value :: rest ∧ value ≠ [])
    ∨ (occurrence.1 = "--scale".toList ∧ 2 ≤ occurrence.2.length)

/-- The client command lines named by C29: the port argument is missing, empty
or "--"; or an argument in option position is none of the five options; or an
option stands a second time in option position; or one of `--input`, `--out`,
`--rotate`, `--flip` is not followed by a non-empty value; or `--scale` is not
followed by two values. -/
def malformedClientCommandLine (argv : List (List Char)) : Prop :=
  argv.length < 2 ∨ argv[1]? = some "".toList ∨ argv[1]? = some "--".toList
    ∨ (∃ name ∈ optionsGiven argv, name ∉ clientOptions)
    ∨ ¬ (optionsGiven argv).Nodup
    ∨ (∃ occurrence ∈ optionOccurrences 0 (argv.drop 2),
        occurrence.1 ∈ cmdOptions ∧ (occurrence.2 = [] ∨ occurrence.2.head? = some []))
    ∨ (∃ occurrence ∈ optionOccurrences 0 (argv.drop 2),
        occurrence.1 = "--scale".toList ∧ occurrence.2.length < 2)

/-- The raw string stored for an option: the field `parse_raw_client_inputs`
sets when it meets the option (the width for `--scale`). -/
def ClientInputsRaw.fieldOf (argsRaw : ClientInputsRaw) (name : List Char) :
    Option (List Char) :=
  if name = "--input".toList then argsRaw.inputFilePath
  else if name = "--out".toList then argsRaw.outputFilePath
  else if name = "--rotate".toList then argsRaw.rotationAngle
  else if name = "--flip".toList then argsRaw.flipAxis
  else if name = "--scale".toList then argsRaw.scaleWidth
  else none

/-- What an accepted run of the loop of `parse_raw_client_inputs` tells about
the arguments it ran over: every argument in option position is an option with
its values, no option stands twice, none was set before the run, and each is
set after it, as is every field that was set before. -/
def clientLoopAccepts (args : List (List Char)) (argsRaw : ClientInputsRaw) : Prop :=
  (∀ occurrence ∈ optionOccurrences 0 args, wellFormedOccurrence occurrence)
    ∧ ((optionOccurrences 0 args).map Prod.fst).Nodup
    ∧ (∀ name ∈ (optionOccurrences 0 args).map Prod.fst, argsRaw.fieldOf name = none)
    ∧ (∀ name ∈ (optionOccurrences 0 args).map Prod.fst,
        ((parse_raw_client_loop args argsRaw).fieldOf name).isSome = true)
    ∧ (∀ name, (argsRaw.fieldOf name).isSome = true →
        ((parse_raw_client_loop args argsRaw).fieldOf name).isSome = true)

/-! ## The passes of the dispatcher loop -/

/-- One pass of the `for` loop of `apply_cmd_buffer_to_image`: the index `i` at
its start, the entry read there as the command, and the entries read as its
parameters together with the indices they were read at. -/
structure LoopPass where
  index : Nat
  command : Int
  paramIndices : List Nat
  params : List Int
deriving DecidableEq

/-- The `for` loop of `apply_cmd_buffer_to_image` from index `i` on, as
`apply_loop`, returning the passes it makes instead of the image: a pass is
recorded for every value of `i` the loop body is entered with, the pass on
which a transform fails included. -/
def apply_loop_passes {Img : Type} (engine : ImageEngine Img) (cmdBuffer : CommandBuffer) :
    Nat → Nat → Img → Option (List LoopPass)
  | 0, _, _ => none
  | fuel + 1, i, bitmap =>
    if i < cmdBuffer.numCmds then
      match cmdBuffer.buffer[i]? with
      | none => none
      | some cmd =>
        if cmd = CMD_ROTATE then
          match cmdBuffer.buffer[i + 1]? with
          | none => none
          | some angle =>
            match engine.FreeImage_Rotate bitmap angle with
            | none => some [⟨i, cmd, [i + 1], [angle]⟩]
            | some rotated =>
              (apply_loop_passes engine cmdBuffer fuel (i + 1 + 1) rotated).map
                (fun passes => ⟨i, cmd, [i + 1], [angle]⟩ :: passes)
        else if cmd = CMD_FLIP then
          match cmdBuffer.buffer[i + 1]? with
          | none => none
          | some axis =>
            if axis = FLIP_HORIZONTAL then
              let flipped := engine.FreeImage_FlipHorizontal bitmap
              if flipped.1 = false then some [⟨i, cmd, [i + 1], [axis]⟩]
              else
                (apply_loop_passes engine cmdBuffer fuel (i + 1 + 1) flipped.2).map
                  (fun passes => ⟨i, cmd, [i + 1], [axis]⟩ :: passes)
            else if axis = FLIP_VERTICAL then
              let flipped := engine.FreeImage_FlipVertical bitmap
              if flipped.1 = false then some [⟨i, cmd, [i + 1], [axis]⟩]
              else
                (apply_loop_passes engine cmdBuffer fuel (i + 1 + 1) flipped.2).map
                  (fun passes => ⟨i, cmd, [i + 1], [axis]⟩ :: passes)
            else
              (apply_loop_passes engine cmdBuffer fuel (i + 1 + 1) bitmap).map
                (fun passes => ⟨i, cmd, [i + 1], [axis]⟩ :: passes)
        else if cmd = CMD_SCALE then
          match cmdBuffer.buffer[i + 1]?, cmdBuffer.buffer[i + 2]? with
          | some width, some height =>
            match engine.FreeImage_Rescale bitmap width height with
            | none => some [⟨i, cmd, [i + 1, i + 2], [width, height]⟩]
            | some scaled =>
              (apply_loop_passes engine cmdBuffer fuel (i + 2 + 1) scaled).map
                (fun passes => ⟨i, cmd, [i + 1, i + 2], [width, height]⟩ :: passes)
          | _, _ => none
        else
          (apply_loop_passes engine cmdBuffer fuel (i + 1) bitmap).map
            (fun passes => ⟨i, cmd, [], []⟩ :: passes)
    else some []

/-- The pass that reads the packed record of an operation stored from index
`offset` on. -/
def Operation.pass (offset : Nat) : Operation → LoopPass
  | .Rotate degrees => ⟨offset, CMD_ROTATE, [offset + 1], [degrees]⟩
  | .Flip .Horizontal => ⟨offset, CMD_FLIP, [offset + 1], [FLIP_HORIZONTAL]⟩
  | .Flip .Vertical => ⟨offset, CMD_FLIP, [offset + 1], [FLIP_VERTICAL]⟩
  | .Scale width height => ⟨offset, CMD_SCALE, [offset + 1, offset + 2], [width, height]⟩

/-- One pass per operation, each at the index where the record of its
operation starts, up to and including the first operation the engine fails
on. -/
def passesOf {Img : Type} (engine : ImageEngine Img) : Nat → Img → List Operation → List LoopPass
  | _, _, [] => []
  | offset, bitmap, op :: rest =>
    match engineStep engine bitmap op with
    | none => [op.pass offset]
    | some next => op.pass offset :: passesOf engine (offset + op.pack.length) next rest

/-- The value of an `int` counter after `count` calls of `modify_mutex` with
the change 1. -/
def incremented : Int → Nat → Int
  | value, 0 => value
  | value, count + 1 => incremented (toInt32 (value + 1)) count

/-! # Theorems -/

/-! ## Splitting -/

theorem split_by_char_ne_nil (s : List Char) (d : Char) (m : Nat) :
    split_by_char s d m ≠ [] := by
  induction s generalizing m with
  | nil => simp [split_by_char]
  | cons c cs ih =>
    unfold split_by_char
    split_ifs
    · simp
    · cases h : split_by_char cs d m with
      | nil => simp
      | cons f fs => simp

theorem split_by_char_no_delim (s : List Char) (d : Char) (h : d ∉ s) :
    split_by_char s d 0 = [s] := by
  induction s with
  | nil => simp [split_by_char]
  | cons c cs ih =>
    have hc : c ≠ d := fun e => h (by simp [e])
    have hcs : d ∉ cs := fun e => h (by simp [e])
    unfold split_by_char
    simp [hc, ih hcs]

theorem split_by_char_append (a b : List Char) (d : Char) (h : d ∉ a) :
    split_by_char (a ++ d :: b) d 0 = a :: split_by_char b d 0 := by
  induction a with
  | nil => simp [split_by_char]
  | cons c cs ih =>
    have hc : c ≠ d := fun e => h (by simp [e])
    have hcs : d ∉ cs := fun e => h (by simp [e])
    rw [List.cons_append]
    conv_lhs => unfold split_by_char
    simp [hc, ih hcs]

theorem split_by_char_addressOf (p : List Char) (segs : List (List Char))
    (hp : '/' ∉ p) (h : ∀ s ∈ segs, '/' ∉ s) :
    split_by_char (p ++ addressOf segs) '/' 0 = p :: segs := by
  induction segs generalizing p with
  | nil => simpa [addressOf] using split_by_char_no_delim p '/' hp
  | cons s rest ih =>
    have hs : '/' ∉ s := h s (by simp)
    have hrest : ∀ t ∈ rest, '/' ∉ t := fun t ht => h t (by simp [ht])
    simp only [addressOf, List.cons_append]
    rw [split_by_char_append p _ '/' hp, ih s hs hrest]

/-- Decoding an address made of '/'-free segments runs the segment loop over
exactly those segments. -/
theorem create_addressOf (segs : List (List Char)) (h : ∀ s ∈ segs, '/' ∉ s) :
    create_image_processing_command_buffer (addressOf segs)
      = parse_segments segs ⟨false, [], 0⟩ := by
  have := split_by_char_addressOf [] segs (by simp) h
  simp only [List.nil_append] at this
  simp [create_image_processing_command_buffer, this]

/-! ## Canonical decimal text and `strtol` -/

theorem digitChar_isdigit (d : Nat) (h : d < 10) :
    isdigit (Nat.digitChar d) = true ∧ (Nat.digitChar d).toNat - 48 = d := by
  interval_cases d <;> decide

theorem decimalDigits_isdigit (fuel n : Nat) :
    ∀ c ∈ decimalDigits fuel n, isdigit c = true := by
  induction fuel generalizing n with
  | zero => simp [decimalDigits]
  | succ fuel ih =>
    intro c hc
    unfold decimalDigits at hc
    split_ifs at hc with hn
    · simp only [List.mem_singleton] at hc
      rw [hc]; exact (digitChar_isdigit n hn).1
    · rw [List.mem_append] at hc
      rcases hc with hc | hc
      · exact ih _ c hc
      · simp only [List.mem_singleton] at hc
        rw [hc]; exact (digitChar_isdigit _ (Nat.mod_lt _ (by norm_num))).1

theorem decimalDigits_length_pos (fuel n : Nat) :
    0 < (decimalDigits (fuel + 1) n).length := by
  unfold decimalDigits
  split_ifs <;> simp

theorem strtolDigits_decimalDigits (fuel : Nat) :
    ∀ (n : Nat), n < fuel → ∀ (acc cnt : Nat) (rest : List Char),
      strtolDigits (decimalDigits fuel n ++ rest) acc cnt
        = strtolDigits rest (acc * 10 ^ (decimalDigits fuel n).length + n)
            (cnt + (decimalDigits fuel n).length) := by
  induction fuel with
  | zero => intro n hn; omega
  | succ fuel ih =>
    intro n hn acc cnt rest
    unfold decimalDigits
    split_ifs with h10
    · obtain ⟨h1, h2⟩ := digitChar_isdigit n h10
      simp [strtolDigits, h1, h2]
    · have hlt : n / 10 < fuel := by omega
      obtain ⟨h1, h2⟩ := digitChar_isdigit (n % 10) (Nat.mod_lt _ (by norm_num))
      rw [List.append_assoc, ih (n / 10) hlt]
      simp only [List.singleton_append, strtolDigits, h1, h2, if_true, List.length_append,
        List.length_singleton]
      congr 1
      · rw [pow_succ]
        have := Nat.div_add_mod n 10
        nlinarith [this]

theorem strtolDigits_natDecimal (n : Nat) :
    strtolDigits (natDecimal n) 0 0 = (n, (natDecimal n).length) := by
  have := strtolDigits_decimalDigits (n + 1) n (by omega) 0 0 []
  simpa [natDecimal, strtolDigits] using this

theorem natDecimal_isdigit (n : Nat) : ∀ c ∈ natDecimal n, isdigit c = true :=
  decimalDigits_isdigit (n + 1) n

theorem natDecimal_length_pos (n : Nat) : 0 < (natDecimal n).length :=
  decimalDigits_length_pos n n

theorem isdigit_not_special (c : Char) (h : isdigit c = true) :
    isspace c = false ∧ c ≠ '-' ∧ c ≠ '+' ∧ c ≠ ',' ∧ c ≠ '/' := by
  simp only [isdigit, Bool.and_eq_true, decide_eq_true_eq] at h
  refine ⟨?_, ?_, ?_, ?_, ?_⟩
  · simp only [isspace, Bool.or_eq_false_iff, decide_eq_false_iff_not]
    refine ⟨⟨⟨⟨⟨?_, ?_⟩, ?_⟩, ?_⟩, ?_⟩, ?_⟩ <;> (intro e; rw [e] at h; revert h; decide)
  all_goals (intro e; rw [e] at h; revert h; decide)

/-- The function `strtol` reads the canonical text of a natural number back
completely. -/
theorem strtol_natDecimal (n : Nat) :
    strtol (natDecimal n) = (max LONG_MIN (min LONG_MAX (n : Int)), (natDecimal n).length) := by
  obtain ⟨c, cs, hcs⟩ : ∃ c cs, natDecimal n = c :: cs := by
    have := natDecimal_length_pos n
    cases h : natDecimal n with
    | nil => simp [h] at this
    | cons c cs => exact ⟨c, cs, rfl⟩
  have hc : isdigit c = true := natDecimal_isdigit n c (by simp [hcs])
  obtain ⟨h1, h2, h3, -, -⟩ := isdigit_not_special c hc
  have hd := strtolDigits_natDecimal n
  have hpos := natDecimal_length_pos n
  rw [hcs] at hd ⊢
  simp [strtol, h1, h2, h3, hd]

/-- The function `strtol` reads the canonical text of a negative number back
completely. -/
theorem strtol_neg_natDecimal (n : Nat) :
    strtol ('-' :: natDecimal n)
      = (max LONG_MIN (min LONG_MAX (-(n : Int))), (natDecimal n).length + 1) := by
  have hd := strtolDigits_natDecimal n
  have hpos := natDecimal_length_pos n
  have hsp : isspace '-' = false := by decide
  have hne : (natDecimal n).length ≠ 0 := by omega
  simp [strtol, hsp, hd, hne]
  omega

theorem intDecimal_chars (z : Int) : ∀ c ∈ intDecimal z, c = '-' ∨ isdigit c = true := by
  intro c hc
  unfold intDecimal at hc
  split_ifs at hc
  · rw [List.mem_cons] at hc
    rcases hc with hc | hc
    · exact Or.inl hc
    · exact Or.inr (natDecimal_isdigit _ c hc)
  · exact Or.inr (natDecimal_isdigit _ c hc)

theorem intDecimal_no_comma (z : Int) : ',' ∉ intDecimal z := by
  intro h
  rcases intDecimal_chars z _ h with h | h
  · revert h; decide
  · revert h; decide

theorem intDecimal_no_slash (z : Int) : '/' ∉ intDecimal z := by
  intro h
  rcases intDecimal_chars z _ h with h | h
  · revert h; decide
  · revert h; decide

/-- The function `strtol` reads the canonical text of every integer in the
range of `long` back completely, consuming at least one character. -/
theorem strtol_intDecimal (z : Int) (hlo : LONG_MIN ≤ z) (hhi : z ≤ LONG_MAX) :
    (strtol (intDecimal z)).1 = z ∧ (strtol (intDecimal z)).2 ≠ 0 := by
  unfold intDecimal
  split_ifs with hneg
  · rw [strtol_neg_natDecimal]
    have : -((z.natAbs : Nat) : Int) = z := by omega
    rw [this]
    refine ⟨?_, by simp⟩
    simp only
    rw [min_eq_right hhi, max_eq_right hlo]
  · rw [strtol_natDecimal]
    have : ((z.natAbs : Nat) : Int) = z := by omega
    rw [this]
    have := natDecimal_length_pos z.natAbs
    refine ⟨?_, by simp only; omega⟩
    simp only
    rw [min_eq_right hhi, max_eq_right hlo]

theorem toInt32_of_range (z : Int) (hlo : -2147483648 ≤ z) (hhi : z ≤ 2147483647) :
    toInt32 z = z := by
  unfold toInt32
  omega

/-! ## The segment parsers on well-delimited segments -/

theorem parse_segment_rotate (cb : CommandBuffer) (p : List Char) (hp : ',' ∉ p) :
    parse_segment cb ("rotate,".toList ++ p)
      = parse_rotation_cmd cb ["rotate".toList, p] 2 := by
  have h1 : "rotate,".toList ++ p = "rotate".toList ++ ',' :: p := by simp
  have h2 : split_by_char ("rotate".toList ++ ',' :: p) ',' 0 = ["rotate".toList, p] := by
    rw [split_by_char_append _ _ _ (by decide), split_by_char_no_delim p ',' hp]
  rw [parse_segment, h1, h2]
  simp

theorem parse_segment_flip (cb : CommandBuffer) (p : List Char) (hp : ',' ∉ p) :
    parse_segment cb ("flip,".toList ++ p)
      = parse_flip_cmd cb ["flip".toList, p] 2 := by
  have h1 : "flip,".toList ++ p = "flip".toList ++ ',' :: p := by simp
  have h2 : split_by_char ("flip".toList ++ ',' :: p) ',' 0 = ["flip".toList, p] := by
    rw [split_by_char_append _ _ _ (by decide), split_by_char_no_delim p ',' hp]
  rw [parse_segment, h1, h2]
  simp

theorem parse_segment_scale (cb : CommandBuffer) (p q : List Char)
    (hp : ',' ∉ p) (hq : ',' ∉ q) :
    parse_segment cb ("scale,".toList ++ p ++ ',' :: q)
      = parse_scaling_cmd cb ["scale".toList, p, q] 3 := by
  have h1 : "scale,".toList ++ p ++ ',' :: q = "scale".toList ++ ',' :: (p ++ ',' :: q) := by
    simp
  have h2 : split_by_char ("scale".toList ++ ',' :: (p ++ ',' :: q)) ',' 0
      = ["scale".toList, p, q] := by
    rw [split_by_char_append _ _ _ (by decide), split_by_char_append _ _ _ hp,
      split_by_char_no_delim q ',' hq]
  rw [parse_segment, h1, h2]
  simp

theorem parse_rotation_cmd_eq (cb : CommandBuffer) (name p : List Char) :
    parse_rotation_cmd cb [name, p] 2 =
      if 100 ≤ cb.numCmds then none
      else if (strtol p).2 = 0 then some (1, cb.extend [0])
      else if toInt32 (strtol p).1 < -359 ∨ toInt32 (strtol p).1 > 359 then
        some (1, cb.extend [0])
      else if 99 ≤ cb.numCmds then none
      else some (0, cb.extend [0, toInt32 (strtol p).1]) := by
  simp only [parse_rotation_cmd, numRotateArgs, CommandBuffer.store, cmdBufferDefaultSize,
    CMD_ROTATE, rotationMin, rotationMax, CommandBuffer.extend]
  by_cases h100 : 100 ≤ cb.numCmds
  · have h : ¬ cb.numCmds < 100 := by omega
    simp [h100, h]
  · have h : cb.numCmds < 100 := by omega
    by_cases hz : (strtol p).2 = 0
    · simp [h100, h, hz]
    · by_cases hr : toInt32 (strtol p).1 < -359 ∨ toInt32 (strtol p).1 > 359
      · simp [h100, h, hz, hr]
      · by_cases h99 : 99 ≤ cb.numCmds
        · have h' : ¬ cb.numCmds + 1 < 100 := by omega
          simp [h100, h, hz, hr, h99, h']
        · have h' : cb.numCmds + 1 < 100 := by omega
          simp [h100, h, hz, hr, h99, h']

theorem parse_flip_cmd_eq (cb : CommandBuffer) (name p : List Char) :
    parse_flip_cmd cb [name, p] 2 =
      if p.length ≠ 1 then some (1, cb)
      else if 100 ≤ cb.numCmds then none
      else if p = ['h'] then
        (if 99 ≤ cb.numCmds then none else some (0, cb.extend [1, 0]))
      else if p = ['v'] then
        (if 99 ≤ cb.numCmds then none else some (0, cb.extend [1, 1]))
      else some (1, cb.extend [1]) := by
  simp only [parse_flip_cmd, numFlipArgs, CommandBuffer.store, cmdBufferDefaultSize,
    CMD_FLIP, FLIP_HORIZONTAL, FLIP_VERTICAL, CommandBuffer.extend]
  by_cases hl : p.length ≠ 1
  · simp [hl]
  · have hl1 : p.length = 1 := by omega
    obtain ⟨c, rfl⟩ : ∃ c, p = [c] := List.length_eq_one.mp hl1
    by_cases h100 : 100 ≤ cb.numCmds
    · have h : ¬ cb.numCmds < 100 := by omega
      simp [h100, h]
    · have h : cb.numCmds < 100 := by omega
      by_cases hh : c = 'h'
      · by_cases h99 : 99 ≤ cb.numCmds
        · have h' : ¬ cb.numCmds + 1 < 100 := by omega
          simp [h100, h, hh, h99, h']
        · have h' : cb.numCmds + 1 < 100 := by omega
          simp [h100, h, hh, h99, h']
      · by_cases hv : c = 'v'
        · by_cases h99 : 99 ≤ cb.numCmds
          · have h' : ¬ cb.numCmds + 1 < 100 := by omega
            simp [h100, h, hv, h99, h']
          · have h' : cb.numCmds + 1 < 100 := by omega
            simp [h100, h, hv, h99, h']
        · simp [h100, h, hh, hv]

theorem parse_scaling_cmd_eq (cb : CommandBuffer) (name p q : List Char) :
    parse_scaling_cmd cb [name, p, q] 3 =
      if 100 ≤ cb.numCmds then none
      else if (strtol p).2 = 0 then some (1, cb.extend [2])
      else if toInt32 (strtol p).1 < 1 ∨ toInt32 (strtol p).1 > 10000 then
        some (1, cb.extend [2])
      else if 99 ≤ cb.numCmds then none
      else if (strtol q).2 = 0 then some (1, cb.extend [2, toInt32 (strtol p).1])
      else if toInt32 (strtol q).1 < 1 ∨ toInt32 (strtol q).1 > 10000 then
        some (1, cb.extend [2, toInt32 (strtol p).1])
      else if 98 ≤ cb.numCmds then none
      else some (0, cb.extend [2, toInt32 (strtol p).1, toInt32 (strtol q).1]) := by
  simp only [parse_scaling_cmd, numScalingArgs, CommandBuffer.store, cmdBufferDefaultSize,
    CMD_SCALE, scalingMin, scalingMax, CommandBuffer.extend]
  by_cases h100 : 100 ≤ cb.numCmds
  · have h : ¬ cb.numCmds < 100 := by omega
    simp [h100, h]
  · have h : cb.numCmds < 100 := by omega
    by_cases hz : (strtol p).2 = 0
    · simp [h100, h, hz]
    · by_cases hr : toInt32 (strtol p).1 < 1 ∨ toInt32 (strtol p).1 > 10000
      · simp [h100, h, hz, hr]
      · by_cases h99 : 99 ≤ cb.numCmds
        · have h' : ¬ cb.numCmds + 1 < 100 := by omega
          simp [h100, h, hz, hr, h99, h']
        · have h' : cb.numCmds + 1 < 100 := by omega
          by_cases hz2 : (strtol q).2 = 0
          · simp [h100, h, hz, hr, h99, h', hz2]
          · by_cases hr2 : toInt32 (strtol q).1 < 1 ∨ toInt32 (strtol q).1 > 10000
            · simp [h100, h, hz, hr, h99, h', hz2, hr2]
            · by_cases h98 : 98 ≤ cb.numCmds
              · have h'' : ¬ cb.numCmds + 1 + 1 < 100 := by omega
                simp [h100, h, hz, hr, h99, h', hz2, hr2, h98, h'']
              · have h'' : cb.numCmds + 1 + 1 < 100 := by omega
                simp [h100, h, hz, hr, h99, h', hz2, hr2, h98, h'']

/-! ## Canonical addresses -/

theorem CommandBuffer.extend_nil (cb : CommandBuffer) : cb.extend [] = cb := by
  cases cb; simp [CommandBuffer.extend]

theorem CommandBuffer.extend_extend (cb : CommandBuffer) (us vs : List Int) :
    (cb.extend us).extend vs = cb.extend (us ++ vs) := by
  simp [CommandBuffer.extend, Nat.add_assoc]

theorem strtol_intDecimal_int32 (z : Int) (hlo : -2147483648 ≤ z) (hhi : z ≤ 2147483647) :
    toInt32 (strtol (intDecimal z)).1 = z ∧ (strtol (intDecimal z)).2 ≠ 0 := by
  have h := strtol_intDecimal z (by unfold LONG_MIN; omega) (by unfold LONG_MAX; omega)
  rw [h.1]
  exact ⟨toInt32_of_range z hlo hhi, h.2⟩

/-- A canonical segment with parameters in bounds is parsed into its packed
record when the record fits the allocated block, and runs past the block
otherwise. -/
theorem parse_segment_canonical (op : Operation) (h : op.inBounds) (cb : CommandBuffer) :
    parse_segment cb op.segment =
      if cb.numCmds + op.pack.length ≤ 100 then some (0, cb.extend op.pack) else none := by
  cases op with
  | Rotate a =>
    obtain ⟨h1, h2⟩ : -359 ≤ a ∧ a ≤ 359 := h
    obtain ⟨hv, hn⟩ := strtol_intDecimal_int32 a (by omega) (by omega)
    simp only [Operation.segment, Operation.pack, CMD_ROTATE]
    rw [parse_segment_rotate _ _ (intDecimal_no_comma a), parse_rotation_cmd_eq, hv]
    have hr : ¬ (a < -359 ∨ a > 359) := by omega
    simp only [hn, hr, if_false, List.length_cons, List.length_nil]
    by_cases hc : cb.numCmds + 2 ≤ 100
    · have c1 : ¬ 100 ≤ cb.numCmds := by omega
      have c2 : ¬ 99 ≤ cb.numCmds := by omega
      simp [hc, c1, c2]
    · by_cases c1 : 100 ≤ cb.numCmds
      · simp [hc, c1]
      · have c2 : 99 ≤ cb.numCmds := by omega
        simp [hc, c1, c2]
  | Flip axis =>
    cases axis with
    | Horizontal =>
      have e : Operation.segment (.Flip .Horizontal) = "flip,".toList ++ ['h'] := by decide
      rw [e, parse_segment_flip _ _ (by decide), parse_flip_cmd_eq]
      simp only [Operation.pack, CMD_FLIP, FLIP_HORIZONTAL, List.length_cons, List.length_nil]
      by_cases hc : cb.numCmds + 2 ≤ 100
      · have c1 : ¬ 100 ≤ cb.numCmds := by omega
        have c2 : ¬ 99 ≤ cb.numCmds := by omega
        simp [hc, c1, c2]
      · by_cases c1 : 100 ≤ cb.numCmds
        · simp [hc, c1]
        · have c2 : 99 ≤ cb.numCmds := by omega
          simp [hc, c1, c2]
    | Vertical =>
      have e : Operation.segment (.Flip .Vertical) = "flip,".toList ++ ['v'] := by decide
      rw [e, parse_segment_flip _ _ (by decide), parse_flip_cmd_eq]
      simp only [Operation.pack, CMD_FLIP, FLIP_VERTICAL, List.length_cons, List.length_nil]
      by_cases hc : cb.numCmds + 2 ≤ 100
      · have c1 : ¬ 100 ≤ cb.numCmds := by omega
        have c2 : ¬ 99 ≤ cb.numCmds := by omega
        simp [hc, c1, c2]
      · by_cases c1 : 100 ≤ cb.numCmds
        · simp [hc, c1]
        · have c2 : 99 ≤ cb.numCmds := by omega
          simp [hc, c1, c2]
  | Scale w ht =>
    obtain ⟨⟨h1, h2⟩, h3, h4⟩ : (1 ≤ w ∧ w ≤ 10000) ∧ (1 ≤ ht ∧ ht ≤ 10000) := h
    obtain ⟨hv, hn⟩ := strtol_intDecimal_int32 w (by omega) (by omega)
    obtain ⟨hv2, hn2⟩ := strtol_intDecimal_int32 ht (by omega) (by omega)
    simp only [Operation.segment, Operation.pack, CMD_SCALE]
    rw [parse_segment_scale _ _ _ (intDecimal_no_comma w) (intDecimal_no_comma ht),
      parse_scaling_cmd_eq, hv, hv2]
    have hr : ¬ (w < 1 ∨ w > 10000) := by omega
    have hr2 : ¬ (ht < 1 ∨ ht > 10000) := by omega
    simp only [hn, hn2, hr, hr2, if_false, List.length_cons, List.length_nil]
    by_cases hc : cb.numCmds + 3 ≤ 100
    · have c1 : ¬ 100 ≤ cb.numCmds := by omega
      have c2 : ¬ 99 ≤ cb.numCmds := by omega
      have c3 : ¬ 98 ≤ cb.numCmds := by omega
      simp [hc, c1, c2, c3]
    · by_cases c1 : 100 ≤ cb.numCmds
      · simp [hc, c1]
      · by_cases c2 : 99 ≤ cb.numCmds
        · simp [hc, c1, c2]
        · have c3 : 98 ≤ cb.numCmds := by omega
          simp [hc, c1, c2, c3]

theorem packOps_length_cons (op : Operation) (rest : List Operation) :
    (packOps (op :: rest)).length = op.pack.length + (packOps rest).length := by
  simp [packOps]

theorem parse_segments_canonical (ops : List Operation) (h : ∀ op ∈ ops, op.inBounds)
    (cb : CommandBuffer) (hcb : cb.numCmds ≤ 100) :
    parse_segments (ops.map Operation.segment) cb =
      if cb.numCmds + (packOps ops).length ≤ 100 then some (cb.extend (packOps ops))
      else none := by
  induction ops generalizing cb with
  | nil => simp [parse_segments, packOps, CommandBuffer.extend_nil, hcb]
  | cons op rest ih =>
    have hop : op.inBounds := h op (by simp)
    have hrest : ∀ o ∈ rest, o.inBounds := fun o ho => h o (by simp [ho])
    simp only [List.map_cons, parse_segments]
    rw [parse_segment_canonical op hop cb, packOps_length_cons]
    by_cases hc : cb.numCmds + op.pack.length ≤ 100
    · simp only [hc, if_true, ne_eq, not_true_eq_false, if_false]
      rw [ih hrest _ (by simpa [CommandBuffer.extend] using hc), CommandBuffer.extend_extend]
      simp only [CommandBuffer.extend, packOps, Nat.add_assoc]
    · have : ¬ cb.numCmds + (op.pack.length + (packOps rest).length) ≤ 100 := by omega
      simp [hc, this]

theorem segment_no_slash (op : Operation) : '/' ∉ op.segment := by
  cases op with
  | Rotate a =>
    simp only [Operation.segment, List.mem_append, not_or]
    exact ⟨by decide, intDecimal_no_slash a⟩
  | Flip axis => cases axis <;> decide
  | Scale w ht =>
    simp only [Operation.segment, List.mem_append, List.mem_cons, not_or]
    exact ⟨⟨by decide, intDecimal_no_slash w⟩, by decide, intDecimal_no_slash ht⟩

/-- Decoding of a canonical address whose operations are all within bounds:
while the packed records fit the 100 allocated entries the result is exactly
the packed list of the operations, in address order, without parse error;
beyond that the codec writes past the allocated block. -/
theorem decode_canonical_address (ops : List Operation) (h : ∀ op ∈ ops, op.inBounds) :
    create_image_processing_command_buffer (addressOf (ops.map Operation.segment)) =
      if (packOps ops).length ≤ 100 then
        some ⟨false, packOps ops, (packOps ops).length⟩
      else none := by
  rw [create_addressOf _ (by
    intro s hs
    obtain ⟨op, -, rfl⟩ := List.mem_map.mp hs
    exact segment_no_slash op)]
  rw [parse_segments_canonical ops h _ (by simp)]
  simp [CommandBuffer.extend]

theorem create_single_segment (seg : List Char) (h : '/' ∉ seg) :
    create_image_processing_command_buffer ('/' :: seg)
      = parse_segments [seg] ⟨false, [], 0⟩ := by
  have := create_addressOf [seg] (by simpa using h)
  simpa [addressOf] using this

/-- C2: for every 32-bit integer n in canonical decimal, the address
"/rotate,n" decodes to a defined result, and that result is free of a parse
error exactly when -359 <= n <= 359. -/
theorem rotate_address_accepted_iff (n : Int) (hlo : -2147483648 ≤ n)
    (hhi : n ≤ 2147483647) :
    ∃ cb, create_image_processing_command_buffer ("/rotate,".toList ++ intDecimal n) = some cb
      ∧ (cb.parseError = false ↔ (-359 ≤ n ∧ n ≤ 359)) := by
  have e : "/rotate,".toList ++ intDecimal n = '/' :: ("rotate,".toList ++ intDecimal n) := by
    simp
  have hs : '/' ∉ "rotate,".toList ++ intDecimal n := by
    simp only [List.mem_append, not_or]
    exact ⟨by decide, intDecimal_no_slash n⟩
  obtain ⟨hv, hn⟩ := strtol_intDecimal_int32 n hlo hhi
  rw [e, create_single_segment _ hs]
  simp only [parse_segments]
  rw [parse_segment_rotate _ _ (intDecimal_no_comma n), parse_rotation_cmd_eq, hv]
  by_cases hr : n < -359 ∨ n > 359
  · refine ⟨⟨true, [0], 1⟩, ?_, ?_⟩
    · simp [hn, hr, CommandBuffer.extend]
    · simp only [Bool.true_eq_false, false_iff]; omega
  · refine ⟨⟨false, [0, n], 2⟩, ?_, ?_⟩
    · simp [hn, hr, CommandBuffer.extend, parse_segments]
    · simp only [true_iff]; omega

/-- C2, at the accepted boundary 359 and through it the whole statement at a
concrete angle. -/
theorem rotate_address_accepted_iff_witness :
    ∃ cb, create_image_processing_command_buffer ("/rotate,".toList ++ intDecimal 359) = some cb
      ∧ (cb.parseError = false ↔ (-359 ≤ (359 : Int) ∧ (359 : Int) ≤ 359)) :=
  rotate_address_accepted_iff 359 (by decide) (by decide)

/-- C3: for all 32-bit integers w and h in canonical decimal, the address
"/scale,w,h" decodes to a defined result, and that result is free of a parse
error exactly when 1 <= w <= 10000 and 1 <= h <= 10000, each bound being
checked on its own. -/
theorem scale_address_accepted_iff (w h : Int)
    (hwlo : -2147483648 ≤ w) (hwhi : w ≤ 2147483647)
    (hhlo : -2147483648 ≤ h) (hhhi : h ≤ 2147483647) :
    ∃ cb, create_image_processing_command_buffer
        ("/scale,".toList ++ intDecimal w ++ ',' :: intDecimal h) = some cb
      ∧ (cb.parseError = false ↔ ((1 ≤ w ∧ w ≤ 10000) ∧ (1 ≤ h ∧ h ≤ 10000))) := by
  have e : "/scale,".toList ++ intDecimal w ++ ',' :: intDecimal h
      = '/' :: ("scale,".toList ++ intDecimal w ++ ',' :: intDecimal h) := by simp
  have hs : '/' ∉ "scale,".toList ++ intDecimal w ++ ',' :: intDecimal h := by
    simp only [List.mem_append, List.mem_cons, not_or]
    exact ⟨⟨by decide, intDecimal_no_slash w⟩, by decide, intDecimal_no_slash h⟩
  obtain ⟨hv, hn⟩ := strtol_intDecimal_int32 w hwlo hwhi
  obtain ⟨hv2, hn2⟩ := strtol_intDecimal_int32 h hhlo hhhi
  rw [e, create_single_segment _ hs]
  simp only [parse_segments]
  rw [parse_segment_scale _ _ _ (intDecimal_no_comma w) (intDecimal_no_comma h),
    parse_scaling_cmd_eq, hv, hv2]
  by_cases hr : w < 1 ∨ w > 10000
  · refine ⟨⟨true, [2], 1⟩, ?_, ?_⟩
    · simp [hn, hr, CommandBuffer.extend]
    · simp only [Bool.true_eq_false, false_iff]; omega
  · by_cases hr2 : h < 1 ∨ h > 10000
    · refine ⟨⟨true, [2, w], 2⟩, ?_, ?_⟩
      · simp [hn, hn2, hr, hr2, CommandBuffer.extend]
      · simp only [Bool.true_eq_false, false_iff]; omega
    · refine ⟨⟨false, [2, w, h], 3⟩, ?_, ?_⟩
      · simp [hn, hn2, hr, hr2, CommandBuffer.extend, parse_segments]
      · simp only [true_iff]; omega

/-- C3, at width 10000 and height 1: both boundary values together. -/
theorem scale_address_accepted_iff_witness :
    ∃ cb, create_image_processing_command_buffer
        ("/scale,".toList ++ intDecimal 10000 ++ ',' :: intDecimal 1) = some cb
      ∧ (cb.parseError = false ↔
          ((1 ≤ (10000 : Int) ∧ (10000 : Int) ≤ 10000) ∧ (1 ≤ (1 : Int) ∧ (1 : Int) ≤ 10000))) :=
  scale_address_accepted_iff 10000 1 (by decide) (by decide) (by decide) (by decide)

theorem split_by_char_length_of_mem (s : List Char) (d : Char) (h : d ∈ s) :
    2 ≤ (split_by_char s d 0).length := by
  induction s with
  | nil => simp at h
  | cons c cs ih =>
    by_cases hc : c = d
    · have := split_by_char_ne_nil cs d 0
      have hpos : 0 < (split_by_char cs d 0).length := List.length_pos.mpr this
      conv_rhs => unfold split_by_char
      simp only [hc, ne_eq, Nat.zero_ne_one, not_false_eq_true, and_self, if_true,
        List.length_cons, Nat.zero_sub]
      omega
    · have hcs : d ∈ cs := by
        rcases List.mem_cons.mp h with h | h
        · exact absurd h.symm hc
        · exact h
      have := ih hcs
      conv_rhs => unfold split_by_char
      simp only [hc, false_and, if_false]
      cases hsp : split_by_char cs d 0 with
      | nil => simp [hsp] at this
      | cons f fs => simpa [hsp] using this

/-- A flip segment with any parameter text: accepted exactly for "h" and "v". -/
theorem parse_segment_flip_any (cb : CommandBuffer) (p : List Char) (hcb : cb.numCmds ≤ 98) :
    parse_segment cb ("flip,".toList ++ p) =
      if p = ['h'] then some (0, cb.extend [1, 0])
      else if p = ['v'] then some (0, cb.extend [1, 1])
      else if p.length = 1 ∧ ',' ∉ p then some (1, cb.extend [1])
      else some (1, cb) := by
  by_cases hcomma : ',' ∈ p
  · have h1 : "flip,".toList ++ p = "flip".toList ++ ',' :: p := by simp
    have h2 : split_by_char ("flip".toList ++ ',' :: p) ',' 0
        = "flip".toList :: split_by_char p ',' 0 :=
      split_by_char_append _ _ _ (by decide)
    have h3 := split_by_char_length_of_mem p ',' hcomma
    have hh : p ≠ ['h'] := fun e => by rw [e] at hcomma; revert hcomma; decide
    have hv : p ≠ ['v'] := fun e => by rw [e] at hcomma; revert hcomma; decide
    have hsz : ("flip".toList :: split_by_char p ',' 0).length ≠ numFlipArgs := by
      simp only [List.length_cons, numFlipArgs]; omega
    have hne : "flip".toList ≠ "rotate".toList := by decide
    rw [parse_segment, h1, h2]
    simp only [List.head?_cons, Option.some.injEq, hne, if_false, if_true]
    rw [parse_flip_cmd, if_pos hsz]
    simp [hh, hv, hcomma]
  · rw [parse_segment_flip _ _ hcomma, parse_flip_cmd_eq]
    have c1 : ¬ 100 ≤ cb.numCmds := by omega
    have c2 : ¬ 99 ≤ cb.numCmds := by omega
    by_cases hh : p = ['h']
    · simp [hh, c1, c2]
    · by_cases hv : p = ['v']
      · simp [hv, c1, c2]
      · by_cases hl : p.length = 1
        · simp [hh, hv, hl, c1, hcomma]
        · simp [hh, hv, hl]

/-- C4 as stated fails: the parameter text "h/flip,v" is neither "h" nor "v",
yet "/flip,h/flip,v" decodes without parse error (to two flips), because '/'
ends the segment. -/
theorem flip_parameter_with_slash_accepted :
    create_image_processing_command_buffer ("/flip,".toList ++ "h/flip,v".toList)
        = some ⟨false, [1, 0, 1, 1], 4⟩
      ∧ "h/flip,v".toList ≠ "h".toList ∧ "h/flip,v".toList ≠ "v".toList := by
  decide

/-- C4, amended: for every string p that contains no '/', the address
"/flip,p" decodes to a defined result which is free of a parse error exactly
when p is "h" or "v"; it then holds the single record Flip(Horizontal) for "h"
and Flip(Vertical) for "v". -/
theorem flip_address_accepted_iff (p : List Char) (hp : '/' ∉ p) :
    ∃ cb, create_image_processing_command_buffer ("/flip,".toList ++ p) = some cb
      ∧ (cb.parseError = false ↔ (p = "h".toList ∨ p = "v".toList))
      ∧ (p = "h".toList → cb.buffer = (Operation.Flip .Horizontal).pack ∧ cb.numCmds = 2)
      ∧ (p = "v".toList → cb.buffer = (Operation.Flip .Vertical).pack ∧ cb.numCmds = 2) := by
  have e : "/flip,".toList ++ p = '/' :: ("flip,".toList ++ p) := by simp
  have hs : '/' ∉ "flip,".toList ++ p := by
    simp only [List.mem_append, not_or]
    exact ⟨by decide, hp⟩
  have hH : "h".toList = ['h'] := rfl
  have hV : "v".toList = ['v'] := rfl
  have hne : (['h'] : List Char) ≠ ['v'] := by decide
  rw [e, create_single_segment _ hs, hH, hV]
  simp only [parse_segments]
  rw [parse_segment_flip_any _ _ (by simp)]
  by_cases hh : p = ['h']
  · refine ⟨⟨false, [1, 0], 2⟩, ?_, ?_, ?_, ?_⟩
    · simp [hh, CommandBuffer.extend, parse_segments]
    · simp [hh]
    · intro _; simp [Operation.pack, CMD_FLIP, FLIP_HORIZONTAL]
    · intro hv; rw [hh] at hv; exact absurd hv hne
  · by_cases hv : p = ['v']
    · refine ⟨⟨false, [1, 1], 2⟩, ?_, ?_, ?_, ?_⟩
      · simp [hv, CommandBuffer.extend, parse_segments]
      · simp [hv]
      · intro h'; exact absurd h' hh
      · intro _; simp [Operation.pack, CMD_FLIP, FLIP_VERTICAL]
    · by_cases hl : p.length = 1 ∧ ',' ∉ p
      · refine ⟨⟨true, [1], 1⟩, ?_, ?_, ?_, ?_⟩
        · simp [hh, hv, hl, CommandBuffer.extend]
        · simp [hh, hv]
        · intro h'; exact absurd h' hh
        · intro h'; exact absurd h' hv
      · refine ⟨⟨true, [], 0⟩, ?_, ?_, ?_, ?_⟩
        · simp only [hh, hv, hl, if_false]; simp
        · simp [hh, hv]
        · intro h'; exact absurd h' hh
        · intro h'; exact absurd h' hv

/-- The amended statement at the parameter "x". -/
theorem flip_address_accepted_iff_witness :
    ∃ cb, create_image_processing_command_buffer ("/flip,".toList ++ "x".toList) = some cb
      ∧ (cb.parseError = false ↔ ("x".toList = "h".toList ∨ "x".toList = "v".toList))
      ∧ ("x".toList = "h".toList →
          cb.buffer = (Operation.Flip .Horizontal).pack ∧ cb.numCmds = 2)
      ∧ ("x".toList = "v".toList →
          cb.buffer = (Operation.Flip .Vertical).pack ∧ cb.numCmds = 2) :=
  flip_address_accepted_iff "x".toList (by decide)

/-! ## Rejected segments and definedness of the segment loop -/

theorem parse_segments_cons_some (s : List Char) (rest : List (List Char))
    (cb cb1 : CommandBuffer) (e : Nat) (hp : parse_segment cb s = some (e, cb1)) :
    parse_segments (s :: rest) cb =
      if e ≠ 0 then some { cb1 with parseError := true } else parse_segments rest cb1 := by
  simp only [parse_segments, hp]

theorem parse_segments_cons_none (s : List Char) (rest : List (List Char))
    (cb : CommandBuffer) (hp : parse_segment cb s = none) :
    parse_segments (s :: rest) cb = none := by
  simp only [parse_segments, hp]

theorem parse_segments_rejected (seg : List Char)
    (hrej : ∀ cb x, parse_segment cb seg = some x → x.1 ≠ 0)
    (segs : List (List Char)) (hmem : seg ∈ segs) :
    ∀ cb r, parse_segments segs cb = some r → r.parseError = true := by
  induction segs with
  | nil => simp at hmem
  | cons s rest ih =>
    intro cb r h
    cases hp : parse_segment cb s with
    | none => rw [parse_segments_cons_none _ _ _ hp] at h; cases h
    | some x =>
      obtain ⟨e, cb1⟩ := x
      rw [parse_segments_cons_some _ _ _ _ _ hp] at h
      by_cases he : e ≠ 0
      · rw [if_pos he] at h
        cases h
        rfl
      · rw [if_neg he] at h
        rcases List.mem_cons.mp hmem with hs | hs
        · subst hs
          exact absurd (hrej cb (e, cb1) hp) he
        · exact ih hs cb1 r h

theorem list_length_two {α : Type} (l : List α) (h : l.length = 2) :
    ∃ a b, l = [a, b] := by
  match l, h with
  | [a, b], _ => exact ⟨a, b, rfl⟩

theorem list_length_three {α : Type} (l : List α) (h : l.length = 3) :
    ∃ a b c, l = [a, b, c] := by
  match l, h with
  | [a, b, c], _ => exact ⟨a, b, c, rfl⟩

theorem parse_rotation_cmd_defined (cb : CommandBuffer) (arg : List (List Char))
    (hcb : cb.numCmds + 3 ≤ 100) :
    ∃ e cb1, parse_rotation_cmd cb arg arg.length = some (e, cb1)
      ∧ cb1.numCmds ≤ cb.numCmds + 3 := by
  by_cases hl : arg.length = 2
  · obtain ⟨a, b, rfl⟩ := list_length_two arg hl
    simp only [List.length_cons, List.length_nil, Nat.zero_add, Nat.reduceAdd]
    rw [parse_rotation_cmd_eq]
    have c1 : ¬ 100 ≤ cb.numCmds := by omega
    have c2 : ¬ 99 ≤ cb.numCmds := by omega
    simp only [c1, c2, if_false]
    split_ifs <;> refine ⟨_, _, rfl, ?_⟩ <;> simp [CommandBuffer.extend]
  · refine ⟨1, cb, ?_, by omega⟩
    simp [parse_rotation_cmd, numRotateArgs, hl]

theorem parse_flip_cmd_defined (cb : CommandBuffer) (arg : List (List Char))
    (hcb : cb.numCmds + 3 ≤ 100) :
    ∃ e cb1, parse_flip_cmd cb arg arg.length = some (e, cb1)
      ∧ cb1.numCmds ≤ cb.numCmds + 3 := by
  by_cases hl : arg.length = 2
  · obtain ⟨a, b, rfl⟩ := list_length_two arg hl
    simp only [List.length_cons, List.length_nil, Nat.zero_add, Nat.reduceAdd]
    rw [parse_flip_cmd_eq]
    have c1 : ¬ 100 ≤ cb.numCmds := by omega
    have c2 : ¬ 99 ≤ cb.numCmds := by omega
    simp only [c1, c2, if_false]
    split_ifs <;> refine ⟨_, _, rfl, ?_⟩ <;> simp [CommandBuffer.extend]
  · refine ⟨1, cb, ?_, by omega⟩
    simp [parse_flip_cmd, numFlipArgs, hl]

theorem parse_scaling_cmd_defined (cb : CommandBuffer) (arg : List (List Char))
    (hcb : cb.numCmds + 3 ≤ 100) :
    ∃ e cb1, parse_scaling_cmd cb arg arg.length = some (e, cb1)
      ∧ cb1.numCmds ≤ cb.numCmds + 3 := by
  by_cases hl : arg.length = 3
  · obtain ⟨a, b, c, rfl⟩ := list_length_three arg hl
    simp only [List.length_cons, List.length_nil, Nat.zero_add, Nat.reduceAdd]
    rw [parse_scaling_cmd_eq]
    have c1 : ¬ 100 ≤ cb.numCmds := by omega
    have c2 : ¬ 99 ≤ cb.numCmds := by omega
    have c3 : ¬ 98 ≤ cb.numCmds := by omega
    simp only [c1, c2, c3, if_false]
    split_ifs <;> refine ⟨_, _, rfl, ?_⟩ <;> simp [CommandBuffer.extend]
  · refine ⟨1, cb, ?_, by omega⟩
    simp [parse_scaling_cmd, numScalingArgs, hl]

/-- One segment, whatever its text, is parsed to a defined result and stores
at most three entries, provided three entries are still free. -/
theorem parse_segment_defined (cb : CommandBuffer) (seg : List Char)
    (hcb : cb.numCmds + 3 ≤ 100) :
    ∃ e cb1, parse_segment cb seg = some (e, cb1) ∧ cb1.numCmds ≤ cb.numCmds + 3 := by
  unfold parse_segment
  simp only
  split_ifs
  · exact parse_rotation_cmd_defined cb _ hcb
  · exact parse_flip_cmd_defined cb _ hcb
  · exact parse_scaling_cmd_defined cb _ hcb
  · exact ⟨1, cb, rfl, by omega⟩

/-- The segment loop over at most as many segments as the free entries allow
at three per segment returns a buffer and never leaves the allocated block. -/
theorem parse_segments_defined (segs : List (List Char)) :
    ∀ cb : CommandBuffer, cb.numCmds + 3 * segs.length ≤ 100 →
      ∃ r, parse_segments segs cb = some r ∧ r.numCmds ≤ cb.numCmds + 3 * segs.length := by
  induction segs with
  | nil => intro cb _; exact ⟨cb, rfl, by simp⟩
  | cons s rest ih =>
    intro cb h
    simp only [List.length_cons] at h ⊢
    obtain ⟨e, cb1, hp, hn⟩ := parse_segment_defined cb s (by omega)
    rw [parse_segments_cons_some _ _ _ _ _ hp]
    by_cases he : e ≠ 0
    · rw [if_pos he]
      exact ⟨_, rfl, by simp only; omega⟩
    · rw [if_neg he]
      obtain ⟨r, hr, hrn⟩ := ih cb1 (by omega)
      exact ⟨r, hr, by omega⟩

theorem strtolDigits_count_le (s : List Char) :
    ∀ acc n, n ≤ (strtolDigits s acc n).2 := by
  induction s with
  | nil => intro acc n; simp [strtolDigits]
  | cons c cs ih =>
    intro acc n
    unfold strtolDigits
    split_ifs
    · have := ih (acc * 10 + (c.toNat - 48)) (n + 1); omega
    · simp

theorem strtolDigits_consumed_zero_iff (s : List Char) (acc : Nat) :
    (strtolDigits s acc 0).2 = 0 ↔
      (match s.head? with
        | some c => isdigit c
        | none => false) = false := by
  cases s with
  | nil => simp [strtolDigits]
  | cons c cs =>
    by_cases hd : isdigit c = true
    · have := strtolDigits_count_le cs (acc * 10 + (c.toNat - 48)) (0 + 1)
      simp only [strtolDigits, hd, if_true, List.head?_cons]
      constructor
      · intro h; omega
      · intro h; cases h
    · simp [strtolDigits, hd]

/-- The function `strtol` consumes nothing exactly when the text does not begin
with an integer. -/
theorem strtol_consumed_zero_iff (p : List Char) :
    (strtol p).2 = 0 ↔ hasLeadingInteger p = false := by
  unfold strtol hasLeadingInteger
  simp only []
  by_cases hsign : (List.dropWhile isspace p).head? = some '-'
      ∨ (List.dropWhile isspace p).head? = some '+'
  · rw [if_pos hsign, if_pos hsign, ← strtolDigits_consumed_zero_iff _ 0]
    by_cases hz : (strtolDigits (List.drop 1 (List.dropWhile isspace p)) 0 0).2 = 0
    · rw [if_pos hz]; exact ⟨fun _ => hz, fun _ => rfl⟩
    · rw [if_neg hz]
      refine ⟨fun h => ?_, fun h => absurd h hz⟩
      simp only at h; omega
  · rw [if_neg hsign, if_neg hsign, ← strtolDigits_consumed_zero_iff _ 0]
    rw [List.drop_zero]
    by_cases hz : (strtolDigits (List.dropWhile isspace p) 0 0).2 = 0
    · rw [if_pos hz]; exact ⟨fun _ => hz, fun _ => rfl⟩
    · rw [if_neg hz]
      refine ⟨fun h => ?_, fun h => absurd h hz⟩
      simp only at h; omega

/-- A rotate or scale segment one of whose numeric parameters does not begin
with an integer is refused. -/
theorem parse_segment_numericParameterWithoutInteger (seg : List Char)
    (h : numericParameterWithoutInteger seg) (cb : CommandBuffer)
    (x : Nat × CommandBuffer) (hx : parse_segment cb seg = some x) : x.1 ≠ 0 := by
  rcases h with ⟨p, rfl, hp, hint⟩ | ⟨p, q, rfl, hp, hq, hint⟩
  · have hz := (strtol_consumed_zero_iff p).mpr hint
    rw [parse_segment_rotate _ _ hp, parse_rotation_cmd_eq] at hx
    simp only [hz, if_true] at hx
    split_ifs at hx
    cases hx
    simp
  · rw [parse_segment_scale _ _ _ hp hq, parse_scaling_cmd_eq] at hx
    rcases hint with hint | hint
    · have hz := (strtol_consumed_zero_iff p).mpr hint
      simp only [hz, if_true] at hx
      split_ifs at hx
      cases hx
      simp
    · have hz := (strtol_consumed_zero_iff q).mpr hint
      simp only [hz, if_true] at hx
      split_ifs at hx <;> cases hx <;> simp

/-- An address of '/'-free segments one of which the segment parser refuses:
whenever decoding returns a buffer it carries the parse error, and with at most
33 segments decoding does return a buffer. -/
theorem create_rejected (segs : List (List Char)) (hslash : ∀ s ∈ segs, '/' ∉ s)
    (seg : List Char) (hmem : seg ∈ segs)
    (hrej : ∀ cb x, parse_segment cb seg = some x → x.1 ≠ 0) :
    (∀ cb, create_image_processing_command_buffer (addressOf segs) = some cb →
        cb.parseError = true)
      ∧ (segs.length ≤ 33 →
          ∃ cb, create_image_processing_command_buffer (addressOf segs) = some cb
            ∧ cb.parseError = true) := by
  rw [create_addressOf segs hslash]
  have h1 := parse_segments_rejected seg hrej segs hmem ⟨false, [], 0⟩
  refine ⟨h1, fun hlen => ?_⟩
  obtain ⟨r, hr, -⟩ := parse_segments_defined segs ⟨false, [], 0⟩ (by simp only; omega)
  exact ⟨r, hr, h1 r hr⟩

/-! ## The codec claims settled on concrete addresses -/

set_option maxRecDepth 100000 in
/-- C1: the claim fails on the code for long chains. The canonical address of
51 operations "rotate,0" needs 102 buffer entries; decoding it stores past the
100 entries that were allocated, so the codec has no defined result there,
where the claim promises parseError = false and the 51 packed records. -/
theorem canonical_chain_of_51_rotations_overruns_buffer :
    create_image_processing_command_buffer
      (addressOf (List.replicate 51 "rotate,0".toList)) = none := by
  decide

/-- C6 as stated fails: "90abc" and "12.5" are not the text of an integer (no
integer has either as its canonical decimal text), yet the addresses
"/rotate,90abc" and "/scale,12.5,3" decode without parse error, as Rotate(90)
and Scale(12, 3). -/
theorem trailing_characters_after_integer_accepted :
    create_image_processing_command_buffer "/rotate,90abc".toList
        = some ⟨false, [0, 90], 2⟩
      ∧ create_image_processing_command_buffer "/scale,12.5,3".toList
        = some ⟨false, [2, 12, 3], 3⟩
      ∧ (∀ z : Int, intDecimal z ≠ "90abc".toList)
      ∧ (∀ z : Int, intDecimal z ≠ "12.5".toList) := by
  refine ⟨by decide, by decide, ?_, ?_⟩
  · intro z h
    have := intDecimal_chars z 'a' (by rw [h]; decide)
    revert this; decide
  · intro z h
    have := intDecimal_chars z '.' (by rw [h]; decide)
    revert this; decide

/-- C6, amended: in an address of '/'-free segments that holds a rotate or
scale segment with the right number of parameters, one of them not beginning
with an integer (no digit after the optional white space and sign), decoding
never returns a buffer without parse error, and when the address has at most 33
segments it returns a buffer with parseError = true. -/
theorem numeric_parameter_without_integer_rejected (segs : List (List Char))
    (hslash : ∀ s ∈ segs, '/' ∉ s) (seg : List Char) (hmem : seg ∈ segs)
    (h : numericParameterWithoutInteger seg) :
    (∀ cb, create_image_processing_command_buffer (addressOf segs) = some cb →
        cb.parseError = true)
      ∧ (segs.length ≤ 33 →
          ∃ cb, create_image_processing_command_buffer (addressOf segs) = some cb
            ∧ cb.parseError = true) :=
  create_rejected segs hslash seg hmem
    (parse_segment_numericParameterWithoutInteger seg h)

/-- The amended statement on the address "/flip,h/scale,12,x7". -/
theorem numeric_parameter_without_integer_rejected_witness :
    (∀ cb, create_image_processing_command_buffer
          (addressOf ["flip,h".toList, "scale,12,x7".toList]) = some cb →
        cb.parseError = true)
      ∧ ((["flip,h".toList, "scale,12,x7".toList] : List (List Char)).length ≤ 33 →
          ∃ cb, create_image_processing_command_buffer
              (addressOf ["flip,h".toList, "scale,12,x7".toList]) = some cb
            ∧ cb.parseError = true) :=
  numeric_parameter_without_integer_rejected ["flip,h".toList, "scale,12,x7".toList]
    (by decide) "scale,12,x7".toList (by decide)
    (Or.inr ⟨"12".toList, "x7".toList, by decide, by decide, by decide, Or.inr (by decide)⟩)

/-- C7: the claim fails on the code. The parameter 4294967296 is outside the
32-bit range, `strtol` returns it as a `long`, and the assignment to `int`
wraps it to 0, which passes the bounds check: "/rotate,4294967296" decodes
without parse error as Rotate(0), and "/scale,4294967297,1" as Scale(1, 1). -/
theorem out_of_range_parameter_wraps_into_bounds :
    create_image_processing_command_buffer "/rotate,4294967296".toList
        = some ⟨false, [0, 0], 2⟩
      ∧ create_image_processing_command_buffer "/scale,4294967297,1".toList
        = some ⟨false, [2, 1, 1], 3⟩ := by
  decide

theorem getElem?_append_offset (pre rest : List Int) (k : Nat) :
    (pre ++ rest)[pre.length + k]? = rest[k]? := by
  rw [List.getElem?_append_right (by omega)]
  congr 1
  omega

/-- On a buffer that holds packed records from index `pre.length` on, the loop
of the dispatcher does what fail-fast dispatch of those operations does. -/
theorem apply_loop_packOps {Img : Type} (engine : ImageEngine Img) (cb : CommandBuffer)
    (hnum : cb.numCmds = cb.buffer.length) :
    ∀ (ops : List Operation) (pre : List Int) (fuel : Nat) (bitmap : Img) (imageOps : Mutex)
      (calls : List EngineCall),
      cb.buffer = pre ++ packOps ops → (packOps ops).length + 1 ≤ fuel →
      apply_loop engine cb fuel pre.length bitmap imageOps calls
        = some (runOps engine bitmap imageOps calls ops) := by
  intro ops
  induction ops with
  | nil =>
    intro pre fuel bitmap imageOps calls hbuf hfuel
    obtain ⟨f, rfl⟩ : ∃ f, fuel = f + 1 := ⟨fuel - 1, by omega⟩
    have hlen : ¬ pre.length < cb.numCmds := by
      rw [hnum, hbuf]; simp [packOps]
    rw [apply_loop, if_neg hlen]
    rfl
  | cons op rest ih =>
    intro pre fuel bitmap imageOps calls hbuf hfuel
    obtain ⟨f, rfl⟩ : ∃ f, fuel = f + 1 := ⟨fuel - 1, by omega⟩
    have hf : (packOps rest).length + 1 ≤ f := by
      rw [packOps_length_cons] at hfuel
      cases op with
      | Rotate a => simp only [Operation.pack, List.length_cons, List.length_nil] at hfuel; omega
      | Flip axis =>
        cases axis <;>
          simp only [Operation.pack, List.length_cons, List.length_nil] at hfuel <;> omega
      | Scale w h => simp only [Operation.pack, List.length_cons, List.length_nil] at hfuel; omega
    have hlen : pre.length < cb.numCmds := by
      rw [hnum, hbuf]
      cases op with
      | Rotate a => simp [packOps, Operation.pack]
      | Flip axis => cases axis <;> simp [packOps, Operation.pack]
      | Scale w h => simp [packOps, Operation.pack]
    have h0 : ∀ k, cb.buffer[pre.length + k]? = (packOps (op :: rest))[k]? := by
      intro k; rw [hbuf]; exact getElem?_append_offset _ _ k
    rw [apply_loop, if_pos hlen]
    cases op with
    | Rotate a =>
      have e0 : cb.buffer[pre.length]? = some CMD_ROTATE := by
        have := h0 0; simpa [packOps, Operation.pack] using this
      have e1 : cb.buffer[pre.length + 1]? = some a := by
        have := h0 1; simpa [packOps, Operation.pack] using this
      have hnext : cb.buffer = (pre ++ [CMD_ROTATE, a]) ++ packOps rest := by
        rw [hbuf]; simp [packOps, Operation.pack]
      have hi : pre.length + 1 + 1 = (pre ++ [CMD_ROTATE, a]).length := by simp
      simp only [e0, e1, if_true]
      cases hr : engine.FreeImage_Rotate bitmap a with
      | none => simp [runOps, engineStep, hr, Operation.kindName, failedBitmap, Operation.call]
      | some rotated =>
        simp only
        rw [hi, ih _ f rotated _ _ hnext hf]
        simp [runOps, engineStep, hr, Operation.call]
    | Flip axis =>
      have hne : CMD_FLIP ≠ CMD_ROTATE := by decide
      have hvh : FLIP_VERTICAL ≠ FLIP_HORIZONTAL := by decide
      cases axis with
      | Horizontal =>
        have e0 : cb.buffer[pre.length]? = some CMD_FLIP := by
          have := h0 0; simpa [packOps, Operation.pack] using this
        have e1 : cb.buffer[pre.length + 1]? = some FLIP_HORIZONTAL := by
          have := h0 1; simpa [packOps, Operation.pack] using this
        have hnext : cb.buffer = (pre ++ [CMD_FLIP, FLIP_HORIZONTAL]) ++ packOps rest := by
          rw [hbuf]; simp [packOps, Operation.pack]
        have hi : pre.length + 1 + 1 = (pre ++ [CMD_FLIP, FLIP_HORIZONTAL]).length := by simp
        simp only [e0, e1, hne, if_false, if_true]
        by_cases hr : (engine.FreeImage_FlipHorizontal bitmap).1 = false
        · simp [runOps, engineStep, hr, Operation.kindName, failedBitmap, Operation.call]
        · rw [if_neg hr, hi, ih _ f _ _ _ hnext hf]
          have hr1 : (engine.FreeImage_FlipHorizontal bitmap).1 = true := by simpa using hr
          simp [runOps, engineStep, hr1, Operation.call]
      | Vertical =>
        have e0 : cb.buffer[pre.length]? = some CMD_FLIP := by
          have := h0 0; simpa [packOps, Operation.pack] using this
        have e1 : cb.buffer[pre.length + 1]? = some FLIP_VERTICAL := by
          have := h0 1; simpa [packOps, Operation.pack] using this
        have hnext : cb.buffer = (pre ++ [CMD_FLIP, FLIP_VERTICAL]) ++ packOps rest := by
          rw [hbuf]; simp [packOps, Operation.pack]
        have hi : pre.length + 1 + 1 = (pre ++ [CMD_FLIP, FLIP_VERTICAL]).length := by simp
        simp only [e0, e1, hne, hvh, if_false, if_true]
        by_cases hr : (engine.FreeImage_FlipVertical bitmap).1 = false
        · simp [runOps, engineStep, hr, Operation.kindName, failedBitmap, Operation.call]
        · rw [if_neg hr, hi, ih _ f _ _ _ hnext hf]
          have hr1 : (engine.FreeImage_FlipVertical bitmap).1 = true := by simpa using hr
          simp [runOps, engineStep, hr1, Operation.call]
    | Scale w h =>
      have hne : CMD_SCALE ≠ CMD_ROTATE := by decide
      have hne2 : CMD_SCALE ≠ CMD_FLIP := by decide
      have e0 : cb.buffer[pre.length]? = some CMD_SCALE := by
        have := h0 0; simpa [packOps, Operation.pack] using this
      have e1 : cb.buffer[pre.length + 1]? = some w := by
        have := h0 1; simpa [packOps, Operation.pack] using this
      have e2 : cb.buffer[pre.length + 2]? = some h := by
        have := h0 2; simpa [packOps, Operation.pack] using this
      have hnext : cb.buffer = (pre ++ [CMD_SCALE, w, h]) ++ packOps rest := by
        rw [hbuf]; simp [packOps, Operation.pack]
      have hi : pre.length + 2 + 1 = (pre ++ [CMD_SCALE, w, h]).length := by simp
      simp only [e0, e1, e2, hne, hne2, if_false, if_true]
      cases hr : engine.FreeImage_Rescale bitmap w h with
      | none => simp [runOps, engineStep, hr, Operation.kindName, failedBitmap, Operation.call]
      | some scaled =>
        simp only
        rw [hi, ih _ f scaled _ _ hnext hf]
        simp [runOps, engineStep, hr, Operation.call]

theorem unpackOps_cons_cons (tag a : Int) (rest : List Int) :
    unpackOps (tag :: a :: rest) =
      if tag = CMD_ROTATE then .Rotate a :: unpackOps rest
      else if tag = CMD_FLIP then
        if a = FLIP_HORIZONTAL then .Flip .Horizontal :: unpackOps rest
        else if a = FLIP_VERTICAL then .Flip .Vertical :: unpackOps rest
        else []
      else if tag = CMD_SCALE then
        match rest with
        | [] => []
        | b :: rest2 => .Scale a b :: unpackOps rest2
      else [] := by
  cases rest <;> simp [unpackOps]

theorem unpackOps_packOps (ops : List Operation) : unpackOps (packOps ops) = ops := by
  induction ops with
  | nil => simp [packOps, unpackOps]
  | cons op rest ih =>
    cases op with
    | Rotate a => simp [packOps, Operation.pack, unpackOps_cons_cons, ih]
    | Flip axis =>
      have hne : CMD_FLIP ≠ CMD_ROTATE := by decide
      have hvh : FLIP_VERTICAL ≠ FLIP_HORIZONTAL := by decide
      cases axis <;> simp [packOps, Operation.pack, unpackOps_cons_cons, ih, hne, hvh]
    | Scale w h =>
      have hne : CMD_SCALE ≠ CMD_ROTATE := by decide
      have hne2 : CMD_SCALE ≠ CMD_FLIP := by decide
      simp [packOps, Operation.pack, unpackOps_cons_cons, ih, hne, hne2]

/-- A segment parsed without error has stored the record of one operation. -/
theorem parse_segment_success (cb cb1 : CommandBuffer) (seg : List Char)
    (h : parse_segment cb seg = some (0, cb1)) :
    ∃ op : Operation, cb1 = cb.extend op.pack := by
  unfold parse_segment at h
  simp only [] at h
  split_ifs at h
  · by_cases hl : (split_by_char seg ',' 0).length = 2
    · obtain ⟨a, b, hab⟩ := list_length_two _ hl
      rw [hab] at h
      simp only [List.length_cons, List.length_nil, Nat.zero_add, Nat.reduceAdd] at h
      rw [parse_rotation_cmd_eq] at h
      split_ifs at h
      all_goals first | (simp at h; done) | skip
      exact ⟨.Rotate (toInt32 (strtol b).1), (Prod.mk.inj (Option.some.inj h)).2.symm⟩
    · simp [parse_rotation_cmd, numRotateArgs, hl] at h
  · by_cases hl : (split_by_char seg ',' 0).length = 2
    · obtain ⟨a, b, hab⟩ := list_length_two _ hl
      rw [hab] at h
      simp only [List.length_cons, List.length_nil, Nat.zero_add, Nat.reduceAdd] at h
      rw [parse_flip_cmd_eq] at h
      split_ifs at h
      all_goals first | (simp at h; done) | skip
      · exact ⟨.Flip .Horizontal, (Prod.mk.inj (Option.some.inj h)).2.symm⟩
      · exact ⟨.Flip .Vertical, (Prod.mk.inj (Option.some.inj h)).2.symm⟩
    · simp [parse_flip_cmd, numFlipArgs, hl] at h
  · by_cases hl : (split_by_char seg ',' 0).length = 3
    · obtain ⟨a, b, c, hab⟩ := list_length_three _ hl
      rw [hab] at h
      simp only [List.length_cons, List.length_nil, Nat.zero_add, Nat.reduceAdd] at h
      rw [parse_scaling_cmd_eq] at h
      split_ifs at h
      all_goals first | (simp at h; done) | skip
      exact ⟨.Scale (toInt32 (strtol b).1) (toInt32 (strtol c).1),
        (Prod.mk.inj (Option.some.inj h)).2.symm⟩
    · simp [parse_scaling_cmd, numScalingArgs, hl] at h
  · simp at h

/-- A run of the segment loop that ends without parse error has stored the
packed records of one operation per segment. -/
theorem parse_segments_success (segs : List (List Char)) :
    ∀ cb r, parse_segments segs cb = some r → r.parseError = false →
      ∃ ops : List Operation, ops.length = segs.length
        ∧ r.buffer = cb.buffer ++ packOps ops
        ∧ r.numCmds = cb.numCmds + (packOps ops).length := by
  induction segs with
  | nil =>
    intro cb r h _
    simp only [parse_segments, Option.some.injEq] at h
    exact ⟨[], rfl, by simp [packOps, h], by simp [packOps, h]⟩
  | cons s rest ih =>
    intro cb r h hok
    cases hp : parse_segment cb s with
    | none => rw [parse_segments_cons_none _ _ _ hp] at h; cases h
    | some x =>
      obtain ⟨e, cb1⟩ := x
      rw [parse_segments_cons_some _ _ _ _ _ hp] at h
      by_cases he : e ≠ 0
      · rw [if_pos he] at h
        cases h
        simp at hok
      · rw [if_neg he] at h
        have he0 : e = 0 := by omega
        subst he0
        obtain ⟨op, hop⟩ := parse_segment_success cb cb1 s hp
        obtain ⟨ops, hlen, hbuf, hnum⟩ := ih cb1 r h hok
        refine ⟨op :: ops, by simp [hlen], ?_, ?_⟩
        · rw [hbuf, hop]; simp [CommandBuffer.extend, packOps]
        · rw [hnum, hop]; simp [CommandBuffer.extend, packOps]; omega

/-- A buffer decoded without parse error is the packed form of the operations
read from it, one per segment of the address. -/
theorem decoded_buffer_packed (address : List Char) (cb : CommandBuffer)
    (hdec : create_image_processing_command_buffer address = some cb)
    (hok : cb.parseError = false) :
    packOps (unpackOps cb.buffer) = cb.buffer
      ∧ cb.numCmds = cb.buffer.length
      ∧ (unpackOps cb.buffer).length + 1 = (split_by_char address '/' 0).length := by
  unfold create_image_processing_command_buffer at hdec
  simp only [] at hdec
  obtain ⟨ops, hlen, hbuf, hnum⟩ := parse_segments_success _ _ _ hdec hok
  simp only [List.nil_append, Nat.zero_add] at hbuf hnum
  have hpos : 0 < (split_by_char address '/' 0).length :=
    List.length_pos.mpr (split_by_char_ne_nil _ _ _)
  rw [hbuf, unpackOps_packOps]
  refine ⟨rfl, hnum, ?_⟩
  rw [hlen, List.length_drop]
  omega

/-- On a buffer decoded without parse error the dispatcher carries out
fail-fast dispatch of the operations read from the buffer. -/
theorem apply_decoded {Img : Type} (engine : ImageEngine Img) (address : List Char)
    (cb : CommandBuffer)
    (hdec : create_image_processing_command_buffer address = some cb)
    (hok : cb.parseError = false) (bitmap : Img) (imageOps : Mutex) :
    apply_cmd_buffer_to_image engine bitmap cb imageOps
      = some (runOps engine bitmap imageOps [] (unpackOps cb.buffer)) := by
  obtain ⟨hpack, hnum, -⟩ := decoded_buffer_packed address cb hdec hok
  unfold apply_cmd_buffer_to_image
  have := apply_loop_packOps engine cb hnum (unpackOps cb.buffer) [] (cb.numCmds + 1)
    bitmap imageOps [] (by simp [hpack]) (by rw [hpack, hnum])
  simpa using this

/-! ## Fail-fast dispatch -/

theorem modify_mutex_value (mutex : Mutex) (change : Int) :
    (modify_mutex mutex change).value = toInt32 (mutex.value + change) := rfl

theorem toInt32_add_toInt32 (a b : Int) : toInt32 (toInt32 a + b) = toInt32 (a + b) := by
  unfold toInt32
  omega

theorem toInt32_of_intRange (x : Int) (h : intRange x) : toInt32 x = x := by
  unfold intRange at h
  unfold toInt32
  omega

theorem incremented_succ (count : Nat) :
    ∀ value : Int, incremented value (count + 1) = toInt32 (value + ((count + 1 : Nat) : Int)) := by
  induction count with
  | zero => intro value; rfl
  | succ n ih =>
    intro value
    rw [incremented, ih, toInt32_add_toInt32]
    congr 1
    push_cast
    ring

theorem incremented_of_intRange (value : Int) (count : Nat)
    (h : intRange (value + count)) : incremented value count = value + count := by
  cases count with
  | zero => simp [incremented]
  | succ n => rw [incremented_succ, toInt32_of_intRange _ h]

theorem modify_mutex_lock (mutex : Mutex) (change : Int) :
    (modify_mutex mutex change).lock = mutex.lock := by
  simp [modify_mutex, sem_wait, sem_post]

theorem runOps_of_firstFailure_some {Img : Type} (engine : ImageEngine Img) :
    ∀ (ops : List Operation) (bitmap : Img) (imageOps : Mutex) (calls : List EngineCall)
      (k : Nat), firstFailure engine bitmap ops = some k →
      (runOps engine bitmap imageOps calls ops).imageOps.value = incremented imageOps.value k
        ∧ (runOps engine bitmap imageOps calls ops).calls
            = calls ++ (ops.take (k + 1)).map Operation.call
        ∧ ∃ op, ops[k]? = some op
            ∧ (runOps engine bitmap imageOps calls ops).failCheck = some op.kindName := by
  intro ops
  induction ops with
  | nil => intro bitmap imageOps calls k h; simp [firstFailure] at h
  | cons op rest ih =>
    intro bitmap imageOps calls k h
    cases hs : engineStep engine bitmap op with
    | none =>
      simp only [firstFailure, hs, Option.some.injEq] at h
      subst h
      simp [runOps, hs, incremented]
    | some next =>
      simp only [firstFailure, hs, Option.map_eq_some'] at h
      obtain ⟨j, hj, rfl⟩ := h
      obtain ⟨h1, h2, op2, h3, h4⟩ := ih next (modify_mutex imageOps 1) (calls ++ [op.call]) j hj
      simp only [runOps, hs]
      refine ⟨?_, ?_, op2, by simpa using h3, h4⟩
      · rw [h1, modify_mutex_value]; rfl
      · rw [h2]; simp

theorem runOps_of_firstFailure_none {Img : Type} (engine : ImageEngine Img) :
    ∀ (ops : List Operation) (bitmap : Img) (imageOps : Mutex) (calls : List EngineCall),
      firstFailure engine bitmap ops = none →
      (runOps engine bitmap imageOps calls ops).imageOps.value
          = incremented imageOps.value ops.length
        ∧ (runOps engine bitmap imageOps calls ops).calls = calls ++ ops.map Operation.call
        ∧ (runOps engine bitmap imageOps calls ops).failCheck = none
        ∧ (runOps engine bitmap imageOps calls ops).bitmap = transformAll engine bitmap ops
        ∧ (∃ final, transformAll engine bitmap ops = some final) := by
  intro ops
  induction ops with
  | nil => intro bitmap imageOps calls _; simp [runOps, transformAll, incremented]
  | cons op rest ih =>
    intro bitmap imageOps calls h
    cases hs : engineStep engine bitmap op with
    | none => simp [firstFailure, hs] at h
    | some next =>
      simp only [firstFailure, hs, Option.map_eq_none'] at h
      obtain ⟨h1, h2, h3, h4, h5⟩ := ih next (modify_mutex imageOps 1) (calls ++ [op.call]) h
      simp only [runOps, hs, transformAll]
      refine ⟨?_, ?_, h3, h4, h5⟩
      · rw [h1, modify_mutex_value]; rfl
      · rw [h2]; simp

/-- C8: on every command buffer decoded without parse error, and for every
image engine on which operation k (counted from 0) of the decoded sequence is
the first to fail, `apply_cmd_buffer_to_image` returns with operationsApplied
raised by exactly k, and the engine calls it made are those of operations 0 to
k and no other. The counter is an `int` incremented k times: it holds its old
value plus k whenever that sum is an `int` value. -/
theorem dispatch_counts_operations_before_first_failure {Img : Type}
    (engine : ImageEngine Img) (address : List Char) (cb : CommandBuffer)
    (hdec : create_image_processing_command_buffer address = some cb)
    (hok : cb.parseError = false) (bitmap : Img) (imageOps : Mutex) (k : Nat)
    (hk : firstFailure engine bitmap (unpackOps cb.buffer) = some k) :
    ∃ r, apply_cmd_buffer_to_image engine bitmap cb imageOps = some r
      ∧ r.imageOps.value = incremented imageOps.value k
      ∧ (intRange (imageOps.value + k) → r.imageOps.value = imageOps.value + k)
      ∧ r.calls = ((unpackOps cb.buffer).take (k + 1)).map Operation.call := by
  have hv := (runOps_of_firstFailure_some engine _ bitmap imageOps [] k hk).1
  refine ⟨_, apply_decoded engine address cb hdec hok bitmap imageOps, hv, ?_, ?_⟩
  · intro hr
    rw [hv, incremented_of_intRange _ _ hr]
  · simpa using (runOps_of_firstFailure_some engine _ bitmap imageOps [] k hk).2.1

/-- The statement above on "/flip,h/rotate,90/scale,1,1" with an engine that
fails on the rotation by 90: operation 1 is the first to fail. -/
theorem dispatch_counts_operations_before_first_failure_witness :
    ∃ r, apply_cmd_buffer_to_image sampleEngine 0 ⟨false, [1, 0, 0, 90, 2, 1, 1], 7⟩ ⟨0, 1⟩
          = some r
      ∧ r.imageOps.value = incremented (⟨0, 1⟩ : Mutex).value 1
      ∧ (intRange ((⟨0, 1⟩ : Mutex).value + (1 : Nat)) →
          r.imageOps.value = (⟨0, 1⟩ : Mutex).value + (1 : Nat))
      ∧ r.calls = ((unpackOps (⟨false, [1, 0, 0, 90, 2, 1, 1], 7⟩ : CommandBuffer).buffer).take
          (1 + 1)).map Operation.call :=
  dispatch_counts_operations_before_first_failure sampleEngine
    "/flip,h/rotate,90/scale,1,1".toList ⟨false, [1, 0, 0, 90, 2, 1, 1], 7⟩
    (by decide) rfl 0 ⟨0, 1⟩ 1 (by decide)

/-- C9: on every command buffer decoded without parse error and every image
engine, `apply_cmd_buffer_to_image` returns; when operation k is the first to
fail the returned string is the name of the kind of operation k ("rotate",
"flip" or "scale"), and the NULL result is returned exactly when no operation
fails. -/
theorem dispatch_returns_name_of_first_failure {Img : Type}
    (engine : ImageEngine Img) (address : List Char) (cb : CommandBuffer)
    (hdec : create_image_processing_command_buffer address = some cb)
    (hok : cb.parseError = false) (bitmap : Img) (imageOps : Mutex) :
    ∃ r, apply_cmd_buffer_to_image engine bitmap cb imageOps = some r
      ∧ (∀ k, firstFailure engine bitmap (unpackOps cb.buffer) = some k →
          ∃ op, (unpackOps cb.buffer)[k]? = some op ∧ r.failCheck = some op.kindName)
      ∧ (r.failCheck = none ↔ firstFailure engine bitmap (unpackOps cb.buffer) = none) := by
  refine ⟨_, apply_decoded engine address cb hdec hok bitmap imageOps, ?_, ?_⟩
  · intro k hk
    exact (runOps_of_firstFailure_some engine _ bitmap imageOps [] k hk).2.2
  · constructor
    · intro hnone
      cases hf : firstFailure engine bitmap (unpackOps cb.buffer) with
      | none => rfl
      | some k =>
        obtain ⟨op, -, hop⟩ := (runOps_of_firstFailure_some engine _ bitmap imageOps [] k hf).2.2
        rw [hop] at hnone
        cases hnone
    · intro hf
      exact (runOps_of_firstFailure_none engine _ bitmap imageOps [] hf).2.2.1

/-- The statement above on "/flip,h/rotate,90/scale,1,1" with an engine that
fails on the rotation by 90. -/
theorem dispatch_returns_name_of_first_failure_witness :
    ∃ r, apply_cmd_buffer_to_image sampleEngine 0 ⟨false, [1, 0, 0, 90, 2, 1, 1], 7⟩ ⟨0, 1⟩
          = some r
      ∧ (∀ k, firstFailure sampleEngine 0
            (unpackOps (⟨false, [1, 0, 0, 90, 2, 1, 1], 7⟩ : CommandBuffer).buffer) = some k →
          ∃ op, (unpackOps (⟨false, [1, 0, 0, 90, 2, 1, 1], 7⟩ : CommandBuffer).buffer)[k]?
              = some op ∧ r.failCheck = some op.kindName)
      ∧ (r.failCheck = none ↔ firstFailure sampleEngine 0
            (unpackOps (⟨false, [1, 0, 0, 90, 2, 1, 1], 7⟩ : CommandBuffer).buffer) = none) :=
  dispatch_returns_name_of_first_failure sampleEngine
    "/flip,h/rotate,90/scale,1,1".toList ⟨false, [1, 0, 0, 90, 2, 1, 1], 7⟩
    (by decide) rfl 0 ⟨0, 1⟩

/-- C10: on every command buffer decoded without parse error from an address
of N segments, and for every image engine on which no operation fails,
`apply_cmd_buffer_to_image` returns NULL after calling the engine once per
decoded operation, in order and with the decoded parameters; the handle is the
composition of those transforms and operationsApplied has gone up by exactly N,
the number of operations read from the buffer. The counter is an `int`
incremented N times: it holds its old value plus N whenever that sum is an
`int` value. -/
theorem dispatch_applies_every_operation {Img : Type}
    (engine : ImageEngine Img) (address : List Char) (cb : CommandBuffer)
    (hdec : create_image_processing_command_buffer address = some cb)
    (hok : cb.parseError = false) (bitmap : Img) (imageOps : Mutex)
    (hall : firstFailure engine bitmap (unpackOps cb.buffer) = none) :
    ∃ r, apply_cmd_buffer_to_image engine bitmap cb imageOps = some r
      ∧ r.failCheck = none
      ∧ r.calls = (unpackOps cb.buffer).map Operation.call
      ∧ r.bitmap = transformAll engine bitmap (unpackOps cb.buffer)
      ∧ (∃ final, r.bitmap = some final)
      ∧ r.imageOps.value = incremented imageOps.value (unpackOps cb.buffer).length
      ∧ (intRange (imageOps.value + (unpackOps cb.buffer).length) →
          r.imageOps.value = imageOps.value + (unpackOps cb.buffer).length)
      ∧ packOps (unpackOps cb.buffer) = cb.buffer
      ∧ (unpackOps cb.buffer).length + 1 = (split_by_char address '/' 0).length := by
  obtain ⟨h1, h2, h3, h4, final, h5⟩ :=
    runOps_of_firstFailure_none engine _ bitmap imageOps [] hall
  obtain ⟨hpack, -, hsegs⟩ := decoded_buffer_packed address cb hdec hok
  refine ⟨_, apply_decoded engine address cb hdec hok bitmap imageOps, h3, ?_, h4,
    ⟨final, by rw [h4, h5]⟩, h1, ?_, hpack, hsegs⟩
  · simpa using h2
  · intro hr
    rw [h1, incremented_of_intRange _ _ hr]

/-- The statement above on "/flip,h/rotate,45/scale,30,20": three operations,
seven buffer entries, none of which the engine fails on. -/
theorem dispatch_applies_every_operation_witness :
    ∃ r, apply_cmd_buffer_to_image sampleEngine 0 ⟨false, [1, 0, 0, 45, 2, 30, 20], 7⟩ ⟨0, 1⟩
          = some r
      ∧ r.failCheck = none
      ∧ r.calls = (unpackOps (⟨false, [1, 0, 0, 45, 2, 30, 20], 7⟩ : CommandBuffer).buffer).map
          Operation.call
      ∧ r.bitmap = transformAll sampleEngine 0
          (unpackOps (⟨false, [1, 0, 0, 45, 2, 30, 20], 7⟩ : CommandBuffer).buffer)
      ∧ (∃ final, r.bitmap = some final)
      ∧ r.imageOps.value = incremented (⟨0, 1⟩ : Mutex).value
          (unpackOps (⟨false, [1, 0, 0, 45, 2, 30, 20], 7⟩ : CommandBuffer).buffer).length
      ∧ (intRange ((⟨0, 1⟩ : Mutex).value
            + (unpackOps (⟨false, [1, 0, 0, 45, 2, 30, 20], 7⟩ : CommandBuffer).buffer).length) →
          r.imageOps.value = (⟨0, 1⟩ : Mutex).value
            + (unpackOps (⟨false, [1, 0, 0, 45, 2, 30, 20], 7⟩ : CommandBuffer).buffer).length)
      ∧ packOps (unpackOps (⟨false, [1, 0, 0, 45, 2, 30, 20], 7⟩ : CommandBuffer).buffer)
          = (⟨false, [1, 0, 0, 45, 2, 30, 20], 7⟩ : CommandBuffer).buffer
      ∧ (unpackOps (⟨false, [1, 0, 0, 45, 2, 30, 20], 7⟩ : CommandBuffer).buffer).length + 1
          = (split_by_char "/flip,h/rotate,45/scale,30,20".toList '/' 0).length :=
  dispatch_applies_every_operation sampleEngine
    "/flip,h/rotate,45/scale,30,20".toList ⟨false, [1, 0, 0, 45, 2, 30, 20], 7⟩
    (by decide) rfl 0 ⟨0, 1⟩ (by decide)


/-! ## Formatted messages -/

theorem read_binary_loop_eq (file buffer : List Char) (length : Nat) :
    read_binary_loop file buffer length = ⟨buffer ++ file, length + file.length⟩ := by
  induction file generalizing buffer length with
  | nil => simp [read_binary_loop]
  | cons byte rest ih =>
    rw [read_binary_loop, ih]
    simp [Nat.add_assoc, Nat.add_comm 1]

/-- The function `read_binary_file` returns the bytes of the stream and their
number. -/
theorem read_binary_file_eq (file : List Char) :
    read_binary_file file = ⟨file, file.length⟩ := by
  simp [read_binary_file, read_binary_loop_eq]

theorem decimalDigits_length_le (k : Nat) :
    ∀ fuel n : Nat, n < 10 ^ (k + 1) → (decimalDigits fuel n).length ≤ k + 1 := by
  induction k with
  | zero =>
    intro fuel n hn
    cases fuel with
    | zero => simp [decimalDigits]
    | succ fuel =>
      have h10 : n < 10 := by simpa using hn
      simp [decimalDigits, h10]
  | succ k ih =>
    intro fuel n hn
    cases fuel with
    | zero => simp [decimalDigits]
    | succ fuel =>
      unfold decimalDigits
      split_ifs with h10
      · simp
      · have hdiv : n / 10 < 10 ^ (k + 1) := by
          rw [pow_succ] at hn
          omega
        have := ih fuel (n / 10) hdiv
        simp only [List.length_append, List.length_singleton]
        omega

theorem toInt64_natAbs_lt (x : Nat) : (toInt64 x).natAbs < 10000000000000000000 := by
  unfold toInt64
  omega

theorem natDecimal_length_le_19 (n : Nat) (h : n < 10000000000000000000) :
    (natDecimal n).length ≤ 19 := by
  have hp : (10 : Nat) ^ (18 + 1) = 10000000000000000000 := by norm_num
  have := decimalDigits_length_le 18 (n + 1) n (by rw [hp]; exact h)
  simpa [natDecimal] using this

theorem intDecimal_toInt64_length (x : Nat) : (intDecimal (toInt64 x)).length ≤ 20 := by
  have hl := natDecimal_length_le_19 _ (toInt64_natAbs_lt x)
  unfold intDecimal
  split_ifs
  · rw [List.length_cons]; omega
  · omega

/-- The message of the 413 response always fits its block of 100 bytes. -/
theorem create_payload_large_post_request_eq (payloadSize : Nat) :
    create_payload_large_post_request payloadSize = some
      { status := 413
        statusDescription := "Payload Too Large".toList
        headers := [⟨"Content-Type".toList, "text/plain".toList⟩]
        bodyData := "Image received is too large: ".toList ++ intDecimal (toInt64 payloadSize)
          ++ " bytes\n".toList
        bodyLen := ("Image received is too large: ".toList ++ intDecimal (toInt64 payloadSize)
          ++ " bytes\n".toList).length } := by
  have hl := intDecimal_toInt64_length payloadSize
  have h1 : "Image received is too large: ".toList.length = 29 := by decide
  have h2 : " bytes\n".toList.length = 7 := by decide
  have hfit : ("Image received is too large: ".toList ++ intDecimal (toInt64 payloadSize)
      ++ " bytes\n".toList).length + 1 ≤ bufferSize := by
    rw [List.length_append, List.length_append, h1, h2]
    unfold bufferSize
    omega
  unfold create_payload_large_post_request sprintf_into
  rw [if_pos hfit]
  rfl

/-- The message of the 501 response for the name of an operation kind fits
its block of 100 bytes. -/
theorem create_not_implemented_post_request_kind (op : Operation) :
    create_not_implemented_post_request op.kindName = some
      { status := 501
        statusDescription := "Not Implemented".toList
        headers := [⟨"Content-Type".toList, "text/plain".toList⟩]
        bodyData := "Operation failed: ".toList ++ op.kindName.toList ++ "\n".toList
        bodyLen := ("Operation failed: ".toList ++ op.kindName.toList ++ "\n".toList).length } := by
  cases op <;> rfl

/-! ## The response builder, branch by branch -/

theorem respond_get_home {Img : Type} (engine : ImageEngine Img) (codec : ImageCodec Img)
    (homeFile : List Char) (inHttp : HttpRequest) (imageOps : Mutex)
    (hget : inHttp.type = "GET".toList) (haddr : inHttp.address = "/".toList) :
    respond_to_request engine codec homeFile inHttp imageOps
      = some ⟨create_home_post_request homeFile, imageOps, [], 0⟩ := by
  simp [respond_to_request, hget, haddr]

theorem respond_get_other {Img : Type} (engine : ImageEngine Img) (codec : ImageCodec Img)
    (homeFile : List Char) (inHttp : HttpRequest) (imageOps : Mutex)
    (hget : inHttp.type = "GET".toList) (haddr : inHttp.address ≠ "/".toList) :
    respond_to_request engine codec homeFile inHttp imageOps
      = some ⟨create_not_found_post_request, imageOps, [], 0⟩ := by
  unfold respond_to_request
  rw [if_pos hget, if_neg (fun h => haddr h.2)]

theorem respond_other_method {Img : Type} (engine : ImageEngine Img) (codec : ImageCodec Img)
    (homeFile : List Char) (inHttp : HttpRequest) (imageOps : Mutex)
    (hget : inHttp.type ≠ "GET".toList) (hpost : inHttp.type ≠ "POST".toList) :
    respond_to_request engine codec homeFile inHttp imageOps
      = some ⟨create_method_disallowed_post_request, imageOps, [], 0⟩ := by
  unfold respond_to_request
  rw [if_neg hget, if_neg hpost]

theorem post_ne_get : "POST".toList ≠ "GET".toList := by decide

theorem respond_post_overrun {Img : Type} (engine : ImageEngine Img) (codec : ImageCodec Img)
    (homeFile : List Char) (inHttp : HttpRequest) (imageOps : Mutex)
    (hpost : inHttp.type = "POST".toList)
    (hdec : create_image_processing_command_buffer inHttp.address = none) :
    respond_to_request engine codec homeFile inHttp imageOps = none := by
  have hg : inHttp.type ≠ "GET".toList := by rw [hpost]; exact post_ne_get
  unfold respond_to_request
  rw [if_neg hg, if_pos hpost, hdec]

theorem respond_post_invalid {Img : Type} (engine : ImageEngine Img) (codec : ImageCodec Img)
    (homeFile : List Char) (inHttp : HttpRequest) (imageOps : Mutex) (cb : CommandBuffer)
    (hpost : inHttp.type = "POST".toList)
    (hdec : create_image_processing_command_buffer inHttp.address = some cb)
    (hbad : cb.parseError = true ∨ cb.numCmds = 0) :
    respond_to_request engine codec homeFile inHttp imageOps
      = some ⟨create_invalid_op_post_request, imageOps, [], 0⟩ := by
  have hg : inHttp.type ≠ "GET".toList := by rw [hpost]; exact post_ne_get
  unfold respond_to_request
  rw [if_neg hg, if_pos hpost]
  simp only [hdec]
  rw [if_pos hbad]

theorem not_invalid_of_ok (cb : CommandBuffer) (hok : cb.parseError = false)
    (hne : cb.numCmds ≠ 0) : ¬ (cb.parseError = true ∨ cb.numCmds = 0) := by
  rintro (h | h)
  · rw [hok] at h; cases h
  · exact hne h

theorem respond_post_large {Img : Type} (engine : ImageEngine Img) (codec : ImageCodec Img)
    (homeFile : List Char) (inHttp : HttpRequest) (imageOps : Mutex) (cb : CommandBuffer)
    (hpost : inHttp.type = "POST".toList)
    (hdec : create_image_processing_command_buffer inHttp.address = some cb)
    (hok : cb.parseError = false) (hne : cb.numCmds ≠ 0)
    (hlarge : inHttp.bodyLen > maxImageSize) :
    ∃ outHttp, create_payload_large_post_request inHttp.bodyLen = some outHttp
      ∧ respond_to_request engine codec homeFile inHttp imageOps
        = some ⟨outHttp, imageOps, [], 0⟩ := by
  refine ⟨_, create_payload_large_post_request_eq inHttp.bodyLen, ?_⟩
  have hg : inHttp.type ≠ "GET".toList := by rw [hpost]; exact post_ne_get
  unfold respond_to_request
  rw [if_neg hg, if_pos hpost]
  simp only [hdec]
  rw [if_neg (not_invalid_of_ok cb hok hne), if_pos hlarge]
  simp only [create_payload_large_post_request_eq]

theorem respond_post_unprocessable {Img : Type} (engine : ImageEngine Img)
    (codec : ImageCodec Img) (homeFile : List Char) (inHttp : HttpRequest) (imageOps : Mutex)
    (cb : CommandBuffer) (hpost : inHttp.type = "POST".toList)
    (hdec : create_image_processing_command_buffer inHttp.address = some cb)
    (hok : cb.parseError = false) (hne : cb.numCmds ≠ 0)
    (hsize : inHttp.bodyLen ≤ maxImageSize)
    (hload : codec.fi_load_image_from_buffer inHttp.bodyData inHttp.bodyLen = none) :
    respond_to_request engine codec homeFile inHttp imageOps
      = some ⟨create_unprocessable_post_request, imageOps, [], 1⟩ := by
  have hs : ¬ inHttp.bodyLen > maxImageSize := by omega
  have hg : inHttp.type ≠ "GET".toList := by rw [hpost]; exact post_ne_get
  unfold respond_to_request
  rw [if_neg hg, if_pos hpost]
  simp only [hdec]
  rw [if_neg (not_invalid_of_ok cb hok hne), if_neg hs]
  simp only [hload]

theorem runOps_lock {Img : Type} (engine : ImageEngine Img) :
    ∀ (ops : List Operation) (bitmap : Img) (imageOps : Mutex) (calls : List EngineCall),
      (runOps engine bitmap imageOps calls ops).imageOps.lock = imageOps.lock := by
  intro ops
  induction ops with
  | nil => intro bitmap imageOps calls; rfl
  | cons op rest ih =>
    intro bitmap imageOps calls
    cases hs : engineStep engine bitmap op with
    | none => simp only [runOps, hs]
    | some next =>
      simp only [runOps, hs]
      rw [ih, modify_mutex_lock]

theorem mutex_eq (a : Mutex) (value lock : Int) (hv : a.value = value) (hl : a.lock = lock) :
    a = ⟨value, lock⟩ := by
  cases a
  simp only at hv hl
  rw [hv, hl]

theorem respond_post_failed {Img : Type} (engine : ImageEngine Img)
    (codec : ImageCodec Img) (homeFile : List Char) (inHttp : HttpRequest) (imageOps : Mutex)
    (cb : CommandBuffer) (bitmap : Img) (k : Nat)
    (hpost : inHttp.type = "POST".toList)
    (hdec : create_image_processing_command_buffer inHttp.address = some cb)
    (hok : cb.parseError = false) (hne : cb.numCmds ≠ 0)
    (hsize : inHttp.bodyLen ≤ maxImageSize)
    (hload : codec.fi_load_image_from_buffer inHttp.bodyData inHttp.bodyLen = some bitmap)
    (hk : firstFailure engine bitmap (unpackOps cb.buffer) = some k) :
    ∃ op outHttp, (unpackOps cb.buffer)[k]? = some op
      ∧ create_not_implemented_post_request op.kindName = some outHttp
      ∧ respond_to_request engine codec homeFile inHttp imageOps
        = some ⟨outHttp, ⟨incremented imageOps.value k, imageOps.lock⟩,
            ((unpackOps cb.buffer).take (k + 1)).map Operation.call, 1⟩ := by
  obtain ⟨h1, h2, op, h3, h4⟩ := runOps_of_firstFailure_some engine _ bitmap imageOps [] k hk
  have hm := mutex_eq _ _ _ h1 (runOps_lock engine (unpackOps cb.buffer) bitmap imageOps [])
  have happ := apply_decoded engine inHttp.address cb hdec hok bitmap imageOps
  have hs : ¬ inHttp.bodyLen > maxImageSize := by omega
  have hg : inHttp.type ≠ "GET".toList := by rw [hpost]; exact post_ne_get
  refine ⟨op, _, h3, create_not_implemented_post_request_kind op, ?_⟩
  unfold respond_to_request
  rw [if_neg hg, if_pos hpost]
  simp only [hdec]
  rw [if_neg (not_invalid_of_ok cb hok hne), if_neg hs]
  simp only [hload, happ, h4, create_not_implemented_post_request_kind]
  rw [hm, h2, List.nil_append]

theorem respond_post_ok {Img : Type} (engine : ImageEngine Img)
    (codec : ImageCodec Img) (homeFile : List Char) (inHttp : HttpRequest) (imageOps : Mutex)
    (cb : CommandBuffer) (bitmap : Img)
    (hpost : inHttp.type = "POST".toList)
    (hdec : create_image_processing_command_buffer inHttp.address = some cb)
    (hok : cb.parseError = false) (hne : cb.numCmds ≠ 0)
    (hsize : inHttp.bodyLen ≤ maxImageSize)
    (hload : codec.fi_load_image_from_buffer inHttp.bodyData inHttp.bodyLen = some bitmap)
    (hall : firstFailure engine bitmap (unpackOps cb.buffer) = none) :
    ∃ final, transformAll engine bitmap (unpackOps cb.buffer) = some final
      ∧ respond_to_request engine codec homeFile inHttp imageOps
        = some ⟨create_image_return_post_request codec final,
            ⟨incremented imageOps.value (unpackOps cb.buffer).length, imageOps.lock⟩,
            (unpackOps cb.buffer).map Operation.call, 1⟩ := by
  obtain ⟨h1, h2, h3, h4, final, h5⟩ :=
    runOps_of_firstFailure_none engine _ bitmap imageOps [] hall
  have hm := mutex_eq _ _ _ h1 (runOps_lock engine (unpackOps cb.buffer) bitmap imageOps [])
  have happ := apply_decoded engine inHttp.address cb hdec hok bitmap imageOps
  have hs : ¬ inHttp.bodyLen > maxImageSize := by omega
  have hg : inHttp.type ≠ "GET".toList := by rw [hpost]; exact post_ne_get
  refine ⟨final, h5, ?_⟩
  unfold respond_to_request
  rw [if_neg hg, if_pos hpost]
  simp only [hdec]
  rw [if_neg (not_invalid_of_ok cb hok hne), if_neg hs]
  simp only [hload, happ, h3, h4, h5]
  rw [hm, h2, List.nil_append]

/-- Every run of the response builder follows one of its branches: it either
leaves defined behaviour (only for a POST whose address overruns the command
buffer) or returns one of the eight responses. -/
theorem respond_to_request_cases {Img : Type} (engine : ImageEngine Img)
    (codec : ImageCodec Img) (homeFile : List Char) (inHttp : HttpRequest) (imageOps : Mutex) :
    (inHttp.type = "POST".toList
        ∧ create_image_processing_command_buffer inHttp.address = none
        ∧ respond_to_request engine codec homeFile inHttp imageOps = none)
      ∨ (inHttp.type = "GET".toList ∧ inHttp.address = "/".toList
        ∧ respond_to_request engine codec homeFile inHttp imageOps
          = some ⟨create_home_post_request homeFile, imageOps, [], 0⟩)
      ∨ (inHttp.type = "GET".toList ∧ inHttp.address ≠ "/".toList
        ∧ respond_to_request engine codec homeFile inHttp imageOps
          = some ⟨create_not_found_post_request, imageOps, [], 0⟩)
      ∨ (inHttp.type ≠ "GET".toList ∧ inHttp.type ≠ "POST".toList
        ∧ respond_to_request engine codec homeFile inHttp imageOps
          = some ⟨create_method_disallowed_post_request, imageOps, [], 0⟩)
      ∨ (inHttp.type = "POST".toList
        ∧ respond_to_request engine codec homeFile inHttp imageOps
          = some ⟨create_invalid_op_post_request, imageOps, [], 0⟩)
      ∨ (inHttp.type = "POST".toList
        ∧ ∃ outHttp, create_payload_large_post_request inHttp.bodyLen = some outHttp
          ∧ respond_to_request engine codec homeFile inHttp imageOps
            = some ⟨outHttp, imageOps, [], 0⟩)
      ∨ (inHttp.type = "POST".toList
        ∧ respond_to_request engine codec homeFile inHttp imageOps
          = some ⟨create_unprocessable_post_request, imageOps, [], 1⟩)
      ∨ (inHttp.type = "POST".toList
        ∧ ∃ (op : Operation) (outHttp : HttpResponse) (counter : Mutex)
            (calls : List EngineCall),
          create_not_implemented_post_request op.kindName = some outHttp
          ∧ respond_to_request engine codec homeFile inHttp imageOps
            = some ⟨outHttp, counter, calls, 1⟩)
      ∨ (inHttp.type = "POST".toList
        ∧ ∃ (final : Img) (counter : Mutex) (calls : List EngineCall),
          respond_to_request engine codec homeFile inHttp imageOps
            = some ⟨create_image_return_post_request codec final, counter, calls, 1⟩) := by
  by_cases hget : inHttp.type = "GET".toList
  · by_cases haddr : inHttp.address = "/".toList
    · exact Or.inr (Or.inl ⟨hget, haddr, respond_get_home engine codec homeFile inHttp imageOps
        hget haddr⟩)
    · exact Or.inr (Or.inr (Or.inl ⟨hget, haddr,
        respond_get_other engine codec homeFile inHttp imageOps hget haddr⟩))
  · by_cases hpost : inHttp.type = "POST".toList
    · cases hdec : create_image_processing_command_buffer inHttp.address with
      | none =>
        exact Or.inl ⟨hpost, rfl,
          respond_post_overrun engine codec homeFile inHttp imageOps hpost hdec⟩
      | some cb =>
        by_cases hbad : cb.parseError = true ∨ cb.numCmds = 0
        · exact Or.inr (Or.inr (Or.inr (Or.inr (Or.inl ⟨hpost,
            respond_post_invalid engine codec homeFile inHttp imageOps cb hpost hdec hbad⟩))))
        · have hok : cb.parseError = false := by
            cases h : cb.parseError with
            | false => rfl
            | true => exact absurd (Or.inl h) hbad
          have hne : cb.numCmds ≠ 0 := fun h => hbad (Or.inr h)
          by_cases hlarge : inHttp.bodyLen > maxImageSize
          · exact Or.inr (Or.inr (Or.inr (Or.inr (Or.inr (Or.inl ⟨hpost,
              respond_post_large engine codec homeFile inHttp imageOps cb hpost hdec hok hne
                hlarge⟩)))))
          · have hsize : inHttp.bodyLen ≤ maxImageSize := by omega
            cases hload : codec.fi_load_image_from_buffer inHttp.bodyData inHttp.bodyLen with
            | none =>
              exact Or.inr (Or.inr (Or.inr (Or.inr (Or.inr (Or.inr (Or.inl ⟨hpost,
                respond_post_unprocessable engine codec homeFile inHttp imageOps cb hpost hdec
                  hok hne hsize hload⟩))))))
            | some bitmap =>
              cases hk : firstFailure engine bitmap (unpackOps cb.buffer) with
              | some k =>
                obtain ⟨op, outHttp, -, hmsg, hres⟩ :=
                  respond_post_failed engine codec homeFile inHttp imageOps cb bitmap k hpost
                    hdec hok hne hsize hload hk
                exact Or.inr (Or.inr (Or.inr (Or.inr (Or.inr (Or.inr (Or.inr (Or.inl ⟨hpost,
                  op, outHttp, _, _, hmsg, hres⟩)))))))
              | none =>
                obtain ⟨final, -, hres⟩ :=
                  respond_post_ok engine codec homeFile inHttp imageOps cb bitmap hpost
                    hdec hok hne hsize hload hk
                exact Or.inr (Or.inr (Or.inr (Or.inr (Or.inr (Or.inr (Or.inr (Or.inr ⟨hpost,
                  final, _, _, hres⟩)))))))
    · exact Or.inr (Or.inr (Or.inr (Or.inl ⟨hget, hpost,
        respond_other_method engine codec homeFile inHttp imageOps hget hpost⟩)))

/-! ## The response builder claims -/

/-- C11: for every POST request whose address the codec decodes with a parse
error or to an empty buffer, whatever the body, `respond_to_request` answers
400 "Bad Request" with the body "Invalid operation requested" and a newline,
without touching the operations counter or the image. -/
theorem post_with_invalid_operations_gives_400 {Img : Type} (engine : ImageEngine Img)
    (codec : ImageCodec Img) (homeFile : List Char) (inHttp : HttpRequest) (imageOps : Mutex)
    (cb : CommandBuffer) (hpost : inHttp.type = "POST".toList)
    (hdec : create_image_processing_command_buffer inHttp.address = some cb)
    (hbad : cb.parseError = true ∨ cb.numCmds = 0) :
    ∃ r, respond_to_request engine codec homeFile inHttp imageOps = some r
      ∧ r.response.status = 400
      ∧ r.response.statusDescription = "Bad Request".toList
      ∧ r.response.bodyData = "Invalid operation requested\n".toList
      ∧ r.response.bodyLen = "Invalid operation requested\n".length
      ∧ r.imageOps = imageOps ∧ r.calls = [] ∧ r.imageLoads = 0 :=
  ⟨_, respond_post_invalid engine codec homeFile inHttp imageOps cb hpost hdec hbad,
    rfl, rfl, rfl, rfl, rfl, rfl, rfl⟩

/-- The statement above for POST "/flip,x" and for POST "/", each with a body
of three bytes. -/
theorem post_with_invalid_operations_gives_400_witness :
    (∃ r, respond_to_request sampleEngine sampleCodec "<html>".toList
          ⟨"POST".toList, "/flip,x".toList, [], "abc".toList, 3⟩ ⟨0, 1⟩ = some r
      ∧ r.response.status = 400
      ∧ r.response.statusDescription = "Bad Request".toList
      ∧ r.response.bodyData = "Invalid operation requested\n".toList
      ∧ r.response.bodyLen = "Invalid operation requested\n".length
      ∧ r.imageOps = ⟨0, 1⟩ ∧ r.calls = [] ∧ r.imageLoads = 0)
    ∧ (∃ r, respond_to_request sampleEngine sampleCodec "<html>".toList
          ⟨"POST".toList, "/".toList, [], "abc".toList, 3⟩ ⟨0, 1⟩ = some r
      ∧ r.response.status = 400
      ∧ r.response.statusDescription = "Bad Request".toList
      ∧ r.response.bodyData = "Invalid operation requested\n".toList
      ∧ r.response.bodyLen = "Invalid operation requested\n".length
      ∧ r.imageOps = ⟨0, 1⟩ ∧ r.calls = [] ∧ r.imageLoads = 0) :=
  ⟨post_with_invalid_operations_gives_400 sampleEngine sampleCodec "<html>".toList
      ⟨"POST".toList, "/flip,x".toList, [], "abc".toList, 3⟩ ⟨0, 1⟩ ⟨true, [1], 1⟩
      rfl (by decide) (Or.inl rfl),
    post_with_invalid_operations_gives_400 sampleEngine sampleCodec "<html>".toList
      ⟨"POST".toList, "/".toList, [], "abc".toList, 3⟩ ⟨0, 1⟩ ⟨true, [], 0⟩
      rfl (by decide) (Or.inl rfl)⟩

/-- C12: for every POST request whose address decodes without parse error to a
non-empty buffer, `respond_to_request` returns a response, and its status is
413 exactly when the body length is greater than 8388608, whatever the body
bytes and the image engine. -/
theorem post_status_413_iff_body_too_large {Img : Type} (engine : ImageEngine Img)
    (codec : ImageCodec Img) (homeFile : List Char) (inHttp : HttpRequest) (imageOps : Mutex)
    (cb : CommandBuffer) (hpost : inHttp.type = "POST".toList)
    (hdec : create_image_processing_command_buffer inHttp.address = some cb)
    (hok : cb.parseError = false) (hne : cb.numCmds ≠ 0) :
    ∃ r, respond_to_request engine codec homeFile inHttp imageOps = some r
      ∧ (r.response.status = 413 ↔ inHttp.bodyLen > 8388608) := by
  by_cases hlarge : inHttp.bodyLen > maxImageSize
  · obtain ⟨outHttp, hmsg, hres⟩ :=
      respond_post_large engine codec homeFile inHttp imageOps cb hpost hdec hok hne hlarge
    rw [create_payload_large_post_request_eq] at hmsg
    cases hmsg
    exact ⟨_, hres, by simpa [maxImageSize] using hlarge⟩
  · have hsize : inHttp.bodyLen ≤ maxImageSize := by omega
    have hnot : ¬ inHttp.bodyLen > 8388608 := by simpa [maxImageSize] using hlarge
    cases hload : codec.fi_load_image_from_buffer inHttp.bodyData inHttp.bodyLen with
    | none =>
      refine ⟨_, respond_post_unprocessable engine codec homeFile inHttp imageOps cb hpost hdec
        hok hne hsize hload, ?_⟩
      simp only [hnot, iff_false]
      decide
    | some bitmap =>
      cases hk : firstFailure engine bitmap (unpackOps cb.buffer) with
      | some k =>
        obtain ⟨op, outHttp, -, hmsg, hres⟩ :=
          respond_post_failed engine codec homeFile inHttp imageOps cb bitmap k hpost
            hdec hok hne hsize hload hk
        rw [create_not_implemented_post_request_kind] at hmsg
        cases hmsg
        refine ⟨_, hres, ?_⟩
        simp only [hnot, iff_false]
        decide
      | none =>
        obtain ⟨final, -, hres⟩ :=
          respond_post_ok engine codec homeFile inHttp imageOps cb bitmap hpost
            hdec hok hne hsize hload hk
        refine ⟨_, hres, ?_⟩
        simp only [hnot, iff_false, create_image_return_post_request, HTTP_OK]
        decide

/-- The statement above at the two boundary lengths: a body of 8388608 bytes
and a body of 8388609 bytes, on POST "/rotate,45". -/
theorem post_status_413_iff_body_too_large_witness :
    (∃ r, respond_to_request sampleEngine sampleCodec "<html>".toList
          ⟨"POST".toList, "/rotate,45".toList, [], List.replicate 8388608 'a', 8388608⟩ ⟨0, 1⟩
          = some r
      ∧ (r.response.status = 413 ↔ (8388608 : Nat) > 8388608))
    ∧ (∃ r, respond_to_request sampleEngine sampleCodec "<html>".toList
          ⟨"POST".toList, "/rotate,45".toList, [], List.replicate 8388609 'a', 8388609⟩ ⟨0, 1⟩
          = some r
      ∧ (r.response.status = 413 ↔ (8388609 : Nat) > 8388608)) :=
  ⟨post_status_413_iff_body_too_large sampleEngine sampleCodec "<html>".toList
      ⟨"POST".toList, "/rotate,45".toList, [], List.replicate 8388608 'a', 8388608⟩ ⟨0, 1⟩
      ⟨false, [0, 45], 2⟩ rfl (by decide) rfl (by decide),
    post_status_413_iff_body_too_large sampleEngine sampleCodec "<html>".toList
      ⟨"POST".toList, "/rotate,45".toList, [], List.replicate 8388609 'a', 8388609⟩ ⟨0, 1⟩
      ⟨false, [0, 45], 2⟩ rfl (by decide) rfl (by decide)⟩

/-- C13: for every POST request whose address decodes without parse error to a
non-empty buffer and whose body has at most 8388608 bytes, if the image
library cannot load the body then `respond_to_request` answers 422
"Unprocessable Content" with the plain-text body "Request contains invalid
image" and a newline; no transform is run. -/
theorem post_with_unloadable_image_gives_422 {Img : Type} (engine : ImageEngine Img)
    (codec : ImageCodec Img) (homeFile : List Char) (inHttp : HttpRequest) (imageOps : Mutex)
    (cb : CommandBuffer) (hpost : inHttp.type = "POST".toList)
    (hdec : create_image_processing_command_buffer inHttp.address = some cb)
    (hok : cb.parseError = false) (hne : cb.numCmds ≠ 0)
    (hsize : inHttp.bodyLen ≤ 8388608)
    (hload : codec.fi_load_image_from_buffer inHttp.bodyData inHttp.bodyLen = none) :
    ∃ r, respond_to_request engine codec homeFile inHttp imageOps = some r
      ∧ r.response.status = 422
      ∧ r.response.statusDescription = "Unprocessable Content".toList
      ∧ r.response.headers = [⟨"Content-Type".toList, "text/plain".toList⟩]
      ∧ r.response.bodyData = "Request contains invalid image\n".toList
      ∧ r.response.bodyLen = "Request contains invalid image\n".length
      ∧ r.imageOps = imageOps ∧ r.calls = [] :=
  ⟨_, respond_post_unprocessable engine codec homeFile inHttp imageOps cb hpost hdec hok hne
      (by simpa [maxImageSize] using hsize) hload,
    rfl, rfl, rfl, rfl, rfl, rfl, rfl⟩

/-- The statement above on POST "/rotate,45" with an empty body, which the
sample codec cannot load. -/
theorem post_with_unloadable_image_gives_422_witness :
    ∃ r, respond_to_request sampleEngine sampleCodec "<html>".toList
          ⟨"POST".toList, "/rotate,45".toList, [], [], 0⟩ ⟨0, 1⟩ = some r
      ∧ r.response.status = 422
      ∧ r.response.statusDescription = "Unprocessable Content".toList
      ∧ r.response.headers = [⟨"Content-Type".toList, "text/plain".toList⟩]
      ∧ r.response.bodyData = "Request contains invalid image\n".toList
      ∧ r.response.bodyLen = "Request contains invalid image\n".length
      ∧ r.imageOps = ⟨0, 1⟩ ∧ r.calls = [] :=
  post_with_unloadable_image_gives_422 sampleEngine sampleCodec "<html>".toList
    ⟨"POST".toList, "/rotate,45".toList, [], [], 0⟩ ⟨0, 1⟩ ⟨false, [0, 45], 2⟩
    rfl (by decide) rfl (by decide) (by decide) (by decide)

/-- C14: for every POST request whose address decodes without parse error to a
non-empty buffer, whose body has at most 8388608 bytes and loads as an image,
if the dispatcher returns the failed operation name s then
`respond_to_request` answers 501 "Not Implemented" with the body
"Operation failed: s" and a newline, and s is the name of the kind of the first
operation the engine fails on. -/
theorem post_with_failed_operation_gives_501 {Img : Type} (engine : ImageEngine Img)
    (codec : ImageCodec Img) (homeFile : List Char) (inHttp : HttpRequest) (imageOps : Mutex)
    (cb : CommandBuffer) (bitmap : Img) (applied : ApplyResult Img) (s : String)
    (hpost : inHttp.type = "POST".toList)
    (hdec : create_image_processing_command_buffer inHttp.address = some cb)
    (hok : cb.parseError = false) (hne : cb.numCmds ≠ 0)
    (hsize : inHttp.bodyLen ≤ 8388608)
    (hload : codec.fi_load_image_from_buffer inHttp.bodyData inHttp.bodyLen = some bitmap)
    (happlied : apply_cmd_buffer_to_image engine bitmap cb imageOps = some applied)
    (hfail : applied.failCheck = some s) :
    ∃ r, respond_to_request engine codec homeFile inHttp imageOps = some r
      ∧ r.response.status = 501
      ∧ r.response.statusDescription = "Not Implemented".toList
      ∧ r.response.headers = [⟨"Content-Type".toList, "text/plain".toList⟩]
      ∧ r.response.bodyData = "Operation failed: ".toList ++ s.toList ++ "\n".toList
      ∧ r.response.bodyLen = ("Operation failed: ".toList ++ s.toList ++ "\n".toList).length
      ∧ ∃ k op, firstFailure engine bitmap (unpackOps cb.buffer) = some k
          ∧ (unpackOps cb.buffer)[k]? = some op ∧ s = op.kindName := by
  have hsz : inHttp.bodyLen ≤ maxImageSize := by simpa [maxImageSize] using hsize
  have hrun := apply_decoded engine inHttp.address cb hdec hok bitmap imageOps
  rw [happlied] at hrun
  cases hrun
  cases hk : firstFailure engine bitmap (unpackOps cb.buffer) with
  | none =>
    have := (runOps_of_firstFailure_none engine _ bitmap imageOps [] hk).2.2.1
    rw [this] at hfail
    cases hfail
  | some k =>
    obtain ⟨-, -, op0, hop0, hname0⟩ :=
      runOps_of_firstFailure_some engine _ bitmap imageOps [] k hk
    rw [hname0] at hfail
    cases hfail
    obtain ⟨op, outHttp, hop, hmsg, hres⟩ :=
      respond_post_failed engine codec homeFile inHttp imageOps cb bitmap k hpost
        hdec hok hne hsz hload hk
    have hsame : op = op0 := by rw [hop0] at hop; exact (Option.some.inj hop).symm
    subst hsame
    rw [create_not_implemented_post_request_kind] at hmsg
    cases hmsg
    exact ⟨_, hres, rfl, rfl, rfl, rfl, rfl, k, op, rfl, hop, rfl⟩

/-- The statement above on POST "/flip,h/rotate,90/scale,1,1" with an engine
that fails on the rotation by 90. -/
theorem post_with_failed_operation_gives_501_witness :
    ∃ r, respond_to_request sampleEngine sampleCodec "<html>".toList
          ⟨"POST".toList, "/flip,h/rotate,90/scale,1,1".toList, [], "abc".toList, 3⟩ ⟨0, 1⟩
          = some r
      ∧ r.response.status = 501
      ∧ r.response.statusDescription = "Not Implemented".toList
      ∧ r.response.headers = [⟨"Content-Type".toList, "text/plain".toList⟩]
      ∧ r.response.bodyData = "Operation failed: ".toList ++ "rotate".toList ++ "\n".toList
      ∧ r.response.bodyLen
          = ("Operation failed: ".toList ++ "rotate".toList ++ "\n".toList).length
      ∧ ∃ k op, firstFailure sampleEngine 3
            (unpackOps (⟨false, [1, 0, 0, 90, 2, 1, 1], 7⟩ : CommandBuffer).buffer) = some k
          ∧ (unpackOps (⟨false, [1, 0, 0, 90, 2, 1, 1], 7⟩ : CommandBuffer).buffer)[k]? = some op
          ∧ "rotate" = op.kindName :=
  post_with_failed_operation_gives_501 sampleEngine sampleCodec "<html>".toList
    ⟨"POST".toList, "/flip,h/rotate,90/scale,1,1".toList, [], "abc".toList, 3⟩ ⟨0, 1⟩
    ⟨false, [1, 0, 0, 90, 2, 1, 1], 7⟩ 3
    ⟨some "rotate", none, ⟨1, 1⟩, [.flipHorizontal, .rotate 90]⟩ "rotate"
    rfl (by decide) rfl (by decide) (by decide) (by decide) (by rfl) rfl

/-- C15: for every POST request whose address decodes without parse error to
N >= 1 operations, whose body has at most 8388608 bytes and loads as an image,
and on which no engine operation fails, `respond_to_request` answers 200 "OK"
with the single header Content-Type image/png and the PNG encoding of the
image after all N transforms as body, and the operations counter has gone up
by N, the number of segments of the address. The counter is an `int`
incremented N times: it holds its old value plus N whenever that sum is an
`int` value. -/
theorem post_with_successful_operations_gives_200 {Img : Type} (engine : ImageEngine Img)
    (codec : ImageCodec Img) (homeFile : List Char) (inHttp : HttpRequest) (imageOps : Mutex)
    (cb : CommandBuffer) (bitmap : Img)
    (hpost : inHttp.type = "POST".toList)
    (hdec : create_image_processing_command_buffer inHttp.address = some cb)
    (hok : cb.parseError = false) (hne : cb.numCmds ≠ 0)
    (hsize : inHttp.bodyLen ≤ 8388608)
    (hload : codec.fi_load_image_from_buffer inHttp.bodyData inHttp.bodyLen = some bitmap)
    (hall : firstFailure engine bitmap (unpackOps cb.buffer) = none) :
    ∃ r final, respond_to_request engine codec homeFile inHttp imageOps = some r
      ∧ r.response.status = 200
      ∧ r.response.statusDescription = "OK".toList
      ∧ r.response.headers = [⟨"Content-Type".toList, "image/png".toList⟩]
      ∧ transformAll engine bitmap (unpackOps cb.buffer) = some final
      ∧ r.response.bodyData = codec.fi_save_png_image_to_buffer final
      ∧ r.response.bodyLen = (codec.fi_save_png_image_to_buffer final).length
      ∧ r.imageOps.value = incremented imageOps.value (unpackOps cb.buffer).length
      ∧ (intRange (imageOps.value + (unpackOps cb.buffer).length) →
          r.imageOps.value = imageOps.value + (unpackOps cb.buffer).length)
      ∧ 1 ≤ (unpackOps cb.buffer).length
      ∧ (unpackOps cb.buffer).length + 1 = (split_by_char inHttp.address '/' 0).length := by
  have hsz : inHttp.bodyLen ≤ maxImageSize := by simpa [maxImageSize] using hsize
  obtain ⟨final, hfinal, hres⟩ :=
    respond_post_ok engine codec homeFile inHttp imageOps cb bitmap hpost
      hdec hok hne hsz hload hall
  obtain ⟨hpack, hnum, hsegs⟩ := decoded_buffer_packed inHttp.address cb hdec hok
  have hpos : 1 ≤ (unpackOps cb.buffer).length := by
    cases hops : unpackOps cb.buffer with
    | nil =>
      rw [hops] at hpack
      simp only [packOps] at hpack
      rw [← hpack] at hnum
      exact absurd hnum hne
    | cons op rest => simp
  exact ⟨_, final, hres, rfl, rfl, rfl, hfinal, rfl, rfl, rfl,
    fun hr => incremented_of_intRange _ _ hr, hpos, hsegs⟩

/-- The statement above on POST "/rotate,90" with an engine on which every
transform succeeds: the operations counter goes from 0 to 1. -/
theorem post_with_successful_operations_gives_200_witness :
    ∃ r final, respond_to_request plainEngine sampleCodec "<html>".toList
          ⟨"POST".toList, "/rotate,90".toList, [], "abc".toList, 3⟩ ⟨0, 1⟩ = some r
      ∧ r.response.status = 200
      ∧ r.response.statusDescription = "OK".toList
      ∧ r.response.headers = [⟨"Content-Type".toList, "image/png".toList⟩]
      ∧ transformAll plainEngine 3 (unpackOps (⟨false, [0, 90], 2⟩ : CommandBuffer).buffer)
          = some final
      ∧ r.response.bodyData = sampleCodec.fi_save_png_image_to_buffer final
      ∧ r.response.bodyLen = (sampleCodec.fi_save_png_image_to_buffer final).length
      ∧ r.imageOps.value = incremented (⟨0, 1⟩ : Mutex).value
          (unpackOps (⟨false, [0, 90], 2⟩ : CommandBuffer).buffer).length
      ∧ (intRange ((⟨0, 1⟩ : Mutex).value
            + (unpackOps (⟨false, [0, 90], 2⟩ : CommandBuffer).buffer).length) →
          r.imageOps.value = (⟨0, 1⟩ : Mutex).value
            + (unpackOps (⟨false, [0, 90], 2⟩ : CommandBuffer).buffer).length)
      ∧ 1 ≤ (unpackOps (⟨false, [0, 90], 2⟩ : CommandBuffer).buffer).length
      ∧ (unpackOps (⟨false, [0, 90], 2⟩ : CommandBuffer).buffer).length + 1
          = (split_by_char "/rotate,90".toList '/' 0).length :=
  post_with_successful_operations_gives_200 plainEngine sampleCodec "<html>".toList
    ⟨"POST".toList, "/rotate,90".toList, [], "abc".toList, 3⟩ ⟨0, 1⟩ ⟨false, [0, 90], 2⟩ 3
    rfl (by decide) rfl (by decide) (by decide) (by decide) (by decide)

/-- C16: for every GET request `respond_to_request` returns a response: 200
"OK" with Content-Type text/html and the home page file as body when the
address is exactly "/", and 404 "Not Found" with the body "Invalid address" and
a newline for every other address. The request body plays no part, and
neither the counter nor the image engine is touched. -/
theorem get_gives_home_page_or_404 {Img : Type} (engine : ImageEngine Img)
    (codec : ImageCodec Img) (homeFile : List Char) (inHttp : HttpRequest) (imageOps : Mutex)
    (hget : inHttp.type = "GET".toList) :
    ∃ r, respond_to_request engine codec homeFile inHttp imageOps = some r
      ∧ (inHttp.address = "/".toList →
          r.response.status = 200 ∧ r.response.statusDescription = "OK".toList
          ∧ r.response.headers = [⟨"Content-Type".toList, "text/html".toList⟩]
          ∧ r.response.bodyData = homeFile ∧ r.response.bodyLen = homeFile.length)
      ∧ (inHttp.address ≠ "/".toList →
          r.response.status = 404 ∧ r.response.statusDescription = "Not Found".toList
          ∧ r.response.headers = [⟨"Content-Type".toList, "text/plain".toList⟩]
          ∧ r.response.bodyData = "Invalid address\n".toList
          ∧ r.response.bodyLen = "Invalid address\n".length)
      ∧ r.imageOps = imageOps ∧ r.calls = [] ∧ r.imageLoads = 0
      ∧ (∀ (bodyData : List Char) (bodyLen : Nat),
          respond_to_request engine codec homeFile
            { inHttp with bodyData := bodyData, bodyLen := bodyLen } imageOps = some r) := by
  by_cases haddr : inHttp.address = "/".toList
  · refine ⟨_, respond_get_home engine codec homeFile inHttp imageOps hget haddr, ?_, ?_,
      rfl, rfl, rfl, ?_⟩
    · intro _
      simp [create_home_post_request, read_binary_file_eq, HTTP_OK, contentTypeHeaders]
    · intro h; exact absurd haddr h
    · intro bodyData bodyLen
      exact respond_get_home engine codec homeFile _ imageOps hget haddr
  · refine ⟨_, respond_get_other engine codec homeFile inHttp imageOps hget haddr, ?_, ?_,
      rfl, rfl, rfl, ?_⟩
    · intro h; exact absurd h haddr
    · intro _; exact ⟨rfl, rfl, rfl, rfl, rfl⟩
    · intro bodyData bodyLen
      exact respond_get_other engine codec homeFile _ imageOps hget haddr

/-- The statement above on GET "/nope" with a body of three bytes. -/
theorem get_gives_home_page_or_404_witness :
    ∃ r, respond_to_request sampleEngine sampleCodec "<html>".toList
          ⟨"GET".toList, "/nope".toList, [], "abc".toList, 3⟩ ⟨0, 1⟩ = some r
      ∧ ("/nope".toList = "/".toList →
          r.response.status = 200 ∧ r.response.statusDescription = "OK".toList
          ∧ r.response.headers = [⟨"Content-Type".toList, "text/html".toList⟩]
          ∧ r.response.bodyData = "<html>".toList
          ∧ r.response.bodyLen = "<html>".toList.length)
      ∧ ("/nope".toList ≠ "/".toList →
          r.response.status = 404 ∧ r.response.statusDescription = "Not Found".toList
          ∧ r.response.headers = [⟨"Content-Type".toList, "text/plain".toList⟩]
          ∧ r.response.bodyData = "Invalid address\n".toList
          ∧ r.response.bodyLen = "Invalid address\n".length)
      ∧ r.imageOps = ⟨0, 1⟩ ∧ r.calls = [] ∧ r.imageLoads = 0
      ∧ (∀ (bodyData : List Char) (bodyLen : Nat),
          respond_to_request sampleEngine sampleCodec "<html>".toList
            { (⟨"GET".toList, "/nope".toList, [], "abc".toList, 3⟩ : HttpRequest) with
              bodyData := bodyData, bodyLen := bodyLen } ⟨0, 1⟩ = some r) :=
  get_gives_home_page_or_404 sampleEngine sampleCodec "<html>".toList
    ⟨"GET".toList, "/nope".toList, [], "abc".toList, 3⟩ ⟨0, 1⟩ rfl

/-- C17: for every request whose method is neither "GET" nor "POST", whatever
its address and body, `respond_to_request` answers 405 "Method Not Allowed"
with the plain-text body "Invalid method on request list" and a newline. The
answer is the same for every address and body (also for an address the codec
could not decode in a defined way), no image is loaded and no transform runs. -/
theorem other_method_gives_405 {Img : Type} (engine : ImageEngine Img)
    (codec : ImageCodec Img) (homeFile : List Char) (inHttp : HttpRequest) (imageOps : Mutex)
    (hget : inHttp.type ≠ "GET".toList) (hpost : inHttp.type ≠ "POST".toList) :
    ∃ r, respond_to_request engine codec homeFile inHttp imageOps = some r
      ∧ r.response.status = 405
      ∧ r.response.statusDescription = "Method Not Allowed".toList
      ∧ r.response.headers = [⟨"Content-Type".toList, "text/plain".toList⟩]
      ∧ r.response.bodyData = "Invalid method on request list\n".toList
      ∧ r.response.bodyLen = "Invalid method on request list\n".length
      ∧ r.imageOps = imageOps ∧ r.calls = [] ∧ r.imageLoads = 0
      ∧ (∀ (address bodyData : List Char) (bodyLen : Nat),
          respond_to_request engine codec homeFile
            { inHttp with address := address, bodyData := bodyData, bodyLen := bodyLen }
            imageOps = some r) :=
  ⟨_, respond_other_method engine codec homeFile inHttp imageOps hget hpost,
    rfl, rfl, rfl, rfl, rfl, rfl, rfl, rfl,
    fun _ _ _ => respond_other_method engine codec homeFile _ imageOps hget hpost⟩

/-- The statement above on PUT "/". -/
theorem other_method_gives_405_witness :
    ∃ r, respond_to_request sampleEngine sampleCodec "<html>".toList
          ⟨"PUT".toList, "/".toList, [], "abc".toList, 3⟩ ⟨0, 1⟩ = some r
      ∧ r.response.status = 405
      ∧ r.response.statusDescription = "Method Not Allowed".toList
      ∧ r.response.headers = [⟨"Content-Type".toList, "text/plain".toList⟩]
      ∧ r.response.bodyData = "Invalid method on request list\n".toList
      ∧ r.response.bodyLen = "Invalid method on request list\n".length
      ∧ r.imageOps = ⟨0, 1⟩ ∧ r.calls = [] ∧ r.imageLoads = 0
      ∧ (∀ (address bodyData : List Char) (bodyLen : Nat),
          respond_to_request sampleEngine sampleCodec "<html>".toList
            { (⟨"PUT".toList, "/".toList, [], "abc".toList, 3⟩ : HttpRequest) with
              address := address, bodyData := bodyData, bodyLen := bodyLen }
            ⟨0, 1⟩ = some r) :=
  other_method_gives_405 sampleEngine sampleCodec "<html>".toList
    ⟨"PUT".toList, "/".toList, [], "abc".toList, 3⟩ ⟨0, 1⟩ (by decide) (by decide)


theorem pair_in_table (resp : HttpResponse) (status : Nat) (description : List Char)
    (table : List (Nat × List Char))
    (hs : resp.status = status) (hd : resp.statusDescription = description)
    (hm : (status, description) ∈ table) :
    (resp.status, resp.statusDescription) ∈ table := by
  rw [hs, hd]; exact hm

/-- C18: whatever the method, address, body and image engine, a response
returned by `respond_to_request` has one of the statuses 200, 400, 404, 405,
413, 422, 501 together with the description fixed for that status; and the
function fails to return a response only for a POST whose address makes the
codec overrun its command buffer. -/
theorem status_and_description_from_fixed_table {Img : Type} (engine : ImageEngine Img)
    (codec : ImageCodec Img) (homeFile : List Char) (inHttp : HttpRequest) (imageOps : Mutex) :
    (∀ r, respond_to_request engine codec homeFile inHttp imageOps = some r →
        (r.response.status, r.response.statusDescription) ∈
          [(200, "OK".toList), (400, "Bad Request".toList), (404, "Not Found".toList),
            (405, "Method Not Allowed".toList), (413, "Payload Too Large".toList),
            (422, "Unprocessable Content".toList), (501, "Not Implemented".toList)])
      ∧ (respond_to_request engine codec homeFile inHttp imageOps = none ↔
          (inHttp.type = "POST".toList
            ∧ create_image_processing_command_buffer inHttp.address = none)) := by
  have key : ∀ x : RespondResult,
      respond_to_request engine codec homeFile inHttp imageOps = some x →
      (respond_to_request engine codec homeFile inHttp imageOps = none ↔
          (inHttp.type = "POST".toList
            ∧ create_image_processing_command_buffer inHttp.address = none)) := by
    intro x hx
    constructor
    · intro hn; rw [hx] at hn; cases hn
    · rintro ⟨hp, hd⟩
      have := respond_post_overrun engine codec homeFile inHttp imageOps hp hd
      rw [hx] at this; cases this
  rcases respond_to_request_cases engine codec homeFile inHttp imageOps with
    ⟨hp, hd, h⟩ | ⟨-, -, h⟩ | ⟨-, -, h⟩ | ⟨-, -, h⟩ | ⟨-, h⟩ | ⟨-, o, ho, h⟩ | ⟨-, h⟩
      | ⟨-, op, o, c, l, ho, h⟩ | ⟨-, f, c, l, h⟩
  · exact ⟨fun r hr => (by rw [h] at hr; cases hr), ⟨fun _ => ⟨hp, hd⟩, fun _ => h⟩⟩
  · refine ⟨fun r hr => ?_, key _ h⟩
    rw [h] at hr; cases hr
    exact pair_in_table _ 200 "OK".toList _ rfl rfl (by decide)
  · refine ⟨fun r hr => ?_, key _ h⟩
    rw [h] at hr; cases hr
    exact pair_in_table _ 404 "Not Found".toList _ rfl rfl (by decide)
  · refine ⟨fun r hr => ?_, key _ h⟩
    rw [h] at hr; cases hr
    exact pair_in_table _ 405 "Method Not Allowed".toList _ rfl rfl (by decide)
  · refine ⟨fun r hr => ?_, key _ h⟩
    rw [h] at hr; cases hr
    exact pair_in_table _ 400 "Bad Request".toList _ rfl rfl (by decide)
  · refine ⟨fun r hr => ?_, key _ h⟩
    rw [h] at hr; cases hr
    rw [create_payload_large_post_request_eq] at ho
    cases ho
    exact pair_in_table _ 413 "Payload Too Large".toList _ rfl rfl (by decide)
  · refine ⟨fun r hr => ?_, key _ h⟩
    rw [h] at hr; cases hr
    exact pair_in_table _ 422 "Unprocessable Content".toList _ rfl rfl (by decide)
  · refine ⟨fun r hr => ?_, key _ h⟩
    rw [h] at hr; cases hr
    rw [create_not_implemented_post_request_kind] at ho
    cases ho
    exact pair_in_table _ 501 "Not Implemented".toList _ rfl rfl (by decide)
  · refine ⟨fun r hr => ?_, key _ h⟩
    rw [h] at hr; cases hr
    exact pair_in_table _ 200 "OK".toList _ rfl rfl (by decide)



theorem text_plain_ne_html : "text/plain".toList ≠ "text/html".toList := by decide
theorem text_plain_ne_png : "text/plain".toList ≠ "image/png".toList := by decide
theorem text_html_ne_png : "text/html".toList ≠ "image/png".toList := by decide

theorem append3_ne_nil (a b c : List Char) (ha : a ≠ []) : a ++ b ++ c ≠ [] := by
  intro h
  have h1 := List.append_eq_nil.mp h
  exact ha (List.append_eq_nil.mp h1.1).1

theorem not_found_body_ne_nil : create_not_found_post_request.bodyData ≠ [] := by decide
theorem method_disallowed_body_ne_nil : create_method_disallowed_post_request.bodyData ≠ [] := by
  decide
theorem invalid_op_body_ne_nil : create_invalid_op_post_request.bodyData ≠ [] := by decide
theorem unprocessable_body_ne_nil : create_unprocessable_post_request.bodyData ≠ [] := by decide
theorem invalid_op_status_ne_ok : create_invalid_op_post_request.status ≠ 200 := by decide
theorem unprocessable_status_ne_ok : create_unprocessable_post_request.status ≠ 200 := by decide

/-- C19: every response built by `respond_to_request` carries exactly one
header, named Content-Type. Its value is text/html exactly for a GET of "/",
image/png exactly for a POST answered with status 200, and text/plain whenever
the status is not 200, in which case the body is a non-empty text of the
stated length. -/
theorem response_carries_one_content_type_header {Img : Type} (engine : ImageEngine Img)
    (codec : ImageCodec Img) (homeFile : List Char) (inHttp : HttpRequest) (imageOps : Mutex)
    (r : RespondResult)
    (hr : respond_to_request engine codec homeFile inHttp imageOps = some r) :
    ∃ value, r.response.headers = [⟨"Content-Type".toList, value⟩]
      ∧ (value = "text/html".toList ↔
          (inHttp.type = "GET".toList ∧ inHttp.address = "/".toList))
      ∧ (value = "image/png".toList ↔
          (inHttp.type = "POST".toList ∧ r.response.status = 200))
      ∧ (r.response.status ≠ 200 →
          value = "text/plain".toList ∧ r.response.bodyData ≠ []
            ∧ r.response.bodyLen = r.response.bodyData.length) := by
  have hpg := post_ne_get
  have h1 := text_plain_ne_html
  have h2 := text_plain_ne_png
  have h3 := text_html_ne_png
  rcases respond_to_request_cases engine codec homeFile inHttp imageOps with
    ⟨-, -, h⟩ | ⟨hg, ha, h⟩ | ⟨hg, ha, h⟩ | ⟨hg, hp, h⟩ | ⟨hp, h⟩ | ⟨hp, o, ho, h⟩ | ⟨hp, h⟩
      | ⟨hp, op, o, c, l, ho, h⟩ | ⟨hp, f, c, l, h⟩
  · rw [h] at hr; cases hr
  · rw [h] at hr; cases hr
    have hnp : inHttp.type ≠ "POST".toList := by rw [hg]; exact hpg.symm
    exact ⟨"text/html".toList, rfl, iff_of_true rfl ⟨hg, ha⟩,
      iff_of_false h3 (fun x => hnp x.1), fun hs => absurd rfl hs⟩
  · rw [h] at hr; cases hr
    have hnp : inHttp.type ≠ "POST".toList := by rw [hg]; exact hpg.symm
    exact ⟨"text/plain".toList, rfl, iff_of_false h1 (fun x => ha x.2),
      iff_of_false h2 (fun x => hnp x.1), fun _ => ⟨rfl, not_found_body_ne_nil, rfl⟩⟩
  · rw [h] at hr; cases hr
    exact ⟨"text/plain".toList, rfl, iff_of_false h1 (fun x => hg x.1),
      iff_of_false h2 (fun x => hp x.1), fun _ => ⟨rfl, method_disallowed_body_ne_nil, rfl⟩⟩
  · rw [h] at hr; cases hr
    have hg : inHttp.type ≠ "GET".toList := by rw [hp]; exact hpg
    exact ⟨"text/plain".toList, rfl, iff_of_false h1 (fun x => hg x.1),
      iff_of_false h2 (fun x => absurd x.2 invalid_op_status_ne_ok),
      fun _ => ⟨rfl, invalid_op_body_ne_nil, rfl⟩⟩
  · rw [h] at hr; cases hr
    rw [create_payload_large_post_request_eq] at ho
    cases ho
    have hg : inHttp.type ≠ "GET".toList := by rw [hp]; exact hpg
    have hne : (413 : Nat) ≠ 200 := by decide
    exact ⟨"text/plain".toList, rfl, iff_of_false h1 (fun x => hg x.1),
      iff_of_false h2 (fun x => absurd x.2 hne),
      fun _ => ⟨rfl, append3_ne_nil _ _ _ (by decide), rfl⟩⟩
  · rw [h] at hr; cases hr
    have hg : inHttp.type ≠ "GET".toList := by rw [hp]; exact hpg
    exact ⟨"text/plain".toList, rfl, iff_of_false h1 (fun x => hg x.1),
      iff_of_false h2 (fun x => absurd x.2 unprocessable_status_ne_ok),
      fun _ => ⟨rfl, unprocessable_body_ne_nil, rfl⟩⟩
  · rw [h] at hr; cases hr
    rw [create_not_implemented_post_request_kind] at ho
    cases ho
    have hg : inHttp.type ≠ "GET".toList := by rw [hp]; exact hpg
    have hne : (501 : Nat) ≠ 200 := by decide
    exact ⟨"text/plain".toList, rfl, iff_of_false h1 (fun x => hg x.1),
      iff_of_false h2 (fun x => absurd x.2 hne),
      fun _ => ⟨rfl, append3_ne_nil _ _ _ (by decide), rfl⟩⟩
  · rw [h] at hr; cases hr
    have hg : inHttp.type ≠ "GET".toList := by rw [hp]; exact hpg
    exact ⟨"image/png".toList, rfl, iff_of_false h3.symm (fun x => hg x.1),
      iff_of_true rfl ⟨hp, rfl⟩, fun hs => absurd rfl hs⟩

/-- The statement above on GET "/nope", answered with 404. -/
theorem response_carries_one_content_type_header_witness :
    ∃ value, (⟨create_not_found_post_request, ⟨0, 1⟩, [], 0⟩ : RespondResult).response.headers
        = [⟨"Content-Type".toList, value⟩]
      ∧ (value = "text/html".toList ↔
          ((⟨"GET".toList, "/nope".toList, [], "abc".toList, 3⟩ : HttpRequest).type
              = "GET".toList
            ∧ (⟨"GET".toList, "/nope".toList, [], "abc".toList, 3⟩ : HttpRequest).address
              = "/".toList))
      ∧ (value = "image/png".toList ↔
          ((⟨"GET".toList, "/nope".toList, [], "abc".toList, 3⟩ : HttpRequest).type
              = "POST".toList
            ∧ (⟨create_not_found_post_request, ⟨0, 1⟩, [], 0⟩ : RespondResult).response.status
              = 200))
      ∧ ((⟨create_not_found_post_request, ⟨0, 1⟩, [], 0⟩ : RespondResult).response.status ≠ 200 →
          value = "text/plain".toList
            ∧ (⟨create_not_found_post_request, ⟨0, 1⟩, [], 0⟩ : RespondResult).response.bodyData
              ≠ []
            ∧ (⟨create_not_found_post_request, ⟨0, 1⟩, [], 0⟩ : RespondResult).response.bodyLen
              = (⟨create_not_found_post_request, ⟨0, 1⟩, [], 0⟩
                  : RespondResult).response.bodyData.length) :=
  response_carries_one_content_type_header sampleEngine sampleCodec "<html>".toList
    ⟨"GET".toList, "/nope".toList, [], "abc".toList, 3⟩ ⟨0, 1⟩
    ⟨create_not_found_post_request, ⟨0, 1⟩, [], 0⟩ rfl



/-- C20: for a request that was read and answered, the loop body of
`handle_connection` returns that answer and raises exactly one of the two
response counters by exactly one: `okResponses` when the status is 200 and
`errorResponses` for every other status. The other response counter and the
two client counters are unchanged, and the operations counter is the one
`respond_to_request` left. The increment is one addition of 1 in `int`: the
counter holds its old value plus 1 whenever that sum is an `int` value. -/
theorem each_response_counted_once {Img : Type} (engine : ImageEngine Img)
    (codec : ImageCodec Img) (homeFile : List Char) (stats : SharedStats) (inHttp : HttpRequest)
    (r : RespondResult)
    (hr : respond_to_request engine codec homeFile inHttp stats.operationCompletions = some r) :
    ∃ stats1, serve_request engine codec homeFile stats inHttp = some (stats1, r.response)
      ∧ (r.response.status = 200 →
          stats1.okResponses.value = toInt32 (stats.okResponses.value + 1)
            ∧ (intRange (stats.okResponses.value + 1) →
                stats1.okResponses.value = stats.okResponses.value + 1)
            ∧ stats1.okResponses.lock = stats.okResponses.lock
            ∧ stats1.errorResponses = stats.errorResponses)
      ∧ (r.response.status ≠ 200 →
          stats1.errorResponses.value = toInt32 (stats.errorResponses.value + 1)
            ∧ (intRange (stats.errorResponses.value + 1) →
                stats1.errorResponses.value = stats.errorResponses.value + 1)
            ∧ stats1.errorResponses.lock = stats.errorResponses.lock
            ∧ stats1.okResponses = stats.okResponses)
      ∧ stats1.currentClients = stats.currentClients
      ∧ stats1.finishedClients = stats.finishedClients
      ∧ stats1.operationCompletions = r.imageOps := by
  unfold serve_request
  rw [hr]
  by_cases hs : r.response.status = 200
  · have hs1 : r.response.status = HTTP_OK := hs
    simp only [if_pos hs1]
    exact ⟨_, rfl, fun _ => ⟨rfl, fun h => toInt32_of_intRange _ h, modify_mutex_lock _ _, rfl⟩,
      fun h => absurd hs h, rfl, rfl, rfl⟩
  · have hs1 : ¬ r.response.status = HTTP_OK := hs
    simp only [if_neg hs1]
    exact ⟨_, rfl, fun h => absurd h hs,
      fun _ => ⟨rfl, fun h => toInt32_of_intRange _ h, modify_mutex_lock _ _, rfl⟩,
      rfl, rfl, rfl⟩

/-- The statement above on POST "/flip,x", answered with 400: the error
counter goes from 4 to 5. -/
theorem each_response_counted_once_witness :
    ∃ stats1, serve_request sampleEngine sampleCodec "<html>".toList
          ⟨⟨0, 1⟩, ⟨0, 1⟩, ⟨3, 1⟩, ⟨4, 1⟩, ⟨7, 1⟩⟩
          ⟨"POST".toList, "/flip,x".toList, [], "abc".toList, 3⟩
        = some (stats1, create_invalid_op_post_request)
      ∧ (create_invalid_op_post_request.status = 200 →
          stats1.okResponses.value = toInt32 (3 + 1)
            ∧ (intRange (3 + 1) → stats1.okResponses.value = 3 + 1)
            ∧ stats1.okResponses.lock = 1
            ∧ stats1.errorResponses = ⟨4, 1⟩)
      ∧ (create_invalid_op_post_request.status ≠ 200 →
          stats1.errorResponses.value = toInt32 (4 + 1)
            ∧ (intRange (4 + 1) → stats1.errorResponses.value = 4 + 1)
            ∧ stats1.errorResponses.lock = 1
            ∧ stats1.okResponses = ⟨3, 1⟩)
      ∧ stats1.currentClients = ⟨0, 1⟩
      ∧ stats1.finishedClients = ⟨0, 1⟩
      ∧ stats1.operationCompletions = ⟨7, 1⟩ :=
  each_response_counted_once sampleEngine sampleCodec "<html>".toList
    ⟨⟨0, 1⟩, ⟨0, 1⟩, ⟨3, 1⟩, ⟨4, 1⟩, ⟨7, 1⟩⟩
    ⟨"POST".toList, "/flip,x".toList, [], "abc".toList, 3⟩
    ⟨create_invalid_op_post_request, ⟨7, 1⟩, [], 0⟩ (by decide)



/-- C22: the call `modify_mutex(&(sharedStats->name), change)` adds `change` to
the value of the named counter, in `int` as the statement `value += change`
does: the new value is the sum whenever the sum is an `int` value, and the sum
reduced modulo 2^32 otherwise (2147483647 plus 1 gives -2147483648). The call
leaves the lock of the counter as it was before (the semaphore is taken and
given back, so a free lock is free again) and leaves the other four counters
unchanged. -/
theorem modify_mutex_changes_one_counter (sharedStats : SharedStats) (name : Counter)
    (change : Int) :
    ((sharedStats.modify name change).counter name).value
        = toInt32 ((sharedStats.counter name).value + change)
      ∧ (intRange ((sharedStats.counter name).value + change) →
          ((sharedStats.modify name change).counter name).value
            = (sharedStats.counter name).value + change)
      ∧ ((sharedStats.modify name change).counter name).lock = (sharedStats.counter name).lock
      ∧ (∀ value : Int, modify_mutex ⟨value, 1⟩ change = ⟨toInt32 (value + change), 1⟩)
      ∧ modify_mutex ⟨2147483647, 1⟩ 1 = ⟨-2147483648, 1⟩
      ∧ modify_mutex ⟨41, 1⟩ 1 = ⟨42, 1⟩
      ∧ (∀ other : Counter, other = name
          ∨ (sharedStats.modify name change).counter other = sharedStats.counter other) := by
  have hvalue : ((sharedStats.modify name change).counter name).value
      = toInt32 ((sharedStats.counter name).value + change) := by
    cases name <;> rfl
  refine ⟨hvalue, ?_, ?_, ?_, by decide, by decide, ?_⟩
  · intro hr
    rw [hvalue, toInt32_of_intRange _ hr]
  · cases name <;> exact modify_mutex_lock _ _
  · intro value
    exact mutex_eq _ _ _ (modify_mutex_value _ _) (modify_mutex_lock _ _)
  · intro other
    cases name <;> cases other <;> first | exact Or.inl rfl | exact Or.inr rfl

/-- C24 as stated fails: in a process that receives two triggers the reporter
prints the statistics once, not twice; the second trigger produces no report
because `signal_handler` has returned after the first. -/
theorem second_trigger_produces_no_report :
    (signal_handler ⟨⟨1, 1⟩, ⟨2, 1⟩, ⟨3, 1⟩, ⟨4, 1⟩, ⟨5, 1⟩⟩ 2).2
        = (print_statistics ⟨⟨1, 1⟩, ⟨2, 1⟩, ⟨3, 1⟩, ⟨4, 1⟩, ⟨5, 1⟩⟩).2
      ∧ (signal_handler ⟨⟨1, 1⟩, ⟨2, 1⟩, ⟨3, 1⟩, ⟨4, 1⟩, ⟨5, 1⟩⟩ 2).2
        ≠ (print_statistics ⟨⟨1, 1⟩, ⟨2, 1⟩, ⟨3, 1⟩, ⟨4, 1⟩, ⟨5, 1⟩⟩).2
          ++ (print_statistics ⟨⟨1, 1⟩, ⟨2, 1⟩, ⟨3, 1⟩, ⟨4, 1⟩, ⟨5, 1⟩⟩).2 := by
  decide

/-- C24 amended: the reporter handles the first trigger only. With no trigger
it prints nothing; with one or more triggers it prints exactly the report of
the first and returns, however many triggers follow. -/
theorem reporter_reports_first_trigger_only (sharedStats : SharedStats) (later : Nat) :
    signal_handler sharedStats 0 = (sharedStats, [])
      ∧ signal_handler sharedStats (later + 1) = print_statistics sharedStats
      ∧ signal_handler sharedStats (later + 1) = signal_handler sharedStats 1 :=
  ⟨rfl, rfl, rfl⟩

theorem report_counter_eq (formatText : List Char) (mutex : Mutex) :
    report_counter formatText mutex
      = (mutex, formatText ++ intDecimal mutex.value ++ "\n".toList) := by
  unfold report_counter sem_wait sem_post
  simp

/-- C34: for all values of the five counters, the text printed on a trigger is
the five lines "Currently connected clients: ", "Completed clients: ",
"Successfully processed HTTP requests: ", "HTTP requests unsuccessful: " and
"Operations on images completed: ", in this order, each followed by the decimal
text of its counter and a newline; the statistics are the same afterwards. -/
theorem report_is_five_lines_in_fixed_order (sharedStats : SharedStats) (later : Nat) :
    signal_handler sharedStats (later + 1)
      = (sharedStats,
          "Currently connected clients: ".toList
              ++ intDecimal sharedStats.currentClients.value ++ "\n".toList
            ++ ("Completed clients: ".toList
              ++ intDecimal sharedStats.finishedClients.value ++ "\n".toList)
            ++ ("Successfully processed HTTP requests: ".toList
              ++ intDecimal sharedStats.okResponses.value ++ "\n".toList)
            ++ ("HTTP requests unsuccessful: ".toList
              ++ intDecimal sharedStats.errorResponses.value ++ "\n".toList)
            ++ ("Operations on images completed: ".toList
              ++ intDecimal sharedStats.operationCompletions.value ++ "\n".toList)) := by
  unfold signal_handler print_statistics
  simp only [report_counter_eq]

/-- C26: the claim fails on the code for every height above 1. For the values
"5" and "5", both inside 1..10000, `get_extent` returns the sentinel in both
fields, because the height is compared with `scalingMin` where the upper
bound `scalingMax` is meant; the command line `1234 --scale 5 5` is refused. -/
theorem get_extent_refuses_height_above_one :
    get_extent "5".toList "5".toList = ⟨intSentinal, intSentinal⟩
      ∧ (parse_client_inputs ["uqimageclient".toList, "1234".toList, "--scale".toList,
          "5".toList, "5".toList]).error = true
      ∧ get_extent "5".toList "1".toList = ⟨5, 1⟩ := by
  decide

/-- C27: the claim fails on the code. The text "4294967296" is an integer
outside -359..359, yet `get_rotation` returns 0 for it and not the sentinel:
the `long` that `strtol` returns is cut to an `int` before the bounds are
checked. The text "90abc" is no integer, yet 90 is returned. -/
theorem get_rotation_accepts_out_of_range_text :
    get_rotation "4294967296".toList = 0 ∧ get_rotation "90abc".toList = 90
      ∧ get_rotation "360".toList = intSentinal ∧ get_rotation "abc".toList = intSentinal := by
  decide

/-- C30: the claim fails on the code. For the command line `--max abc` the
function returns error = false with maxConnections = 0: after `i++` the test
for a missing number compares `endPtr` with the argument after the value. -/
theorem max_without_number_accepted :
    parse_server_inputs ["uqimageproc".toList, "--max".toList, "abc".toList]
        = ⟨false, 0, none⟩
      ∧ parse_server_inputs ["uqimageproc".toList, "--max".toList, "abc".toList,
          "--port".toList, "2310".toList] = ⟨false, 0, some "2310".toList⟩ := by
  decide

/-- C31: the claim fails on the code. In the command line `--max -1 --max 5`
the option `--max` stands a second time in option position, yet the function
returns error = false with maxConnections = 5: the test for a repeated option
is `maxConnections != -1`, which the value -1 passes. The value 4294967297 of
`--max` is greater than 10000, yet it is accepted as 1, the `long` being cut to
an `int` before the bound is checked. A repeated `--port`, an empty value, a
missing value, an unknown option and the value 10001 are refused. -/
theorem repeated_max_after_minus_one_accepted :
    parse_server_inputs ["uqimageproc".toList, "--max".toList, "-1".toList,
        "--max".toList, "5".toList] = ⟨false, 5, none⟩
      ∧ parse_server_inputs ["uqimageproc".toList, "--max".toList, "4294967297".toList]
        = ⟨false, 1, none⟩
      ∧ (parse_server_inputs ["uqimageproc".toList, "--port".toList, "1".toList,
          "--port".toList, "2".toList]).error = true
      ∧ (parse_server_inputs ["uqimageproc".toList, "--max".toList, "".toList]).error = true
      ∧ (parse_server_inputs ["uqimageproc".toList, "--port".toList]).error = true
      ∧ (parse_server_inputs ["uqimageproc".toList, "--bogus".toList, "1".toList]).error = true
      ∧ (parse_server_inputs ["uqimageproc".toList, "--max".toList, "10001".toList]).error
        = true := by
  decide



/-- C32: `write_operations_response` returns 8, writes nothing to the output
stream and prints the message of a closed connection when no well-formed
response can be read. For a response that was read it returns 0 and writes the
`bodyLen` bytes of the body to the output stream, and nothing to the error
stream, when the status is 200, and it returns 9 and writes those bytes to the
error stream, and nothing to the output stream, for every other status; so 0
is returned exactly for a response with status 200. -/
theorem write_operations_response_outcomes (received : HttpResponse) :
    write_operations_response none = ⟨8, [], noResponseMessage⟩
      ∧ write_operations_response (some received)
        = (if received.status = 200 then
            ⟨0, received.bodyData.take received.bodyLen, []⟩
          else ⟨9, [], received.bodyData.take received.bodyLen⟩)
      ∧ ((write_operations_response (some received)).code = 0 ↔ received.status = 200)
      ∧ (∀ response, (write_operations_response response).code = 0 ↔
          ∃ r, response = some r ∧ r.status = 200) := by
  have h2 : ∀ r : HttpResponse, write_operations_response (some r)
      = (if r.status = 200 then ⟨0, r.bodyData.take r.bodyLen, []⟩
          else ⟨9, [], r.bodyData.take r.bodyLen⟩) := by
    intro r
    unfold write_operations_response
    by_cases hs : r.status = 200
    · have hs1 : ¬ r.status ≠ HTTP_OK := fun h => h hs
      simp only [if_neg hs1, if_pos hs]
    · have hs1 : r.status ≠ HTTP_OK := hs
      simp only [if_pos hs1, if_neg hs]
      rfl
  have h3 : ∀ r : HttpResponse, (write_operations_response (some r)).code = 0 ↔ r.status = 200 := by
    intro r
    rw [h2 r]
    by_cases hs : r.status = 200
    · rw [if_pos hs]; exact iff_of_true rfl hs
    · rw [if_neg hs]
      have e : (9 : Nat) ≠ 0 := by decide
      exact iff_of_false e hs
  refine ⟨rfl, h2 received, h3 received, ?_⟩
  intro response
  cases response with
  | none =>
    constructor
    · intro h; exact absurd h (by decide)
    · rintro ⟨r, hr, -⟩; cases hr
  | some r =>
    rw [h3 r]
    constructor
    · intro h; exact ⟨r, rfl, h⟩
    · rintro ⟨r1, hr, hs⟩; cases hr; exact hs

/-- C35: when `respond_to_request` answers a request that is not a POST (a GET
or any other method), or answers a POST with 400, 413 or 422, the operations
counter is exactly as it was and no transform of the image engine was
called. -/
theorem undispatched_request_leaves_counter {Img : Type} (engine : ImageEngine Img)
    (codec : ImageCodec Img) (homeFile : List Char) (inHttp : HttpRequest) (imageOps : Mutex)
    (r : RespondResult)
    (hr : respond_to_request engine codec homeFile inHttp imageOps = some r)
    (hkind : inHttp.type ≠ "POST".toList ∨ r.response.status = 400
      ∨ r.response.status = 413 ∨ r.response.status = 422) :
    r.imageOps = imageOps ∧ r.calls = [] := by
  have hpg := post_ne_get
  rcases respond_to_request_cases engine codec homeFile inHttp imageOps with
    ⟨-, -, h⟩ | ⟨hg, ha, h⟩ | ⟨hg, ha, h⟩ | ⟨hg, hp, h⟩ | ⟨hp, h⟩ | ⟨hp, o, ho, h⟩ | ⟨hp, h⟩
      | ⟨hp, op, o, c, l, ho, h⟩ | ⟨hp, f, c, l, h⟩
  · rw [h] at hr; cases hr
  · rw [h] at hr; cases hr; exact ⟨rfl, rfl⟩
  · rw [h] at hr; cases hr; exact ⟨rfl, rfl⟩
  · rw [h] at hr; cases hr; exact ⟨rfl, rfl⟩
  · rw [h] at hr; cases hr; exact ⟨rfl, rfl⟩
  · rw [h] at hr; cases hr; exact ⟨rfl, rfl⟩
  · rw [h] at hr; cases hr; exact ⟨rfl, rfl⟩
  · rw [h] at hr; cases hr
    rw [create_not_implemented_post_request_kind] at ho
    cases ho
    have e1 : (501 : Nat) ≠ 400 := by decide
    have e2 : (501 : Nat) ≠ 413 := by decide
    have e3 : (501 : Nat) ≠ 422 := by decide
    rcases hkind with h1 | h1 | h1 | h1
    · exact absurd hp h1
    · exact absurd h1 e1
    · exact absurd h1 e2
    · exact absurd h1 e3
  · rw [h] at hr; cases hr
    have e1 : (200 : Nat) ≠ 400 := by decide
    have e2 : (200 : Nat) ≠ 413 := by decide
    have e3 : (200 : Nat) ≠ 422 := by decide
    rcases hkind with h1 | h1 | h1 | h1
    · exact absurd hp h1
    · exact absurd h1 e1
    · exact absurd h1 e2
    · exact absurd h1 e3

/-- The statement above on POST "/rotate,90" with an empty body, answered with
422 by the sample codec: counter 7 stays 7. -/
theorem undispatched_request_leaves_counter_witness :
    (⟨create_unprocessable_post_request, ⟨7, 1⟩, [], 1⟩ : RespondResult).imageOps = ⟨7, 1⟩
      ∧ (⟨create_unprocessable_post_request, ⟨7, 1⟩, [], 1⟩ : RespondResult).calls = [] :=
  undispatched_request_leaves_counter sampleEngine sampleCodec "<html>".toList
    ⟨"POST".toList, "/rotate,90".toList, [], [], 0⟩ ⟨7, 1⟩
    ⟨create_unprocessable_post_request, ⟨7, 1⟩, [], 1⟩ (by decide)
    (Or.inr (Or.inr (Or.inr rfl)))

set_option maxRecDepth 100000 in
/-- C37: for every address with at most 33 segments after the first field the
codec returns a buffer, that is, every store it made was below the 100
allocated entries, and the returned numCmds is at most 99. The codec checks no
capacity: the 34 segments "scale,1,1" make it store past the block. -/
theorem at_most_33_segments_fit_buffer (address : List Char)
    (hsegs : ((split_by_char address '/' 0).drop 1).length ≤ 33) :
    (∃ r, create_image_processing_command_buffer address = some r ∧ r.numCmds ≤ 99)
      ∧ create_image_processing_command_buffer
          (addressOf (List.replicate 34 "scale,1,1".toList)) = none := by
  constructor
  · obtain ⟨r, hr, hn⟩ := parse_segments_defined ((split_by_char address '/' 0).drop 1)
      ⟨false, [], 0⟩ (by show 0 + 3 * _ ≤ 100; omega)
    refine ⟨r, hr, ?_⟩
    have : (⟨false, [], 0⟩ : CommandBuffer).numCmds = 0 := rfl
    omega
  · decide

/-- The statement above on the address "/rotate,90/flip,h". -/
theorem at_most_33_segments_fit_buffer_witness :
    (∃ r, create_image_processing_command_buffer "/rotate,90/flip,h".toList = some r
        ∧ r.numCmds ≤ 99)
      ∧ create_image_processing_command_buffer
          (addressOf (List.replicate 34 "scale,1,1".toList)) = none :=
  at_most_33_segments_fit_buffer "/rotate,90/flip,h".toList (by decide)

/-- C38: the first field of the address is never examined. For every
slash-free text `p` and every text `r`, decoding `p` followed by "/" and `r`
gives what decoding "/" followed by `r` gives, and decoding `p` alone gives
the empty sequence with parseError = false. -/
theorem first_field_never_examined (p r : List Char) (hp : '/' ∉ p) :
    create_image_processing_command_buffer (p ++ '/' :: r)
        = create_image_processing_command_buffer ('/' :: r)
      ∧ create_image_processing_command_buffer p = some ⟨false, [], 0⟩ := by
  constructor
  · have h1 := split_by_char_append p r '/' hp
    have h2 := split_by_char_append [] r '/' (by simp)
    rw [List.nil_append] at h2
    unfold create_image_processing_command_buffer
    rw [h1, h2]
    rfl
  · unfold create_image_processing_command_buffer
    rw [split_by_char_no_delim p '/' hp]
    rfl

/-- The statement above on the prefix "abc" and the rest "rotate,90". -/
theorem first_field_never_examined_witness :
    create_image_processing_command_buffer ("abc".toList ++ '/' :: "rotate,90".toList)
        = create_image_processing_command_buffer ('/' :: "rotate,90".toList)
      ∧ create_image_processing_command_buffer "abc".toList = some ⟨false, [], 0⟩ :=
  first_field_never_examined "abc".toList "rotate,90".toList (by decide)



theorem respond_defined {Img : Type} (engine : ImageEngine Img) (codec : ImageCodec Img)
    (homeFile : List Char) (inHttp : HttpRequest) (imageOps : Mutex)
    (hwell : inHttp.type = "POST".toList →
      create_image_processing_command_buffer inHttp.address ≠ none) :
    ∃ r, respond_to_request engine codec homeFile inHttp imageOps = some r := by
  rcases respond_to_request_cases engine codec homeFile inHttp imageOps with
    ⟨hp, hd, -⟩ | ⟨-, -, h⟩ | ⟨-, -, h⟩ | ⟨-, -, h⟩ | ⟨-, h⟩ | ⟨-, o, -, h⟩ | ⟨-, h⟩
      | ⟨-, op, o, c, l, -, h⟩ | ⟨-, f, c, l, h⟩
  · exact absurd hd (hwell hp)
  all_goals exact ⟨_, h⟩

theorem serve_request_none_iff {Img : Type} (engine : ImageEngine Img) (codec : ImageCodec Img)
    (homeFile : List Char) (stats : SharedStats) (inHttp : HttpRequest) :
    serve_request engine codec homeFile stats inHttp = none ↔
      (inHttp.type = "POST".toList
        ∧ create_image_processing_command_buffer inHttp.address = none) := by
  constructor
  · intro hnone
    by_cases hbad : inHttp.type = "POST".toList
        ∧ create_image_processing_command_buffer inHttp.address = none
    · exact hbad
    · exfalso
      obtain ⟨r, hr⟩ := respond_defined engine codec homeFile inHttp stats.operationCompletions
        (fun hp hd => hbad ⟨hp, hd⟩)
      unfold serve_request at hnone
      rw [hr] at hnone
      by_cases hs : r.response.status = HTTP_OK
      · simp only [if_pos hs] at hnone
        cases hnone
      · simp only [if_neg hs] at hnone
        cases hnone
  · rintro ⟨hp, hd⟩
    unfold serve_request
    rw [respond_post_overrun engine codec homeFile inHttp stats.operationCompletions hp hd]

theorem serve_request_counts {Img : Type} (engine : ImageEngine Img) (codec : ImageCodec Img)
    (homeFile : List Char) (stats stats1 : SharedStats) (inHttp : HttpRequest)
    (outHttp : HttpResponse)
    (h : serve_request engine codec homeFile stats inHttp = some (stats1, outHttp)) :
    stats1.currentClients = stats.currentClients
      ∧ stats1.finishedClients = stats.finishedClients
      ∧ (outHttp.status = 200 →
          stats1.okResponses.value = toInt32 (stats.okResponses.value + 1)
            ∧ stats1.errorResponses = stats.errorResponses)
      ∧ (¬ outHttp.status = 200 →
          stats1.errorResponses.value = toInt32 (stats.errorResponses.value + 1)
            ∧ stats1.okResponses = stats.okResponses) := by
  unfold serve_request at h
  cases hr : respond_to_request engine codec homeFile inHttp stats.operationCompletions with
  | none => rw [hr] at h; cases h
  | some r =>
    rw [hr] at h
    by_cases hs : r.response.status = HTTP_OK
    · simp only [if_pos hs] at h
      cases h
      exact ⟨rfl, rfl, fun _ => ⟨rfl, rfl⟩, fun hn => absurd hs hn⟩
    · simp only [if_neg hs] at h
      cases h
      exact ⟨rfl, rfl, fun hy => absurd hy hs, fun _ => ⟨rfl, rfl⟩⟩

theorem handle_requests_spec {Img : Type} (engine : ImageEngine Img) (codec : ImageCodec Img)
    (homeFile : List Char) :
    ∀ (requests : List HttpRequest) (stats : SharedStats) (written : List HttpResponse)
      (passes : List SharedStats),
      (handle_requests engine codec homeFile requests stats written passes = none ↔
          ∃ req ∈ requests, req.type = "POST".toList
            ∧ create_image_processing_command_buffer req.address = none)
        ∧ ∀ run, handle_requests engine codec homeFile requests stats written passes
            = some run →
          ∃ ws ps, run.written = written ++ ws ∧ run.passes = passes ++ ps
            ∧ ws.length = requests.length
            ∧ ps.length = requests.length + 1
            ∧ (∀ s ∈ ps, s.currentClients = stats.currentClients
                ∧ s.finishedClients = stats.finishedClients)
            ∧ run.final.currentClients = modify_mutex stats.currentClients (-1)
            ∧ run.final.finishedClients = modify_mutex stats.finishedClients 1
            ∧ run.final.okResponses.value = incremented stats.okResponses.value
                (ws.countP (fun out => decide (out.status = 200)))
            ∧ run.final.errorResponses.value = incremented stats.errorResponses.value
                (ws.countP (fun out => decide (¬ out.status = 200)))
            ∧ ws.countP (fun out => decide (out.status = 200))
                + ws.countP (fun out => decide (¬ out.status = 200)) = requests.length := by
  intro requests
  induction requests with
  | nil =>
    intro stats written passes
    constructor
    · constructor
      · intro h; cases h
      · rintro ⟨req, hreq, -⟩; cases hreq
    · intro run hrun
      have hrun1 : some (⟨{ ({ stats with
            finishedClients := modify_mutex stats.finishedClients 1 } : SharedStats) with
          currentClients := modify_mutex stats.currentClients (-1) }, written,
          passes ++ [stats]⟩ : ConnectionRun) = some run := hrun
      cases hrun1
      refine ⟨[], [stats], (List.append_nil _).symm, rfl, rfl, rfl, ?_, rfl, rfl, rfl, rfl, rfl⟩
      intro s hs
      rw [List.mem_singleton] at hs
      rw [hs]
      exact ⟨rfl, rfl⟩
  | cons req rest ih =>
    intro stats written passes
    cases hserve : serve_request engine codec homeFile stats req with
    | none =>
      have hbad := (serve_request_none_iff engine codec homeFile stats req).mp hserve
      have hnone : handle_requests engine codec homeFile (req :: rest) stats written passes
          = none := by
        simp only [handle_requests, hserve]
      constructor
      · exact iff_of_true hnone ⟨req, List.mem_cons_self _ _, hbad⟩
      · intro run hrun
        rw [hnone] at hrun
        cases hrun
    | some pair =>
      obtain ⟨stats1, outHttp⟩ := pair
      have hgood : ¬ (req.type = "POST".toList
          ∧ create_image_processing_command_buffer req.address = none) := by
        intro hbad
        rw [(serve_request_none_iff engine codec homeFile stats req).mpr hbad] at hserve
        cases hserve
      have hstep : handle_requests engine codec homeFile (req :: rest) stats written passes
          = handle_requests engine codec homeFile rest stats1 (written ++ [outHttp])
            (passes ++ [stats]) := by
        simp only [handle_requests, hserve]
      obtain ⟨hc, hf, hyes, hno⟩ :=
        serve_request_counts engine codec homeFile stats stats1 req outHttp hserve
      obtain ⟨ihnone, ihrun⟩ := ih stats1 (written ++ [outHttp]) (passes ++ [stats])
      rw [hstep]
      constructor
      · rw [ihnone]
        constructor
        · rintro ⟨r, hr, hb⟩
          exact ⟨r, List.mem_cons_of_mem _ hr, hb⟩
        · rintro ⟨r, hr, hb⟩
          rcases List.mem_cons.mp hr with e | hin
          · rw [e] at hb; exact absurd hb hgood
          · exact ⟨r, hin, hb⟩
      · intro run hrun
        obtain ⟨ws, ps, hw, hp, hwl, hpl, hall, hcur, hfin, hok, herr, hsum⟩ := ihrun run hrun
        have hcy : List.countP (fun out : HttpResponse => decide (out.status = 200))
            (outHttp :: ws)
            = List.countP (fun out : HttpResponse => decide (out.status = 200)) ws
              + (if outHttp.status = 200 then 1 else 0) := by
          rw [List.countP_cons]
          by_cases hs : outHttp.status = 200
          · simp [hs]
          · simp [hs]
        have hcn : List.countP (fun out : HttpResponse => decide (¬ out.status = 200))
            (outHttp :: ws)
            = List.countP (fun out : HttpResponse => decide (¬ out.status = 200)) ws
              + (if outHttp.status = 200 then 0 else 1) := by
          rw [List.countP_cons]
          by_cases hs : outHttp.status = 200
          · simp [hs]
          · simp [hs]
        refine ⟨outHttp :: ws, stats :: ps, ?_, ?_, ?_, ?_, ?_, ?_, ?_, ?_, ?_, ?_⟩
        · rw [hw, List.append_assoc]; rfl
        · rw [hp, List.append_assoc]; rfl
        · rw [List.length_cons, List.length_cons, hwl]
        · rw [List.length_cons, List.length_cons, hpl]
        · intro s hs
          rcases List.mem_cons.mp hs with e | hin
          · rw [e]; exact ⟨rfl, rfl⟩
          · obtain ⟨h1, h2⟩ := hall s hin
            exact ⟨h1.trans hc, h2.trans hf⟩
        · rw [hcur, hc]
        · rw [hfin, hf]
        · by_cases hs : outHttp.status = 200
          · rw [hcy, if_pos hs, hok, (hyes hs).1]
            rfl
          · rw [hcy, if_neg hs, hok, (hno hs).2]
            rfl
        · by_cases hs : outHttp.status = 200
          · rw [hcn, if_pos hs, herr, (hyes hs).2]
            rfl
          · rw [hcn, if_neg hs, herr, (hno hs).1]
            rfl
        · rw [hcy, hcn, List.length_cons]
          by_cases hs : outHttp.status = 200
          · rw [if_pos hs, if_pos hs]; omega
          · rw [if_neg hs, if_neg hs]; omega

/-- C21: one run of `handle_connection` on a connection that delivers the
requests of a list and then fails to deliver another. The run returns unless a
POST address overruns the command buffer of the codec. When it returns it has
written one response per request and made one pass of the loop more than there
are requests; at the start of every pass `currentClients` holds the entry
value raised by one (the increment on entry) and `finishedClients` is
untouched; on return `currentClients` is back at the entry value (the decrement
at the read failure), `finishedClients` has been raised once, `okResponses`
once per response with status 200 and `errorResponses` once per other
response, which is once per request in all. Each counter is an `int`: where the
sums are `int` values the counters hold them as plain sums. -/
theorem connection_counters {Img : Type} (engine : ImageEngine Img) (codec : ImageCodec Img)
    (homeFile : List Char) (requests : List HttpRequest) (stats : SharedStats) :
    (handle_connection engine codec homeFile requests stats = none ↔
        ∃ req ∈ requests, req.type = "POST".toList
          ∧ create_image_processing_command_buffer req.address = none)
      ∧ ∀ run, handle_connection engine codec homeFile requests stats = some run →
        run.written.length = requests.length
          ∧ run.passes.length = requests.length + 1
          ∧ (∀ s ∈ run.passes,
              s.currentClients.value = toInt32 (stats.currentClients.value + 1)
                ∧ s.finishedClients = stats.finishedClients)
          ∧ run.final.currentClients.value = toInt32 stats.currentClients.value
          ∧ run.final.finishedClients.value = toInt32 (stats.finishedClients.value + 1)
          ∧ run.final.okResponses.value = incremented stats.okResponses.value
              (run.written.countP (fun out => decide (out.status = 200)))
          ∧ run.final.errorResponses.value = incremented stats.errorResponses.value
              (run.written.countP (fun out => decide (¬ out.status = 200)))
          ∧ run.written.countP (fun out => decide (out.status = 200))
              + run.written.countP (fun out => decide (¬ out.status = 200)) = requests.length
          ∧ (intRange stats.currentClients.value → intRange (stats.currentClients.value + 1) →
              intRange (stats.finishedClients.value + 1) →
              intRange stats.okResponses.value →
              intRange (stats.okResponses.value + requests.length) →
              intRange stats.errorResponses.value →
              intRange (stats.errorResponses.value + requests.length) →
              (∀ s ∈ run.passes, s.currentClients.value = stats.currentClients.value + 1)
                ∧ run.final.currentClients.value = stats.currentClients.value
                ∧ run.final.finishedClients.value = stats.finishedClients.value + 1
                ∧ run.final.okResponses.value + run.final.errorResponses.value
                  = stats.okResponses.value + stats.errorResponses.value
                    + requests.length) := by
  obtain ⟨hnone, hrunAll⟩ := handle_requests_spec engine codec homeFile requests
    { stats with currentClients := modify_mutex stats.currentClients 1 } [] []
  refine ⟨hnone, ?_⟩
  intro run hrun
  obtain ⟨ws, ps, hw, hp, hwl, hpl, hall, hcur, hfin, hok, herr, hsum⟩ := hrunAll run hrun
  rw [List.nil_append] at hw hp
  rw [hw, hp]
  have hpass : ∀ s ∈ ps, s.currentClients.value = toInt32 (stats.currentClients.value + 1)
      ∧ s.finishedClients = stats.finishedClients := by
    intro s hs
    obtain ⟨h1, h2⟩ := hall s hs
    exact ⟨by rw [h1]; rfl, h2⟩
  have hcurv : run.final.currentClients.value = toInt32 stats.currentClients.value := by
    rw [hcur, modify_mutex_value]
    show toInt32 (toInt32 (stats.currentClients.value + 1) + -1) = _
    rw [toInt32_add_toInt32]
    congr 1
    omega
  have hfinv : run.final.finishedClients.value = toInt32 (stats.finishedClients.value + 1) := by
    rw [hfin]; rfl
  refine ⟨hwl, hpl, hpass, hcurv, hfinv, hok, herr, hsum, ?_⟩
  intro r1 r2 r3 r4 r5 r6 r7
  refine ⟨?_, ?_, ?_, ?_⟩
  · intro s hs
    rw [(hpass s hs).1, toInt32_of_intRange _ r2]
  · rw [hcurv, toInt32_of_intRange _ r1]
  · rw [hfinv, toInt32_of_intRange _ r3]
  · have hle1 : ws.countP (fun out => decide (out.status = 200)) ≤ requests.length := by omega
    have hle2 : ws.countP (fun out => decide (¬ out.status = 200)) ≤ requests.length := by
      omega
    have ha : intRange (stats.okResponses.value
        + (ws.countP (fun out => decide (out.status = 200)) : Nat)) := by
      unfold intRange at r4 r5 ⊢
      omega
    have hb : intRange (stats.errorResponses.value
        + (ws.countP (fun out => decide (¬ out.status = 200)) : Nat)) := by
      unfold intRange at r6 r7 ⊢
      omega
    rw [hok, herr, incremented_of_intRange _ _ ha, incremented_of_intRange _ _ hb]
    have hsum1 : ((ws.countP (fun out => decide (out.status = 200)) : Nat) : Int)
        + ((ws.countP (fun out => decide (¬ out.status = 200)) : Nat) : Int)
        = (requests.length : Int) := by
      exact_mod_cast hsum
    omega

/-- The statement above on a connection that delivers GET "/" and then
POST "/flip,x", entered with two connected clients: the run returns, and its
three passes each start with three connected clients. -/
theorem connection_counters_witness :
    handle_connection sampleEngine sampleCodec "<html>".toList
        [⟨"GET".toList, "/".toList, [], [], 0⟩,
          ⟨"POST".toList, "/flip,x".toList, [], "abc".toList, 3⟩]
        ⟨⟨2, 1⟩, ⟨5, 1⟩, ⟨3, 1⟩, ⟨4, 1⟩, ⟨7, 1⟩⟩
      = some ⟨⟨⟨2, 1⟩, ⟨6, 1⟩, ⟨4, 1⟩, ⟨5, 1⟩, ⟨7, 1⟩⟩,
          [create_home_post_request "<html>".toList, create_invalid_op_post_request],
          [⟨⟨3, 1⟩, ⟨5, 1⟩, ⟨3, 1⟩, ⟨4, 1⟩, ⟨7, 1⟩⟩, ⟨⟨3, 1⟩, ⟨5, 1⟩, ⟨4, 1⟩, ⟨4, 1⟩, ⟨7, 1⟩⟩,
            ⟨⟨3, 1⟩, ⟨5, 1⟩, ⟨4, 1⟩, ⟨5, 1⟩, ⟨7, 1⟩⟩]⟩
      ∧ ([create_home_post_request "<html>".toList, create_invalid_op_post_request].length = 2
        ∧ [(⟨⟨3, 1⟩, ⟨5, 1⟩, ⟨3, 1⟩, ⟨4, 1⟩, ⟨7, 1⟩⟩ : SharedStats),
            ⟨⟨3, 1⟩, ⟨5, 1⟩, ⟨4, 1⟩, ⟨4, 1⟩, ⟨7, 1⟩⟩,
            ⟨⟨3, 1⟩, ⟨5, 1⟩, ⟨4, 1⟩, ⟨5, 1⟩, ⟨7, 1⟩⟩].length = 2 + 1
        ∧ (∀ s ∈ [(⟨⟨3, 1⟩, ⟨5, 1⟩, ⟨3, 1⟩, ⟨4, 1⟩, ⟨7, 1⟩⟩ : SharedStats),
              ⟨⟨3, 1⟩, ⟨5, 1⟩, ⟨4, 1⟩, ⟨4, 1⟩, ⟨7, 1⟩⟩,
              ⟨⟨3, 1⟩, ⟨5, 1⟩, ⟨4, 1⟩, ⟨5, 1⟩, ⟨7, 1⟩⟩],
            s.currentClients.value = toInt32 (2 + 1) ∧ s.finishedClients = ⟨5, 1⟩)
        ∧ (2 : Int) = toInt32 2
        ∧ (6 : Int) = toInt32 (5 + 1)
        ∧ (4 : Int) = incremented 3
            ([create_home_post_request "<html>".toList, create_invalid_op_post_request].countP
              (fun out => decide (out.status = 200)))
        ∧ (5 : Int) = incremented 4
            ([create_home_post_request "<html>".toList, create_invalid_op_post_request].countP
              (fun out => decide (¬ out.status = 200)))
        ∧ [create_home_post_request "<html>".toList, create_invalid_op_post_request].countP
              (fun out => decide (out.status = 200))
            + [create_home_post_request "<html>".toList, create_invalid_op_post_request].countP
              (fun out => decide (¬ out.status = 200)) = 2
        ∧ (intRange 2 → intRange (2 + 1) → intRange (5 + 1) → intRange 3 →
            intRange (3 + (2 : Nat)) → intRange 4 → intRange (4 + (2 : Nat)) →
            (∀ s ∈ [(⟨⟨3, 1⟩, ⟨5, 1⟩, ⟨3, 1⟩, ⟨4, 1⟩, ⟨7, 1⟩⟩ : SharedStats),
                ⟨⟨3, 1⟩, ⟨5, 1⟩, ⟨4, 1⟩, ⟨4, 1⟩, ⟨7, 1⟩⟩,
                ⟨⟨3, 1⟩, ⟨5, 1⟩, ⟨4, 1⟩, ⟨5, 1⟩, ⟨7, 1⟩⟩],
              s.currentClients.value = 2 + 1)
              ∧ (2 : Int) = 2
              ∧ (6 : Int) = 5 + 1
              ∧ (4 : Int) + 5 = 3 + 4 + (2 : Nat))) :=
  have hrun : handle_connection sampleEngine sampleCodec "<html>".toList
        [⟨"GET".toList, "/".toList, [], [], 0⟩,
          ⟨"POST".toList, "/flip,x".toList, [], "abc".toList, 3⟩]
        ⟨⟨2, 1⟩, ⟨5, 1⟩, ⟨3, 1⟩, ⟨4, 1⟩, ⟨7, 1⟩⟩
      = some ⟨⟨⟨2, 1⟩, ⟨6, 1⟩, ⟨4, 1⟩, ⟨5, 1⟩, ⟨7, 1⟩⟩,
          [create_home_post_request "<html>".toList, create_invalid_op_post_request],
          [⟨⟨3, 1⟩, ⟨5, 1⟩, ⟨3, 1⟩, ⟨4, 1⟩, ⟨7, 1⟩⟩, ⟨⟨3, 1⟩, ⟨5, 1⟩, ⟨4, 1⟩, ⟨4, 1⟩, ⟨7, 1⟩⟩,
            ⟨⟨3, 1⟩, ⟨5, 1⟩, ⟨4, 1⟩, ⟨5, 1⟩, ⟨7, 1⟩⟩]⟩ := by
    decide
  ⟨hrun,
    (connection_counters sampleEngine sampleCodec "<html>".toList
      [⟨"GET".toList, "/".toList, [], [], 0⟩,
        ⟨"POST".toList, "/flip,x".toList, [], "abc".toList, 3⟩]
      ⟨⟨2, 1⟩, ⟨5, 1⟩, ⟨3, 1⟩, ⟨4, 1⟩, ⟨7, 1⟩⟩).2 _ hrun⟩



theorem get_axis_cases (flipAxis : List Char) :
    get_axis flipAxis = Char.ofNat 0 ∨ get_axis flipAxis = 'h' ∨ get_axis flipAxis = 'v' := by
  unfold get_axis
  by_cases h1 : flipAxis.length > 1
  · rw [if_pos h1]; exact Or.inl rfl
  · rw [if_neg h1]
    by_cases h2 : flipAxis.headD (Char.ofNat 0) ≠ 'h' ∧ flipAxis.headD (Char.ofNat 0) ≠ 'v'
    · rw [if_pos h2]; exact Or.inl rfl
    · rw [if_neg h2]
      by_cases h3 : flipAxis.headD (Char.ofNat 0) = 'h'
      · exact Or.inr (Or.inl h3)
      · by_cases h4 : flipAxis.headD (Char.ofNat 0) = 'v'
        · exact Or.inr (Or.inr h4)
        · exact absurd ⟨h3, h4⟩ h2

theorem get_rotation_cases (rotationAngle : List Char) :
    get_rotation rotationAngle = intSentinal
      ∨ (-359 ≤ get_rotation rotationAngle ∧ get_rotation rotationAngle ≤ 359) := by
  unfold get_rotation
  by_cases h1 : (strtol rotationAngle).2 = 0
  · simp only [if_pos h1]; exact Or.inl trivial
  · simp only [if_neg h1]
    by_cases h2 : toInt32 (strtol rotationAngle).1 < rotationMin
        ∨ toInt32 (strtol rotationAngle).1 > rotationMax
    · rw [if_pos h2]; exact Or.inl rfl
    · rw [if_neg h2]
      unfold rotationMin rotationMax at h2
      right
      omega

theorem get_extent_cases (width height : List Char) :
    (get_extent width height).width = intSentinal
      ∨ (get_extent width height).height = intSentinal
      ∨ ((1 ≤ (get_extent width height).width ∧ (get_extent width height).width ≤ 10000)
        ∧ (1 ≤ (get_extent width height).height
          ∧ (get_extent width height).height ≤ 10000)) := by
  unfold get_extent
  by_cases h1 : (strtol width).2 = 0
  · simp only [if_pos h1]; exact Or.inl trivial
  · simp only [if_neg h1]
    by_cases h2 : (strtol height).2 = 0
    · simp only [if_pos h2]; exact Or.inr (Or.inl trivial)
    · simp only [if_neg h2]
      by_cases h3 : toInt32 (strtol width).1 > scalingMax
          ∨ toInt32 (strtol height).1 > scalingMin
      · simp only [if_pos h3]
        left
        have : intSentinal < scalingMin := by decide
        simp only [this, true_or, if_true]
      · simp only [if_neg h3]
        by_cases h4 : toInt32 (strtol width).1 < scalingMin
            ∨ toInt32 (strtol height).1 < scalingMin
        · simp only [if_pos h4]
          exact Or.inl trivial
        · simp only [if_neg h4]
          unfold scalingMin scalingMax at h3
          unfold scalingMin at h4
          right; right
          show (1 ≤ toInt32 (strtol width).1 ∧ toInt32 (strtol width).1 ≤ 10000)
            ∧ (1 ≤ toInt32 (strtol height).1 ∧ toInt32 (strtol height).1 ≤ 10000)
          omega



theorem shape_none (a : ClientInputs) (hf : a.hasFlipAxis = false) (hr : a.hasRotation = false)
    (hs : a.hasScale = false) :
    (requestedOperation a).inBounds
      ∧ operations_address a = addressOf [(requestedOperation a).segment] := by
  unfold requestedOperation operations_address
  rw [hf, hr, hs]
  have hb : (Operation.Rotate defaultRotation).inBounds := by
    show -359 ≤ (0 : Int) ∧ (0 : Int) ≤ 359
    decide
  exact ⟨hb, rfl⟩

theorem shape_flip (a : ClientInputs) (hf : a.hasFlipAxis = true) (hr : a.hasRotation = false)
    (hs : a.hasScale = false) (hax : a.flipAxis = 'h' ∨ a.flipAxis = 'v') :
    (requestedOperation a).inBounds
      ∧ operations_address a = addressOf [(requestedOperation a).segment] := by
  unfold requestedOperation operations_address
  rw [hf, hr, hs]
  rcases hax with e | e
  · rw [e]; exact ⟨trivial, rfl⟩
  · rw [e]; exact ⟨trivial, rfl⟩

theorem shape_rotate (a : ClientInputs) (hf : a.hasFlipAxis = false) (hr : a.hasRotation = true)
    (hs : a.hasScale = false) (hb : -359 ≤ a.rotationAngle ∧ a.rotationAngle ≤ 359) :
    (requestedOperation a).inBounds
      ∧ operations_address a = addressOf [(requestedOperation a).segment] := by
  unfold requestedOperation operations_address
  rw [hf, hr, hs]
  refine ⟨hb, ?_⟩
  show "/rotate,".toList ++ intDecimal a.rotationAngle ++ [] ++ []
    = '/' :: ("rotate,".toList ++ intDecimal a.rotationAngle) ++ []
  rw [List.append_nil, List.append_nil, List.append_nil]
  rfl

theorem shape_scale (a : ClientInputs) (hf : a.hasFlipAxis = false) (hr : a.hasRotation = false)
    (hs : a.hasScale = true)
    (hb : (1 ≤ a.scaleWidth ∧ a.scaleWidth ≤ 10000)
      ∧ (1 ≤ a.scaleHeight ∧ a.scaleHeight ≤ 10000)) :
    (requestedOperation a).inBounds
      ∧ operations_address a = addressOf [(requestedOperation a).segment] := by
  unfold requestedOperation operations_address
  rw [hf, hr, hs]
  refine ⟨hb, ?_⟩
  show [] ++ [] ++ ("/scale,".toList ++ intDecimal a.scaleWidth ++ ",".toList
      ++ intDecimal a.scaleHeight) ++ []
    = '/' :: ("scale,".toList ++ intDecimal a.scaleWidth ++ ',' :: intDecimal a.scaleHeight)
      ++ []
  simp only [List.append_nil, List.nil_append, List.append_assoc]
  rfl

theorem format_client_inputs_shape (raw : ClientInputsRaw)
    (h : (format_client_inputs raw).error = false) :
    (requestedOperation (format_client_inputs raw)).inBounds
      ∧ operations_address (format_client_inputs raw)
        = addressOf [(requestedOperation (format_client_inputs raw)).segment] := by
  rcases raw with ⟨err, port, inp, out, rot, flip, sw, sh⟩
  cases err
  swap
  · simp [format_client_inputs] at h
  cases flip with
  | none =>
    cases rot with
    | none =>
      cases sw with
      | none =>
        simp [format_client_inputs, copy_from_raw, ClientInputs.zero] at h ⊢
        exact shape_none _ rfl rfl rfl
      | some w =>
        by_cases hext : (get_extent w (sh.getD [])).width = intSentinal
            ∨ (get_extent w (sh.getD [])).height = intSentinal
        · simp [format_client_inputs, copy_from_raw, ClientInputs.zero, hext] at h
        · simp [format_client_inputs, copy_from_raw, ClientInputs.zero, hext] at h ⊢
          exact shape_scale _ rfl rfl rfl
            (((get_extent_cases w (sh.getD [])).resolve_left
              (fun e => hext (Or.inl e))).resolve_left (fun e => hext (Or.inr e)))
    | some r =>
      by_cases hrot : get_rotation r = intSentinal
      · cases sw <;> simp [format_client_inputs, copy_from_raw, ClientInputs.zero, hrot] at h
      · cases sw with
        | none =>
          simp [format_client_inputs, copy_from_raw, ClientInputs.zero, hrot] at h ⊢
          exact shape_rotate _ rfl rfl rfl ((get_rotation_cases r).resolve_left hrot)
        | some w =>
          by_cases hext : (get_extent w (sh.getD [])).width = intSentinal
              ∨ (get_extent w (sh.getD [])).height = intSentinal
          · simp [format_client_inputs, copy_from_raw, ClientInputs.zero, hrot, hext] at h
          · simp [format_client_inputs, copy_from_raw, ClientInputs.zero, hrot, hext] at h
  | some f =>
    by_cases hax : get_axis f = Char.ofNat 0
    · cases rot <;> cases sw <;>
        simp [format_client_inputs, copy_from_raw, ClientInputs.zero, hax] at h
    · cases rot with
      | none =>
        cases sw with
        | none =>
          simp [format_client_inputs, copy_from_raw, ClientInputs.zero, hax] at h ⊢
          exact shape_flip _ rfl rfl rfl ((get_axis_cases f).resolve_left hax)
        | some w =>
          by_cases hext : (get_extent w (sh.getD [])).width = intSentinal
              ∨ (get_extent w (sh.getD [])).height = intSentinal
          · simp [format_client_inputs, copy_from_raw, ClientInputs.zero, hax, hext] at h
          · simp [format_client_inputs, copy_from_raw, ClientInputs.zero, hax, hext] at h
      | some r =>
        by_cases hrot : get_rotation r = intSentinal
        · cases sw <;>
            simp [format_client_inputs, copy_from_raw, ClientInputs.zero, hax, hrot] at h
        · cases sw with
          | none =>
            simp [format_client_inputs, copy_from_raw, ClientInputs.zero, hax, hrot] at h
          | some w =>
            by_cases hext : (get_extent w (sh.getD [])).width = intSentinal
                ∨ (get_extent w (sh.getD [])).height = intSentinal
            · simp [format_client_inputs, copy_from_raw, ClientInputs.zero, hax, hrot, hext] at h
            · simp [format_client_inputs, copy_from_raw, ClientInputs.zero, hax, hrot, hext] at h

theorem pack_length_le (op : Operation) : (packOps [op]).length ≤ 100 := by
  rcases op with d | a | ⟨w, h⟩
  · show (2 : Nat) ≤ 100
    decide
  · cases a <;> decide
  · show (3 : Nat) ≤ 100
    decide

/-- C25: for every command line that `parse_client_inputs` accepts
(error = false), the address `construct_operations_request` builds decodes on
the server without parse error to the packed record of exactly one operation:
the flip, rotation or scaling that was asked for, with the parameters parsed,
or the rotation by 0 when none was asked for. The request of the client is
the line "POST", this address and "HTTP/1.1", the length header and the
image. -/
theorem client_address_decodes_to_requested_operation (argv : List (List Char))
    (image : BinaryData) (hok : (parse_client_inputs argv).error = false) :
    create_image_processing_command_buffer (operations_address (parse_client_inputs argv))
        = some ⟨false, (requestedOperation (parse_client_inputs argv)).pack,
            (requestedOperation (parse_client_inputs argv)).pack.length⟩
      ∧ unpackOps (requestedOperation (parse_client_inputs argv)).pack
        = [requestedOperation (parse_client_inputs argv)]
      ∧ (construct_operations_request (parse_client_inputs argv) image).data
        = "POST ".toList ++ operations_address (parse_client_inputs argv)
          ++ " HTTP/1.1\nContent-Length: ".toList ++ intDecimal (toInt64 image.length)
          ++ "\n\n".toList ++ image.data.take image.length := by
  obtain ⟨hb, haddr⟩ := format_client_inputs_shape (parse_raw_client_inputs argv) hok
  have hdec := decode_canonical_address [requestedOperation (parse_client_inputs argv)]
    (fun op hop => by rw [List.mem_singleton] at hop; rw [hop]; exact hb)
  rw [if_pos (pack_length_le _)] at hdec
  have hpack : packOps [requestedOperation (parse_client_inputs argv)]
      = (requestedOperation (parse_client_inputs argv)).pack := List.append_nil _
  refine ⟨?_, ?_, rfl⟩
  · show create_image_processing_command_buffer
      (operations_address (format_client_inputs (parse_raw_client_inputs argv))) = _
    rw [haddr]
    rw [← hpack]
    exact hdec
  · rw [← hpack]
    exact unpackOps_packOps _

/-- The statement above on the command line `1234 --rotate 90` and an image of
three bytes. -/
theorem client_address_decodes_to_requested_operation_witness :
    create_image_processing_command_buffer (operations_address (parse_client_inputs
          ["uqimageclient".toList, "1234".toList, "--rotate".toList, "90".toList]))
        = some ⟨false, (requestedOperation (parse_client_inputs
            ["uqimageclient".toList, "1234".toList, "--rotate".toList, "90".toList])).pack,
            (requestedOperation (parse_client_inputs
            ["uqimageclient".toList, "1234".toList, "--rotate".toList, "90".toList])).pack.length⟩
      ∧ unpackOps (requestedOperation (parse_client_inputs
            ["uqimageclient".toList, "1234".toList, "--rotate".toList, "90".toList])).pack
        = [requestedOperation (parse_client_inputs
            ["uqimageclient".toList, "1234".toList, "--rotate".toList, "90".toList])]
      ∧ (construct_operations_request (parse_client_inputs
            ["uqimageclient".toList, "1234".toList, "--rotate".toList, "90".toList])
          ⟨"abc".toList, 3⟩).data
        = "POST ".toList ++ operations_address (parse_client_inputs
            ["uqimageclient".toList, "1234".toList, "--rotate".toList, "90".toList])
          ++ " HTTP/1.1\nContent-Length: ".toList
          ++ intDecimal (toInt64 (⟨"abc".toList, 3⟩ : BinaryData).length)
          ++ "\n\n".toList
          ++ (⟨"abc".toList, 3⟩ : BinaryData).data.take (⟨"abc".toList, 3⟩ : BinaryData).length :=
  client_address_decodes_to_requested_operation
    ["uqimageclient".toList, "1234".toList, "--rotate".toList, "90".toList]
    ⟨"abc".toList, 3⟩ (by decide)

/-- The accepted command line `1234 --rotate 90` gives the address
"/rotate,90" and the operation Rotate(90). -/
theorem client_rotate_90_address :
    operations_address (parse_client_inputs
        ["uqimageclient".toList, "1234".toList, "--rotate".toList, "90".toList])
      = "/rotate,90".toList
    ∧ requestedOperation (parse_client_inputs
        ["uqimageclient".toList, "1234".toList, "--rotate".toList, "90".toList])
      = .Rotate 90 := by
  decide



theorem scale_not_cmdOption : "--scale".toList ∉ cmdOptions := by decide

theorem index_of_missing (arg : List Char) (h : arg ∉ cmdOptions) :
    get_string_array_index cmdOptions optionsCount arg = -1 := by
  have h0 : "--input".toList ≠ arg := fun e => h (e ▸ by decide)
  have h1 : "--out".toList ≠ arg := fun e => h (e ▸ by decide)
  have h2 : "--rotate".toList ≠ arg := fun e => h (e ▸ by decide)
  have h3 : "--flip".toList ≠ arg := fun e => h (e ▸ by decide)
  show get_string_array_loop
    ["--input".toList, "--out".toList, "--rotate".toList, "--flip".toList] 0 arg = -1
  rw [get_string_array_loop, if_neg h0, get_string_array_loop, if_neg h1,
    get_string_array_loop, if_neg h2, get_string_array_loop, if_neg h3, get_string_array_loop]

theorem fieldOf_input (raw : ClientInputsRaw) (value m : List Char) :
    ({ raw with inputFilePath := some value } : ClientInputsRaw).fieldOf m
      = if m = "--input".toList then some value else raw.fieldOf m := by
  unfold ClientInputsRaw.fieldOf
  by_cases h : m = "--input".toList
  · rw [if_pos h, if_pos h]
  · rw [if_neg h, if_neg h, if_neg h]

theorem fieldOf_out (raw : ClientInputsRaw) (value m : List Char) :
    ({ raw with outputFilePath := some value } : ClientInputsRaw).fieldOf m
      = if m = "--out".toList then some value else raw.fieldOf m := by
  unfold ClientInputsRaw.fieldOf
  by_cases h0 : m = "--input".toList
  · have h1 : m ≠ "--out".toList := by rw [h0]; decide
    rw [if_pos h0, if_pos h0, if_neg h1]
  · rw [if_neg h0, if_neg h0]
    by_cases h : m = "--out".toList
    · rw [if_pos h, if_pos h]
    · rw [if_neg h, if_neg h, if_neg h]

theorem fieldOf_rotate (raw : ClientInputsRaw) (value m : List Char) :
    ({ raw with rotationAngle := some value } : ClientInputsRaw).fieldOf m
      = if m = "--rotate".toList then some value else raw.fieldOf m := by
  unfold ClientInputsRaw.fieldOf
  by_cases h0 : m = "--input".toList
  · have h1 : m ≠ "--rotate".toList := by rw [h0]; decide
    rw [if_pos h0, if_pos h0, if_neg h1]
  · rw [if_neg h0, if_neg h0]
    by_cases h1 : m = "--out".toList
    · have h2 : m ≠ "--rotate".toList := by rw [h1]; decide
      rw [if_pos h1, if_pos h1, if_neg h2]
    · rw [if_neg h1, if_neg h1]
      by_cases h : m = "--rotate".toList
      · rw [if_pos h, if_pos h]
      · rw [if_neg h, if_neg h, if_neg h]

theorem fieldOf_flip (raw : ClientInputsRaw) (value m : List Char) :
    ({ raw with flipAxis := some value } : ClientInputsRaw).fieldOf m
      = if m = "--flip".toList then some value else raw.fieldOf m := by
  unfold ClientInputsRaw.fieldOf
  by_cases h0 : m = "--input".toList
  · have h1 : m ≠ "--flip".toList := by rw [h0]; decide
    rw [if_pos h0, if_pos h0, if_neg h1]
  · rw [if_neg h0, if_neg h0]
    by_cases h1 : m = "--out".toList
    · have h2 : m ≠ "--flip".toList := by rw [h1]; decide
      rw [if_pos h1, if_pos h1, if_neg h2]
    · rw [if_neg h1, if_neg h1]
      by_cases h2 : m = "--rotate".toList
      · have h3 : m ≠ "--flip".toList := by rw [h2]; decide
        rw [if_pos h2, if_pos h2, if_neg h3]
      · rw [if_neg h2, if_neg h2]
        by_cases h : m = "--flip".toList
        · rw [if_pos h, if_pos h]
        · rw [if_neg h, if_neg h, if_neg h]

theorem fieldOf_scale (raw : ClientInputsRaw) (width height m : List Char) :
    ({ raw with scaleWidth := some width, scaleHeight := some height }
        : ClientInputsRaw).fieldOf m
      = if m = "--scale".toList then some width else raw.fieldOf m := by
  unfold ClientInputsRaw.fieldOf
  by_cases h0 : m = "--input".toList
  · have h1 : m ≠ "--scale".toList := by rw [h0]; decide
    rw [if_pos h0, if_pos h0, if_neg h1]
  · rw [if_neg h0, if_neg h0]
    by_cases h1 : m = "--out".toList
    · have h2 : m ≠ "--scale".toList := by rw [h1]; decide
      rw [if_pos h1, if_pos h1, if_neg h2]
    · rw [if_neg h1, if_neg h1]
      by_cases h2 : m = "--rotate".toList
      · have h3 : m ≠ "--scale".toList := by rw [h2]; decide
        rw [if_pos h2, if_pos h2, if_neg h3]
      · rw [if_neg h2, if_neg h2]
        by_cases h3 : m = "--flip".toList
        · have h4 : m ≠ "--scale".toList := by rw [h3]; decide
          rw [if_pos h3, if_pos h3, if_neg h4]
        · rw [if_neg h3, if_neg h3]
          by_cases h : m = "--scale".toList
          · rw [if_pos h, if_pos h]
          · rw [if_neg h, if_neg h, if_neg h]

theorem option_fields (raw : ClientInputsRaw) (arg : List Char) (harg : arg ∈ cmdOptions) :
    get_string_array_index cmdOptions optionsCount arg ≠ -1
      ∧ raw.argPointer (get_string_array_index cmdOptions optionsCount arg) = raw.fieldOf arg
      ∧ ∀ value m,
        (raw.setArgPointer (get_string_array_index cmdOptions optionsCount arg) value).fieldOf m
          = if m = arg then some value else raw.fieldOf m := by
  have hmem : arg = "--input".toList ∨ arg = "--out".toList ∨ arg = "--rotate".toList
      ∨ arg = "--flip".toList := by
    unfold cmdOptions at harg
    rw [List.mem_cons, List.mem_cons, List.mem_cons, List.mem_singleton] at harg
    exact harg
  rcases hmem with h | h | h | h
  · have hi : get_string_array_index cmdOptions optionsCount arg = 0 := by rw [h]; decide
    rw [hi, h]
    exact ⟨by decide, rfl, fun value m => fieldOf_input raw value m⟩
  · have hi : get_string_array_index cmdOptions optionsCount arg = 1 := by rw [h]; decide
    rw [hi, h]
    exact ⟨by decide, rfl, fun value m => fieldOf_out raw value m⟩
  · have hi : get_string_array_index cmdOptions optionsCount arg = 2 := by rw [h]; decide
    rw [hi, h]
    exact ⟨by decide, rfl, fun value m => fieldOf_rotate raw value m⟩
  · have hi : get_string_array_index cmdOptions optionsCount arg = 3 := by rw [h]; decide
    rw [hi, h]
    exact ⟨by decide, rfl, fun value m => fieldOf_flip raw value m⟩



theorem clientLoopAccepts_step (arg : List Char) (rest args1 : List (List Char))
    (raw raw1 : ClientInputsRaw) (value : List Char)
    (hocc : optionOccurrences 0 (arg :: rest) = (arg, rest) :: optionOccurrences 0 args1)
    (hwf : wellFormedOccurrence (arg, rest))
    (hnone : raw.fieldOf arg = none)
    (hset : ∀ m, raw1.fieldOf m = if m = arg then some value else raw.fieldOf m)
    (heq : parse_raw_client_loop (arg :: rest) raw = parse_raw_client_loop args1 raw1)
    (ih : clientLoopAccepts args1 raw1) : clientLoopAccepts (arg :: rest) raw := by
  obtain ⟨hA, hB, hC, hD, hE⟩ := ih
  have hargset : (raw1.fieldOf arg).isSome = true := by rw [hset arg, if_pos rfl]; rfl
  have hnotin : arg ∉ (optionOccurrences 0 args1).map Prod.fst := by
    intro hin
    have := hC arg hin
    rw [this] at hargset
    cases hargset
  unfold clientLoopAccepts
  rw [hocc, heq, List.map_cons]
  refine ⟨?_, ?_, ?_, ?_, ?_⟩
  · intro occ hocc1
    rcases List.mem_cons.mp hocc1 with h | h
    · rw [h]; exact hwf
    · exact hA occ h
  · exact List.nodup_cons.mpr ⟨hnotin, hB⟩
  · intro m hm
    rcases List.mem_cons.mp hm with h | h
    · rw [h]; exact hnone
    · have h1 := hC m h
      have hne : m ≠ arg := fun e => hnotin (e ▸ h)
      rw [hset m, if_neg hne] at h1
      exact h1
  · intro m hm
    rcases List.mem_cons.mp hm with h | h
    · rw [h]; exact hE arg hargset
    · exact hD m h
  · intro m hm
    apply hE m
    rw [hset m]
    by_cases hma : m = arg
    · rw [if_pos hma]; rfl
    · rw [if_neg hma]; exact hm

theorem parse_raw_client_loop_accepts :
    ∀ (n : Nat) (args : List (List Char)) (raw : ClientInputsRaw), args.length ≤ n →
      (parse_raw_client_loop args raw).error = false → clientLoopAccepts args raw := by
  intro n
  induction n with
  | zero =>
    intro args raw hlen _
    have : args = [] := List.length_eq_zero.mp (Nat.le_zero.mp hlen)
    subst this
    exact ⟨fun _ h => absurd h (List.not_mem_nil _), List.nodup_nil,
      fun _ h => absurd h (List.not_mem_nil _), fun _ h => absurd h (List.not_mem_nil _),
      fun _ h => h⟩
  | succ n ih =>
    intro args raw hlen hok
    cases args with
    | nil =>
      exact ⟨fun _ h => absurd h (List.not_mem_nil _), List.nodup_nil,
        fun _ h => absurd h (List.not_mem_nil _), fun _ h => absurd h (List.not_mem_nil _),
        fun _ h => h⟩
    | cons arg rest =>
      by_cases harg : arg ∈ cmdOptions
      · obtain ⟨hidx, hptr, hset⟩ := option_fields raw arg harg
        have hns : arg ≠ "--scale".toList := fun e => scale_not_cmdOption (e ▸ harg)
        rw [parse_raw_client_loop.eq_def] at hok
        simp only [if_neg hidx] at hok
        by_cases hdup : (raw.argPointer
            (get_string_array_index cmdOptions optionsCount arg)).isSome = true
        · rw [if_pos hdup] at hok; cases hok
        · rw [if_neg hdup] at hok
          cases rest with
          | nil => cases hok
          | cons value rest1 =>
            simp only at hok
            by_cases hv : value.length = 0
            · rw [if_pos hv] at hok; cases hok
            · rw [if_neg hv] at hok
              have hlen1 : rest1.length ≤ n := by
                simp only [List.length_cons] at hlen; omega
              have hnone : raw.fieldOf arg = none := by
                rw [← hptr]
                cases hp : raw.argPointer (get_string_array_index cmdOptions optionsCount arg)
                · rfl
                · rw [hp] at hdup; exact absurd rfl hdup
              refine clientLoopAccepts_step arg (value :: rest1) rest1 raw _ value ?_ ?_ hnone
                (hset value) ?_ (ih rest1 _ hlen1 hok)
              · rw [optionOccurrences, if_neg hns]
                rfl
              · left
                refine ⟨harg, value, rest1, rfl, ?_⟩
                intro e; rw [e] at hv; exact hv rfl
              · rw [parse_raw_client_loop.eq_def]
                simp only [if_neg hidx, if_neg hdup, if_neg hv]
      · have hidx := index_of_missing arg harg
        rw [parse_raw_client_loop.eq_def] at hok
        simp only [if_pos hidx] at hok
        by_cases hs : arg = "--scale".toList
        · rw [if_pos hs] at hok
          cases rest with
          | nil => cases hok
          | cons width rest1 =>
            cases rest1 with
            | nil => cases hok
            | cons height rest2 =>
              simp only at hok
              by_cases hdup : raw.scaleWidth.isSome = true
              · rw [if_pos hdup] at hok; cases hok
              · rw [if_neg hdup] at hok
                have hlen1 : rest2.length ≤ n := by
                  simp only [List.length_cons] at hlen; omega
                have hnone : raw.fieldOf arg = none := by
                  rw [hs]
                  show raw.scaleWidth = none
                  cases hp : raw.scaleWidth
                  · rfl
                  · rw [hp] at hdup; exact absurd rfl hdup
                refine clientLoopAccepts_step arg (width :: height :: rest2) rest2 raw _ width
                  ?_ ?_ hnone ?_ ?_ (ih rest2 _ hlen1 hok)
                · rw [optionOccurrences, if_pos hs]
                  rfl
                · right
                  exact ⟨hs, by simp only [List.length_cons]; omega⟩
                · intro m
                  rw [hs]
                  exact fieldOf_scale raw width height m
                · rw [parse_raw_client_loop.eq_def]
                  simp only [if_pos hidx, if_pos hs, if_neg hdup]
        · rw [if_neg hs] at hok; cases hok



theorem format_error_of_raw_error (raw : ClientInputsRaw) (h : raw.error = true) :
    (format_client_inputs raw).error = true := by
  unfold format_client_inputs
  rw [if_pos h]

theorem format_two_flags (raw : ClientInputsRaw)
    (h2 : (raw.rotationAngle.isSome = true ∧ raw.flipAxis.isSome = true)
      ∨ (raw.rotationAngle.isSome = true ∧ raw.scaleWidth.isSome = true)
      ∨ (raw.flipAxis.isSome = true ∧ raw.scaleWidth.isSome = true)) :
    (format_client_inputs raw).error = true := by
  rcases raw with ⟨err, port, inp, out, rot, flip, sw, sh⟩
  cases err
  swap
  · exact format_error_of_raw_error _ rfl
  cases flip with
  | none =>
    cases rot with
    | none => simp at h2
    | some r =>
      cases sw with
      | none => simp at h2
      | some w =>
        by_cases hrot : get_rotation r = intSentinal <;>
        by_cases hext : (get_extent w (sh.getD [])).width = intSentinal
            ∨ (get_extent w (sh.getD [])).height = intSentinal <;>
        simp [format_client_inputs, copy_from_raw, ClientInputs.zero, hrot, hext]
  | some f =>
    cases rot with
    | none =>
      cases sw with
      | none => simp at h2
      | some w =>
        by_cases hax : get_axis f = Char.ofNat 0 <;>
        by_cases hext : (get_extent w (sh.getD [])).width = intSentinal
            ∨ (get_extent w (sh.getD [])).height = intSentinal <;>
        simp [format_client_inputs, copy_from_raw, ClientInputs.zero, hax, hext]
    | some r =>
      cases sw with
      | none =>
        by_cases hax : get_axis f = Char.ofNat 0 <;>
        by_cases hrot : get_rotation r = intSentinal <;>
        simp [format_client_inputs, copy_from_raw, ClientInputs.zero, hax, hrot]
      | some w =>
        by_cases hax : get_axis f = Char.ofNat 0 <;>
        by_cases hrot : get_rotation r = intSentinal <;>
        by_cases hext : (get_extent w (sh.getD [])).width = intSentinal
            ∨ (get_extent w (sh.getD [])).height = intSentinal <;>
        simp [format_client_inputs, copy_from_raw, ClientInputs.zero, hax, hrot, hext]

theorem raw_accepts (argv : List (List Char))
    (h : (parse_raw_client_inputs argv).error = false) :
    ∃ prog port rest, argv = prog :: port :: rest
      ∧ port ≠ "--".toList ∧ port ≠ "".toList
      ∧ parse_raw_client_inputs argv
        = parse_raw_client_loop rest ⟨false, some port, none, none, none, none, none, none⟩
      ∧ clientLoopAccepts rest ⟨false, some port, none, none, none, none, none, none⟩ := by
  cases argv with
  | nil => cases h
  | cons prog tail =>
    cases tail with
    | nil => cases h
    | cons port rest =>
      unfold parse_raw_client_inputs at h ⊢
      simp only at h ⊢
      by_cases hp : port = "--".toList ∨ port = "".toList
      · rw [if_pos hp] at h; cases h
      · rw [if_neg hp] at h
        rw [if_neg hp]
        exact ⟨prog, port, rest, rfl, fun e => hp (Or.inl e), fun e => hp (Or.inr e), rfl,
          parse_raw_client_loop_accepts rest.length rest _ (le_refl _) h⟩

theorem accepted_command_line (argv : List (List Char))
    (h : (parse_client_inputs argv).error = false) :
    ∃ prog port rest, argv = prog :: port :: rest
      ∧ port ≠ "--".toList ∧ port ≠ "".toList
      ∧ parse_raw_client_inputs argv
        = parse_raw_client_loop rest ⟨false, some port, none, none, none, none, none, none⟩
      ∧ clientLoopAccepts rest ⟨false, some port, none, none, none, none, none, none⟩ := by
  apply raw_accepts
  cases hR : (parse_raw_client_inputs argv).error
  · rfl
  · have := format_error_of_raw_error _ hR
    unfold parse_client_inputs at h
    rw [this] at h
    cases h

/-- C28: when two different ones of `--scale`, `--flip` and `--rotate` stand in
option position on a client command line, `parse_client_inputs` returns
error = true. -/
theorem more_than_one_operation_rejected (argv : List (List Char)) (first second : List Char)
    (hfirst : first ∈ optionsGiven argv) (hsecond : second ∈ optionsGiven argv)
    (hdiff : first ≠ second)
    (h1 : first ∈ ["--scale".toList, "--flip".toList, "--rotate".toList])
    (h2 : second ∈ ["--scale".toList, "--flip".toList, "--rotate".toList]) :
    (parse_client_inputs argv).error = true := by
  cases hE : (parse_client_inputs argv).error
  swap
  · rfl
  exfalso
  obtain ⟨prog, port, rest, hargv, -, -, hraw, -, -, -, hD, -⟩ := accepted_command_line argv hE
  rw [← hraw] at hD
  have hgiven : optionsGiven argv = (optionOccurrences 0 rest).map Prod.fst := by
    rw [hargv]; rfl
  rw [hgiven] at hfirst hsecond
  have hf := hD first hfirst
  have hs := hD second hsecond
  have herr : (format_client_inputs (parse_raw_client_inputs argv)).error = true := by
    apply format_two_flags
    rw [List.mem_cons, List.mem_cons, List.mem_singleton] at h1 h2
    rcases h1 with e1 | e1 | e1 <;> rcases h2 with e2 | e2 | e2
    · exact absurd (e1.trans e2.symm) hdiff
    · rw [e1] at hf; rw [e2] at hs; exact Or.inr (Or.inr ⟨hs, hf⟩)
    · rw [e1] at hf; rw [e2] at hs; exact Or.inr (Or.inl ⟨hs, hf⟩)
    · rw [e1] at hf; rw [e2] at hs; exact Or.inr (Or.inr ⟨hf, hs⟩)
    · exact absurd (e1.trans e2.symm) hdiff
    · rw [e1] at hf; rw [e2] at hs; exact Or.inl ⟨hs, hf⟩
    · rw [e1] at hf; rw [e2] at hs; exact Or.inr (Or.inl ⟨hf, hs⟩)
    · rw [e1] at hf; rw [e2] at hs; exact Or.inl ⟨hf, hs⟩
    · exact absurd (e1.trans e2.symm) hdiff
  unfold parse_client_inputs at hE
  rw [herr] at hE
  cases hE

/-- The statement above on the command line `1234 --rotate 90 --flip h`. -/
theorem more_than_one_operation_rejected_witness :
    (parse_client_inputs ["uqimageclient".toList, "1234".toList, "--rotate".toList,
      "90".toList, "--flip".toList, "h".toList]).error = true :=
  more_than_one_operation_rejected
    ["uqimageclient".toList, "1234".toList, "--rotate".toList, "90".toList, "--flip".toList,
      "h".toList]
    "--rotate".toList "--flip".toList (by decide) (by decide) (by decide) (by decide)
    (by decide)

/-- C29: `parse_client_inputs` returns error = true for every client command
line in which the port argument is missing, empty or "--"; or an argument in
option position is none of `--input`, `--out`, `--rotate`, `--flip`,
`--scale`; or an option stands a second time in option position; or
`--input`, `--out`, `--rotate` or `--flip` is not followed by a non-empty
value; or `--scale` is not followed by two values. -/
theorem malformed_client_command_line_rejected (argv : List (List Char))
    (h : malformedClientCommandLine argv) : (parse_client_inputs argv).error = true := by
  cases hE : (parse_client_inputs argv).error
  swap
  · rfl
  exfalso
  obtain ⟨prog, port, rest, hargv, hp1, hp2, -, hA, hB, -, -, -⟩ :=
    accepted_command_line argv hE
  have hgiven : optionsGiven argv = (optionOccurrences 0 rest).map Prod.fst := by
    rw [hargv]; rfl
  have hdrop : argv.drop 2 = rest := by rw [hargv]; rfl
  unfold malformedClientCommandLine at h
  rw [hgiven, hdrop] at h
  rcases h with h | h | h | ⟨name, hn, hbad⟩ | h | ⟨occ, ho, hc, hbad⟩ | ⟨occ, ho, hs, hbad⟩
  · rw [hargv] at h
    simp only [List.length_cons] at h
    omega
  · rw [hargv] at h
    simp only [List.getElem?_cons_succ, List.getElem?_cons_zero, Option.some.injEq] at h
    exact hp2 h
  · rw [hargv] at h
    simp only [List.getElem?_cons_succ, List.getElem?_cons_zero, Option.some.injEq] at h
    exact hp1 h
  · obtain ⟨occ, ho, rfl⟩ := List.mem_map.mp hn
    apply hbad
    unfold clientOptions
    rcases hA occ ho with ⟨hc, -⟩ | ⟨hs, -⟩
    · exact List.mem_append_left _ hc
    · exact List.mem_append_right _ (by rw [hs]; exact List.mem_singleton.mpr rfl)
  · exact h hB
  · rcases hA occ ho with ⟨-, value, tail, hv, hne⟩ | ⟨hs, -⟩
    · rcases hbad with e | e
      · rw [hv] at e; cases e
      · rw [hv] at e
        exact hne (Option.some.inj e)
    · exact scale_not_cmdOption (hs ▸ hc)
  · rcases hA occ ho with ⟨hc, -⟩ | ⟨-, hlen⟩
    · exact scale_not_cmdOption (hs ▸ hc)
    · omega

/-- The statement above on the command line `1234 --bogus x`, whose argument
in option position is no option. -/
theorem malformed_client_command_line_rejected_witness :
    (parse_client_inputs ["uqimageclient".toList, "1234".toList, "--bogus".toList,
      "x".toList]).error = true :=
  malformed_client_command_line_rejected
    ["uqimageclient".toList, "1234".toList, "--bogus".toList, "x".toList]
    (Or.inr (Or.inr (Or.inr (Or.inl ⟨"--bogus".toList, by decide, by decide⟩))))



/-- On a buffer that holds packed records from index `pre.length` on, the loop
of the dispatcher makes one pass per record, up to the first failure. -/
theorem apply_loop_passes_packOps {Img : Type} (engine : ImageEngine Img) (cb : CommandBuffer)
    (hnum : cb.numCmds = cb.buffer.length) :
    ∀ (ops : List Operation) (pre : List Int) (fuel : Nat) (bitmap : Img),
      cb.buffer = pre ++ packOps ops → (packOps ops).length + 1 ≤ fuel →
      apply_loop_passes engine cb fuel pre.length bitmap
        = some (passesOf engine pre.length bitmap ops) := by
  intro ops
  induction ops with
  | nil =>
    intro pre fuel bitmap hbuf hfuel
    obtain ⟨f, rfl⟩ : ∃ f, fuel = f + 1 := ⟨fuel - 1, by omega⟩
    have hlen : ¬ pre.length < cb.numCmds := by
      rw [hnum, hbuf]; simp [packOps]
    rw [apply_loop_passes, if_neg hlen]
    rfl
  | cons op rest ih =>
    intro pre fuel bitmap hbuf hfuel
    obtain ⟨f, rfl⟩ : ∃ f, fuel = f + 1 := ⟨fuel - 1, by omega⟩
    have hf : (packOps rest).length + 1 ≤ f := by
      rw [packOps_length_cons] at hfuel
      cases op with
      | Rotate a => simp only [Operation.pack, List.length_cons, List.length_nil] at hfuel; omega
      | Flip axis =>
        cases axis <;>
          simp only [Operation.pack, List.length_cons, List.length_nil] at hfuel <;> omega
      | Scale w h => simp only [Operation.pack, List.length_cons, List.length_nil] at hfuel; omega
    have hlen : pre.length < cb.numCmds := by
      rw [hnum, hbuf]
      cases op with
      | Rotate a => simp [packOps, Operation.pack]
      | Flip axis => cases axis <;> simp [packOps, Operation.pack]
      | Scale w h => simp [packOps, Operation.pack]
    have h0 : ∀ k, cb.buffer[pre.length + k]? = (packOps (op :: rest))[k]? := by
      intro k; rw [hbuf]; exact getElem?_append_offset _ _ k
    rw [apply_loop_passes, if_pos hlen]
    cases op with
    | Rotate a =>
      have e0 : cb.buffer[pre.length]? = some CMD_ROTATE := by
        have := h0 0; simpa [packOps, Operation.pack] using this
      have e1 : cb.buffer[pre.length + 1]? = some a := by
        have := h0 1; simpa [packOps, Operation.pack] using this
      have hnext : cb.buffer = (pre ++ [CMD_ROTATE, a]) ++ packOps rest := by
        rw [hbuf]; simp [packOps, Operation.pack]
      have hi : pre.length + 1 + 1 = (pre ++ [CMD_ROTATE, a]).length := by simp
      simp only [e0, e1, if_true]
      cases hr : engine.FreeImage_Rotate bitmap a with
      | none => simp [passesOf, engineStep, hr, Operation.pass]
      | some rotated =>
        simp only
        rw [hi, ih _ f rotated hnext hf]
        simp [passesOf, engineStep, hr, Operation.pass, Operation.pack]
    | Flip axis =>
      have hne : CMD_FLIP ≠ CMD_ROTATE := by decide
      have hvh : FLIP_VERTICAL ≠ FLIP_HORIZONTAL := by decide
      cases axis with
      | Horizontal =>
        have e0 : cb.buffer[pre.length]? = some CMD_FLIP := by
          have := h0 0; simpa [packOps, Operation.pack] using this
        have e1 : cb.buffer[pre.length + 1]? = some FLIP_HORIZONTAL := by
          have := h0 1; simpa [packOps, Operation.pack] using this
        have hnext : cb.buffer = (pre ++ [CMD_FLIP, FLIP_HORIZONTAL]) ++ packOps rest := by
          rw [hbuf]; simp [packOps, Operation.pack]
        have hi : pre.length + 1 + 1 = (pre ++ [CMD_FLIP, FLIP_HORIZONTAL]).length := by simp
        simp only [e0, e1, hne, if_false, if_true]
        by_cases hr : (engine.FreeImage_FlipHorizontal bitmap).1 = false
        · simp [passesOf, engineStep, hr, Operation.pass]
        · rw [if_neg hr, hi, ih _ f _ hnext hf]
          have hr1 : (engine.FreeImage_FlipHorizontal bitmap).1 = true := by simpa using hr
          simp [passesOf, engineStep, hr1, Operation.pass, Operation.pack]
      | Vertical =>
        have e0 : cb.buffer[pre.length]? = some CMD_FLIP := by
          have := h0 0; simpa [packOps, Operation.pack] using this
        have e1 : cb.buffer[pre.length + 1]? = some FLIP_VERTICAL := by
          have := h0 1; simpa [packOps, Operation.pack] using this
        have hnext : cb.buffer = (pre ++ [CMD_FLIP, FLIP_VERTICAL]) ++ packOps rest := by
          rw [hbuf]; simp [packOps, Operation.pack]
        have hi : pre.length + 1 + 1 = (pre ++ [CMD_FLIP, FLIP_VERTICAL]).length := by simp
        simp only [e0, e1, hne, hvh, if_false, if_true]
        by_cases hr : (engine.FreeImage_FlipVertical bitmap).1 = false
        · simp [passesOf, engineStep, hr, Operation.pass]
        · rw [if_neg hr, hi, ih _ f _ hnext hf]
          have hr1 : (engine.FreeImage_FlipVertical bitmap).1 = true := by simpa using hr
          simp [passesOf, engineStep, hr1, Operation.pass, Operation.pack]
    | Scale w h =>
      have hne : CMD_SCALE ≠ CMD_ROTATE := by decide
      have hne2 : CMD_SCALE ≠ CMD_FLIP := by decide
      have e0 : cb.buffer[pre.length]? = some CMD_SCALE := by
        have := h0 0; simpa [packOps, Operation.pack] using this
      have e1 : cb.buffer[pre.length + 1]? = some w := by
        have := h0 1; simpa [packOps, Operation.pack] using this
      have e2 : cb.buffer[pre.length + 2]? = some h := by
        have := h0 2; simpa [packOps, Operation.pack] using this
      have hnext : cb.buffer = (pre ++ [CMD_SCALE, w, h]) ++ packOps rest := by
        rw [hbuf]; simp [packOps, Operation.pack]
      have hi : pre.length + 2 + 1 = (pre ++ [CMD_SCALE, w, h]).length := by simp
      simp only [e0, e1, e2, hne, hne2, if_false, if_true]
      cases hr : engine.FreeImage_Rescale bitmap w h with
      | none => simp [passesOf, engineStep, hr, Operation.pass]
      | some scaled =>
        simp only
        rw [hi, ih _ f scaled hnext hf]
        simp [passesOf, engineStep, hr, Operation.pass, Operation.pack]



theorem pass_valid (op : Operation) (offset : Nat) :
    ((op.pass offset).command = CMD_ROTATE ∨ (op.pass offset).command = CMD_FLIP
        ∨ (op.pass offset).command = CMD_SCALE)
      ∧ (op.pass offset).index < offset + op.pack.length
      ∧ (∀ j ∈ (op.pass offset).paramIndices, j < offset + op.pack.length)
      ∧ ((op.pass offset).command = CMD_FLIP →
          ∀ v ∈ (op.pass offset).params, v = FLIP_HORIZONTAL ∨ v = FLIP_VERTICAL)
      ∧ (op.pass offset).command :: (op.pass offset).params = op.pack := by
  have hne : CMD_ROTATE ≠ CMD_FLIP := by decide
  have hne2 : CMD_SCALE ≠ CMD_FLIP := by decide
  rcases op with d | a | ⟨w, h⟩
  · refine ⟨Or.inl rfl, ?_, ?_, fun e => absurd e hne, rfl⟩
    · show offset < offset + 2; omega
    · intro j hj
      have : j = offset + 1 := List.mem_singleton.mp hj
      show j < offset + 2; omega
  · cases a
    · refine ⟨Or.inr (Or.inl rfl), ?_, ?_, ?_, rfl⟩
      · show offset < offset + 2; omega
      · intro j hj
        have : j = offset + 1 := List.mem_singleton.mp hj
        show j < offset + 2; omega
      · intro _ v hv
        exact Or.inl (List.mem_singleton.mp hv)
    · refine ⟨Or.inr (Or.inl rfl), ?_, ?_, ?_, rfl⟩
      · show offset < offset + 2; omega
      · intro j hj
        have : j = offset + 1 := List.mem_singleton.mp hj
        show j < offset + 2; omega
      · intro _ v hv
        exact Or.inr (List.mem_singleton.mp hv)
  · refine ⟨Or.inr (Or.inr rfl), ?_, ?_, fun e => absurd e hne2, rfl⟩
    · show offset < offset + 3; omega
    · intro j hj
      have hj1 : j ∈ [offset + 1, offset + 2] := hj
      rw [List.mem_cons, List.mem_singleton] at hj1
      show j < offset + 3
      omega

theorem passesOf_valid {Img : Type} (engine : ImageEngine Img) :
    ∀ (ops : List Operation) (offset : Nat) (bitmap : Img),
      ∀ p ∈ passesOf engine offset bitmap ops,
        (p.command = CMD_ROTATE ∨ p.command = CMD_FLIP ∨ p.command = CMD_SCALE)
          ∧ p.index < offset + (packOps ops).length
          ∧ (∀ j ∈ p.paramIndices, j < offset + (packOps ops).length)
          ∧ (p.command = CMD_FLIP →
              ∀ v ∈ p.params, v = FLIP_HORIZONTAL ∨ v = FLIP_VERTICAL) := by
  intro ops
  induction ops with
  | nil => intro offset bitmap p hp; cases hp
  | cons op rest ih =>
    intro offset bitmap p hp
    obtain ⟨h1, h2, h3, h4, -⟩ := pass_valid op offset
    have hlen : (packOps (op :: rest)).length = op.pack.length + (packOps rest).length :=
      List.length_append _ _
    have hhead : p = op.pass offset →
        (p.command = CMD_ROTATE ∨ p.command = CMD_FLIP ∨ p.command = CMD_SCALE)
          ∧ p.index < offset + (packOps (op :: rest)).length
          ∧ (∀ j ∈ p.paramIndices, j < offset + (packOps (op :: rest)).length)
          ∧ (p.command = CMD_FLIP →
              ∀ v ∈ p.params, v = FLIP_HORIZONTAL ∨ v = FLIP_VERTICAL) := by
      intro e
      rw [e, hlen]
      exact ⟨h1, by omega, fun j hj => by have := h3 j hj; omega, h4⟩
    unfold passesOf at hp
    cases hstep : engineStep engine bitmap op with
    | none =>
      rw [hstep] at hp
      exact hhead (List.mem_singleton.mp hp)
    | some next =>
      rw [hstep] at hp
      rcases List.mem_cons.mp hp with e | hin
      · exact hhead e
      · obtain ⟨g1, g2, g3, g4⟩ := ih (offset + op.pack.length) next p hin
        rw [hlen]
        exact ⟨g1, by omega, fun j hj => by have := g3 j hj; omega, g4⟩

theorem passesOf_records {Img : Type} (engine : ImageEngine Img) :
    ∀ (ops : List Operation) (offset : Nat) (bitmap : Img),
      (passesOf engine offset bitmap ops).map (fun p => p.command :: p.params)
          = (ops.take (passesOf engine offset bitmap ops).length).map Operation.pack
        ∧ (firstFailure engine bitmap ops = none →
            (passesOf engine offset bitmap ops).length = ops.length)
        ∧ (∀ k, firstFailure engine bitmap ops = some k →
            (passesOf engine offset bitmap ops).length = k + 1) := by
  intro ops
  induction ops with
  | nil =>
    intro offset bitmap
    exact ⟨rfl, fun _ => rfl, fun k hk => by cases hk⟩
  | cons op rest ih =>
    intro offset bitmap
    obtain ⟨-, -, -, -, hpack⟩ := pass_valid op offset
    unfold passesOf firstFailure
    cases hstep : engineStep engine bitmap op with
    | none =>
      refine ⟨?_, ?_, ?_⟩
      · show [(op.pass offset).command :: (op.pass offset).params] = [op.pack]
        rw [hpack]
      · intro h
        have h1 : (some 0 : Option Nat) = none := h
        cases h1
      · intro k hk
        have h1 : (some 0 : Option Nat) = some k := hk
        cases h1
        rfl
    | some next =>
      obtain ⟨i1, i2, i3⟩ := ih (offset + op.pack.length) next
      refine ⟨?_, ?_, ?_⟩
      · show ((op.pass offset).command :: (op.pass offset).params)
            :: (passesOf engine (offset + op.pack.length) next rest).map
              (fun p => p.command :: p.params)
          = op.pack :: (rest.take (passesOf engine (offset + op.pack.length) next rest).length).map
              Operation.pack
        rw [hpack, i1]
      · intro h
        have h0 : (firstFailure engine next rest).map (fun x => x + 1) = none := h
        have h1 : firstFailure engine next rest = none := by
          cases hff : firstFailure engine next rest with
          | none => rfl
          | some k => rw [hff] at h0; cases h0
        show (passesOf engine (offset + op.pack.length) next rest).length + 1 = rest.length + 1
        rw [i2 h1]
      · intro k hk
        have h0 : (firstFailure engine next rest).map (fun x => x + 1) = some k := hk
        cases hff : firstFailure engine next rest with
        | none => rw [hff] at h0; cases h0
        | some k1 =>
          rw [hff] at h0
          have h2 : some (k1 + 1) = some k := h0
          cases h2
          show (passesOf engine (offset + op.pack.length) next rest).length + 1 = k1 + 1 + 1
          rw [i3 k1 hff]

/-- C36: on every buffer returned by a decode without parse error, the loop of
`apply_cmd_buffer_to_image` returns, and on each of its passes the index is
below numCmds and points at a command tag (CMD_ROTATE, CMD_FLIP or CMD_SCALE),
every parameter is read at an index below numCmds, and a flip parameter is
FLIP_HORIZONTAL or FLIP_VERTICAL. The tag and parameters read on the passes are
the packed records of the decoded operations, in order, one pass per
operation: as many passes as operations when no transform fails, and k + 1
passes when operation k is the first to fail. -/
theorem dispatcher_loop_stays_aligned {Img : Type} (engine : ImageEngine Img)
    (address : List Char) (cb : CommandBuffer)
    (hdec : create_image_processing_command_buffer address = some cb)
    (hok : cb.parseError = false) (bitmap : Img) :
    ∃ passes, apply_loop_passes engine cb (cb.numCmds + 1) 0 bitmap = some passes
      ∧ (∀ p ∈ passes,
          (p.command = CMD_ROTATE ∨ p.command = CMD_FLIP ∨ p.command = CMD_SCALE)
            ∧ p.index < cb.numCmds
            ∧ (∀ j ∈ p.paramIndices, j < cb.numCmds)
            ∧ (p.command = CMD_FLIP →
                ∀ v ∈ p.params, v = FLIP_HORIZONTAL ∨ v = FLIP_VERTICAL))
      ∧ passes.map (fun p => p.command :: p.params)
        = ((unpackOps cb.buffer).take passes.length).map Operation.pack
      ∧ (firstFailure engine bitmap (unpackOps cb.buffer) = none →
          passes.length = (unpackOps cb.buffer).length)
      ∧ (∀ k, firstFailure engine bitmap (unpackOps cb.buffer) = some k →
          passes.length = k + 1) := by
  obtain ⟨hpack, hnum, -⟩ := decoded_buffer_packed address cb hdec hok
  have hrun := apply_loop_passes_packOps engine cb hnum (unpackOps cb.buffer) []
    (cb.numCmds + 1) bitmap (by rw [hpack, List.nil_append]) (by rw [hpack, hnum])
  have hzero : ([] : List Int).length = 0 := rfl
  rw [hzero] at hrun
  obtain ⟨r1, r2, r3⟩ := passesOf_records engine (unpackOps cb.buffer) 0 bitmap
  refine ⟨_, hrun, ?_, r1, r2, r3⟩
  intro p hp
  have hv := passesOf_valid engine (unpackOps cb.buffer) 0 bitmap p hp
  rw [hpack, ← hnum, Nat.zero_add] at hv
  exact hv

/-- The statement above on the address "/rotate,90/flip,h/scale,2,3" with an
engine that fails on the rotation by 90: the loop makes one pass. -/
theorem dispatcher_loop_stays_aligned_witness :
    ∃ passes, apply_loop_passes sampleEngine ⟨false, [0, 90, 1, 0, 2, 2, 3], 7⟩
          ((⟨false, [0, 90, 1, 0, 2, 2, 3], 7⟩ : CommandBuffer).numCmds + 1) 0 5 = some passes
      ∧ (∀ p ∈ passes,
          (p.command = CMD_ROTATE ∨ p.command = CMD_FLIP ∨ p.command = CMD_SCALE)
            ∧ p.index < (⟨false, [0, 90, 1, 0, 2, 2, 3], 7⟩ : CommandBuffer).numCmds
            ∧ (∀ j ∈ p.paramIndices,
                j < (⟨false, [0, 90, 1, 0, 2, 2, 3], 7⟩ : CommandBuffer).numCmds)
            ∧ (p.command = CMD_FLIP →
                ∀ v ∈ p.params, v = FLIP_HORIZONTAL ∨ v = FLIP_VERTICAL))
      ∧ passes.map (fun p => p.command :: p.params)
        = ((unpackOps (⟨false, [0, 90, 1, 0, 2, 2, 3], 7⟩ : CommandBuffer).buffer).take
            passes.length).map Operation.pack
      ∧ (firstFailure sampleEngine 5
            (unpackOps (⟨false, [0, 90, 1, 0, 2, 2, 3], 7⟩ : CommandBuffer).buffer) = none →
          passes.length
            = (unpackOps (⟨false, [0, 90, 1, 0, 2, 2, 3], 7⟩ : CommandBuffer).buffer).length)
      ∧ (∀ k, firstFailure sampleEngine 5
            (unpackOps (⟨false, [0, 90, 1, 0, 2, 2, 3], 7⟩ : CommandBuffer).buffer) = some k →
          passes.length = k + 1) :=
  dispatcher_loop_stays_aligned sampleEngine "/rotate,90/flip,h/scale,2,3".toList
    ⟨false, [0, 90, 1, 0, 2, 2, 3], 7⟩ (by decide) rfl 5


end ImageServer
